import Mathlib

/-!
SyntheticCoin PoDD device verifier: shallow embedding and verified properties

Embedding of `sync-blockchain/src/podd/device_verifier.{h,cpp}`, of the Gini part of
`RewardStatistics::GetStatistics` (`src/mining/reward_calculator.cpp`) and of
`SimplePoDDVerifier::VerifyDevices` (`src/sync-demo.cpp`).

Conventions of the embedding:
* `uint64_t` / `uint32_t` fields are `Nat`; every subtraction the C++ code performs
  on them is written with an explicit reduction modulo `2^64` / `2^32`.
* `double` values are modelled twice. In the exact model they are real numbers (`ℝ`):
  `std::exp`, `std::sqrt`, `std::log2` are `Real.exp`, `Real.sqrt`, `Real.logb 2`, and
  decimal literals are exact. In the binary64 model (the definitions of the `Binary64`
  namespace) every literal, arithmetic operation and integer conversion is followed by
  `round64`, rounding to the nearest binary64 value with ties to even (53-bit
  significand, gradual underflow; overflow, infinities and NaN are outside the model, and
  no operation is fused). The C library functions `std::exp`, `std::log2`, `std::pow`
  are the fields of a parameter `Libm`; `Libm.correctlyRounded` is the instance that
  rounds the exact value. Properties whose conclusion depends on rounding are stated on
  the binary64 model.
* `std::chrono::steady_clock::time_point` is an `Int` tick count and
  `steady_clock::now()` is an explicit argument of the operations that read it.
* `std::map<std::string, V>` is an association list with at most one live
  binding per key (`Map.find`, `Map.assign`).
* `int64_t` values are `Int`; their conversion to `uint64_t` is the residue modulo
  `2^64`.
-/

namespace PoDD

/-! ## Machine integers -/

/-- Unsigned subtraction on `w`-bit operands: the result of `a - b` in C++ when both
operands have an unsigned `w`-bit type. -/
def wrapSub (w a b : Nat) : Nat := (a + 2 ^ w - b % 2 ^ w) % 2 ^ w

/-! ## Data model (device_verifier.h) -/

/-- The record `struct DeviceFingerprint`. -/
structure DeviceFingerprint where
  avg_nonce_time_us : Nat
  timing_variance_us : Nat
  timing_samples : List Nat
  ip_address : String
  avg_latency_ms : Nat
  latency_variance_ms : Nat
  traceroute_hops : List Nat
  device_id : String
  firmware_version : String
  memory_size_mb : Nat
  chip_count : Nat
  power_consumption_watts : ℝ
  temperature_celsius : ℝ
  nonce_search_space : Nat
  nonce_increment_pattern : Nat
  recent_nonces : List Nat
  last_seen : Int
  uptime_seconds : Nat
  restart_count : Nat
  average_hashrate : ℝ

/-- The record `struct MiningSquad`. -/
structure MiningSquad where
  squad_id : String
  member_devices : List String
  created_at : Int
  total_hashrate : Nat
  blocks_found : Nat

/-- The record `DeviceVerifier::VerificationResult`. -/
structure VerificationResult where
  is_valid : Bool
  confidence : ℝ
  reason : String
  suspicious_pairs : List (String × String)

/-- A `std::map<std::string, V>` as an association list; the first binding of a key
is the live one. -/
abbrev Map (V : Type) := List (String × V)

/-- The lookup `m.find(k)`: `none` stands for `m.end()`. -/
def Map.find {V : Type} (m : Map V) (k : String) : Option V :=
  match m with
  | [] => none
  | (k', v) :: rest => if k' = k then some v else Map.find rest k

/-- The assignment `m[k] = v`: the binding of `k` is replaced or created. -/
def Map.assign {V : Type} (m : Map V) (k : String) (v : V) : Map V :=
  (k, v) :: m.filter (fun p => decide (p.1 ≠ k))

/-- The three registries held by `class DeviceVerifier`. -/
structure DeviceVerifier where
  m_devices : Map DeviceFingerprint
  m_registration_times : Map Int
  m_squads : Map MiningSquad

/-! ## DeviceFingerprint::CalculateSimilarity (device_verifier.cpp 26-65) -/

/-- The method `DeviceFingerprint::CalculateSimilarity`. The three integer differences
are taken in the unsigned type of the fields and then converted to `double`. -/
noncomputable def DeviceFingerprint.CalculateSimilarity
    (self other : DeviceFingerprint) : ℝ :=
  let similarity : ℝ := 0.0
  let weight_sum : ℝ := 0.0
  -- Timing similarity
  let timing_diff : ℝ :=
    |((wrapSub 64 self.avg_nonce_time_us other.avg_nonce_time_us : Nat) : ℝ)|
  let timing_similarity : ℝ := Real.exp (-timing_diff / 10000.0)
  let similarity := similarity + timing_similarity * 0.4
  let weight_sum := weight_sum + 0.4
  -- Variance similarity
  let variance_diff : ℝ :=
    |((wrapSub 64 self.timing_variance_us other.timing_variance_us : Nat) : ℝ)|
  let variance_similarity : ℝ := Real.exp (-variance_diff / 5000.0)
  let similarity := similarity + variance_similarity * 0.2
  let weight_sum := weight_sum + 0.2
  -- Network similarity
  let similarity := if self.ip_address = other.ip_address then similarity + 0.15 else similarity
  let latency_diff : ℝ :=
    |((wrapSub 32 self.avg_latency_ms other.avg_latency_ms : Nat) : ℝ)|
  let latency_similarity : ℝ := Real.exp (-latency_diff / 50.0)
  let similarity := similarity + latency_similarity * 0.05
  let weight_sum := weight_sum + 0.2
  -- Hardware similarity
  let similarity :=
    if self.firmware_version = other.firmware_version then similarity + 0.05 else similarity
  let similarity := if self.chip_count = other.chip_count then similarity + 0.05 else similarity
  let power_diff : ℝ := |self.power_consumption_watts - other.power_consumption_watts|
  let power_similarity : ℝ := Real.exp (-power_diff / 10.0)
  let similarity := similarity + power_similarity * 0.1
  let weight_sum := weight_sum + 0.2
  similarity / weight_sum

/-! ## DeviceVerifier::Impl (device_verifier.cpp 122-171) -/

/-- The loop that collects every timing sample `t > 0` of every fingerprint, in order
(written out twice in the source: in `DetectSynchronizedTiming` and in check 4 of
`VerifyDeviceDistribution`). -/
def pooledTimings (devices : List DeviceFingerprint) : List Nat :=
  devices.flatMap (fun device => device.timing_samples.filter (fun timing => decide (timing > 0)))

/-- The method `Impl::CalculateTimingEntropy`. The histogram `std::map<uint64_t, int>` is
the list of distinct buckets in increasing order, each with its number of occurrences. -/
noncomputable def Impl.CalculateTimingEntropy (timings : List Nat) : ℝ :=
  if timings.length < 2 then 0.0
  else
    let buckets : List Nat := timings.map (fun t => t / 1000)
    let histogram : List (Nat × Nat) :=
      (buckets.dedup.insertionSort (fun x y => x ≤ y)).map (fun b => (b, buckets.count b))
    let n : ℝ := (timings.length : ℝ)
    histogram.foldl
      (fun entropy bc =>
        let p : ℝ := (bc.2 : ℝ) / n
        if p > 0 then entropy - p * Real.logb 2 p else entropy)
      0.0

/-- The method `Impl::DetectSynchronizedTiming`. -/
noncomputable def Impl.DetectSynchronizedTiming (devices : List DeviceFingerprint) : Bool :=
  if devices.length < 2 then false
  else
    let all_timings := pooledTimings devices
    if all_timings.isEmpty then false
    else
      let mean : ℝ :=
        all_timings.foldl (fun (acc : ℝ) (timing : Nat) => acc + (timing : ℝ)) 0.0
          / (all_timings.length : ℝ)
      let sq_sum : ℝ :=
        all_timings.foldl (fun (acc : ℝ) (timing : Nat) => acc + ((timing : ℝ) - mean) ^ 2) 0.0
      let stdev : ℝ := Real.sqrt (sq_sum / (all_timings.length : ℝ))
      let cv : ℝ := stdev / mean
      decide (cv < 0.1)

/-! ## DeviceVerifier::RegisterDevice (device_verifier.cpp 176-188) -/

/-- The method `DeviceVerifier::RegisterDevice`; `now` is the reading of
`steady_clock::now()`. Returns the boolean result and the registry after the call. -/
def DeviceVerifier.RegisterDevice (self : DeviceVerifier) (now : Int) (device_id : String)
    (initial_fingerprint : DeviceFingerprint) : Bool × DeviceVerifier :=
  if (self.m_devices.find device_id).isSome then (false, self)
  else
    (true,
      { self with
        m_devices := self.m_devices.assign device_id initial_fingerprint
        m_registration_times := self.m_registration_times.assign device_id now })

/-! ## DeviceVerifier::VerifyDeviceDistribution (device_verifier.cpp 239-323) -/

/-- The index pairs `(i, j)` visited by `for i in [0, n) { for j in [i + 1, n) }`, in
the order of the loops. -/
def indexPairs (n : Nat) : List (Nat × Nat) :=
  (List.range n).flatMap (fun i => (List.range' (i + 1) (n - (i + 1))).map (fun j => (i, j)))

/-- The body of the inner loop of check 2. The pair that is recorded is read from
`device_ids` at the positions `i`, `j` of the two fingerprints in `fingerprints`. -/
noncomputable def similarityStep (device_ids : List String)
    (fingerprints : List DeviceFingerprint) (result : VerificationResult) (ij : Nat × Nat) :
    VerificationResult :=
  match fingerprints[ij.1]?, fingerprints[ij.2]? with
  | some fi, some fj =>
    if fi.CalculateSimilarity fj > 0.9 then
      { is_valid := false
        confidence := result.confidence - 0.3
        suspicious_pairs :=
          result.suspicious_pairs ++ [(device_ids.getD ij.1 "", device_ids.getD ij.2 "")]
        reason := "Devices too similar (likely same hardware)" }
    else result
  | _, _ => result

/-- The fingerprints collected by the loop at lines 251-258: the registered ids of the
list, in order, unregistered ids skipped. -/
def collectFingerprints (self : DeviceVerifier) (device_ids : List String) :
    List DeviceFingerprint :=
  device_ids.filterMap (fun id => self.m_devices.find id)

/-- The method `DeviceVerifier::VerifyDeviceDistribution`. -/
noncomputable def DeviceVerifier.VerifyDeviceDistribution (self : DeviceVerifier)
    (device_ids : List String) : VerificationResult :=
  let result : VerificationResult :=
    { is_valid := true, confidence := 1.0, reason := "", suspicious_pairs := [] }
  if device_ids.length < 2 then
    { result with reason := "Single device, no distribution to verify" }
  else
    let fingerprints := collectFingerprints self device_ids
    if fingerprints.length < 2 then
      { result with
        is_valid := false, confidence := 0.0, reason := "Not enough registered devices" }
    else
      -- Check 1: timing synchronization
      let result :=
        if Impl.DetectSynchronizedTiming fingerprints then
          { result with
            is_valid := false
            confidence := result.confidence - 0.4
            reason := "Timing patterns too synchronized" }
        else result
      -- Check 2: similarity between devices
      let result :=
        (indexPairs fingerprints.length).foldl (similarityStep device_ids fingerprints) result
      -- Check 3: network diversity
      let unique_ips : List String := (fingerprints.map (fun fp => fp.ip_address)).dedup
      let ip_diversity : ℝ := (unique_ips.length : ℝ) / (fingerprints.length : ℝ)
      let result :=
        if ip_diversity < 0.5 then
          { result with
            confidence := result.confidence - 0.2
            is_valid := if result.confidence - 0.2 < 0.5 then false else result.is_valid
            reason := result.reason ++ "; Low network diversity" }
        else result
      -- Check 4: timing entropy
      let all_timings := pooledTimings fingerprints
      let entropy := Impl.CalculateTimingEntropy all_timings
      let result :=
        if entropy < 2.0 then
          { result with
            confidence := result.confidence - 0.2
            is_valid := if result.confidence - 0.2 < 0.5 then false else result.is_valid
            reason := result.reason ++ "; Low timing entropy" }
        else result
      { result with confidence := max 0.0 (min 1.0 result.confidence) }

/-! ## Clock durations and conversions used by the remaining methods -/

/-- Ticks of `steady_clock` per second: the clock counts nanoseconds. -/
def ticksPerSecond : Int := 1000000000

/-- The value `duration_cast<hours>(d).count()`: the quotient truncated toward zero. -/
def durationHours (d : Int) : Int := Int.tdiv d (3600 * ticksPerSecond)

/-- The value `duration_cast<minutes>(d).count()`: the quotient truncated toward zero. -/
def durationMinutes (d : Int) : Int := Int.tdiv d (60 * ticksPerSecond)

/-- Conversion of a `double` to `uint64_t`: the fractional part is discarded. (C++ leaves
the conversion undefined for values below `-1` or from `2^64` on.) -/
noncomputable def doubleToUInt64 (x : ℝ) : Nat := ⌊x⌋₊ % 2 ^ 64

/-- Conversion of a `double` to `uint32_t`: the fractional part is discarded. -/
noncomputable def doubleToUInt32 (x : ℝ) : Nat := ⌊x⌋₊ % 2 ^ 32

/-- The number of keys of a map. -/
def Map.size {V : Type} (m : Map V) : Nat := (m.map (fun p => p.1)).dedup.length

/-- The record `struct ShareData`. -/
structure ShareData where
  device_id : String
  nonce : Nat
  timestamp_us : Nat
  difficulty : Nat
  block_hash : String
  hashrate : ℝ
  temperature : ℝ
  power_watts : ℝ
  ip_address : String
  latency_ms : Nat

/-! ## DeviceVerifier::UpdateDeviceFingerprint (device_verifier.cpp 190-237) -/

/-- The loop `for (int i = 9; i > 0; --i) timing_samples[i] = timing_samples[i-1]`. -/
def shiftTimingSamples (timing_samples : List Nat) : List Nat :=
  [9, 8, 7, 6, 5, 4, 3, 2, 1].foldl (fun s i => s.set i (s.getD (i - 1) 0)) timing_samples

/-- The loop at lines 206-213: the `uint64_t` sum and the number of the non-zero samples. -/
def sumAndCount (timing_samples : List Nat) : Nat × Nat :=
  timing_samples.foldl
    (fun sc sample => if sample > 0 then ((sc.1 + sample) % 2 ^ 64, sc.2 + 1) else sc)
    (0, 0)

/-- The body of `UpdateDeviceFingerprint` on the fingerprint `fp` found under the id;
`now` is the reading of `steady_clock::now()`. -/
noncomputable def updateFingerprint (fp : DeviceFingerprint) (now : Int)
    (share_data : ShareData) : DeviceFingerprint :=
  -- Update timing samples (rolling window)
  let timing_samples := (shiftTimingSamples fp.timing_samples).set 0 share_data.timestamp_us
  -- Update average timing
  let sc := sumAndCount timing_samples
  let avg_nonce_time_us := if sc.2 > 0 then sc.1 / sc.2 else fp.avg_nonce_time_us
  -- Update other metrics
  let recent_nonces := fp.recent_nonces ++ [share_data.nonce]
  let recent_nonces := if recent_nonces.length > 100 then recent_nonces.tail else recent_nonces
  -- Update network info if changed
  let ip_address := if share_data.ip_address ≠ "" then share_data.ip_address else fp.ip_address
  let avg_latency_ms :=
    if share_data.latency_ms > 0 then
      doubleToUInt32 ((fp.avg_latency_ms : ℝ) * 0.9 + (share_data.latency_ms : ℝ) * 0.1)
    else fp.avg_latency_ms
  { fp with
    timing_samples := timing_samples
    avg_nonce_time_us := avg_nonce_time_us
    recent_nonces := recent_nonces
    temperature_celsius := share_data.temperature
    power_consumption_watts := share_data.power_watts
    average_hashrate := share_data.hashrate
    last_seen := now
    ip_address := ip_address
    avg_latency_ms := avg_latency_ms }

/-- The method `DeviceVerifier::UpdateDeviceFingerprint`; `now` is the reading of
`steady_clock::now()`. -/
noncomputable def DeviceVerifier.UpdateDeviceFingerprint (self : DeviceVerifier) (now : Int)
    (device_id : String) (share_data : ShareData) : DeviceVerifier :=
  match self.m_devices.find device_id with
  | none => self
  | some fp =>
    { self with m_devices := self.m_devices.assign device_id (updateFingerprint fp now share_data) }

/-- Consecutive `UpdateDeviceFingerprint` calls for one device, each with its clock
reading and its share. -/
noncomputable def applyUpdates (self : DeviceVerifier) (device_id : String)
    (calls : List (Int × ShareData)) : DeviceVerifier :=
  calls.foldl (fun s c => s.UpdateDeviceFingerprint c.1 device_id c.2) self

/-! ## DetectSpoofing, GetDeviceRewardMultiplier, FormMiningSquad, GetDeviceHashrate
(device_verifier.cpp 325-416) -/

/-- The method `DeviceVerifier::DetectSpoofing`. -/
noncomputable def DeviceVerifier.DetectSpoofing (self : DeviceVerifier)
    (device_ids : List String) : Bool :=
  let verification := self.VerifyDeviceDistribution device_ids
  !verification.is_valid && decide (verification.confidence < 0.3)

/-- The method `DeviceVerifier::GetDeviceRewardMultiplier`; `now_age` and `now_seen` are
the readings of its first and second call of `steady_clock::now()`. -/
noncomputable def DeviceVerifier.GetDeviceRewardMultiplier (self : DeviceVerifier)
    (now_age now_seen : Int) (device_id : String) : ℝ :=
  match self.m_devices.find device_id with
  | none => 1.0
  | some fp =>
    let young : Bool :=
      match self.m_registration_times.find device_id with
      | some registered => decide (durationHours (now_age - registered) < 24)
      | none => false
    if young then 1.0
    else
      let multiplier : ℝ := 1.1
      let minutes := durationMinutes (now_seen - fp.last_seen)
      let multiplier := if minutes < 10 then multiplier + 0.05 else multiplier
      let multiplier :=
        if fp.power_consumption_watts > 0 ∧ fp.average_hashrate > 0 then
          let efficiency := fp.average_hashrate / fp.power_consumption_watts
          if efficiency > 100 then multiplier + 0.05 else multiplier
        else multiplier
      multiplier

/-- The method `DeviceVerifier::GetDeviceHashrate`. -/
noncomputable def DeviceVerifier.GetDeviceHashrate (self : DeviceVerifier)
    (device_id : String) : ℝ :=
  match self.m_devices.find device_id with
  | some fp => fp.average_hashrate
  | none => 0.0

/-- The loop `squad.total_hashrate += GetDeviceHashrate(id)`: the `uint64_t` total is
converted to `double`, the hashrate is added and the sum is converted back. -/
noncomputable def accumulateHashrate (self : DeviceVerifier) (device_ids : List String)
    (total_hashrate : Nat) : Nat :=
  device_ids.foldl
    (fun total id => doubleToUInt64 ((total : ℝ) + self.GetDeviceHashrate id)) total_hashrate

/-- The method `DeviceVerifier::FormMiningSquad`; `now_id` and `now_created` are the
readings of its first and second call of `steady_clock::now()`. Returns the squad id
(empty on failure) and the registry after the call. -/
noncomputable def DeviceVerifier.FormMiningSquad (self : DeviceVerifier)
    (now_id now_created : Int) (device_ids : List String) : String × DeviceVerifier :=
  if device_ids.length < 2 ∨ device_ids.length > 10 then ("", self)
  else if device_ids.any (fun id => (self.m_devices.find id).isNone) then ("", self)
  else if self.DetectSpoofing device_ids then ("", self)
  else
    let squad_id := "SQUAD_" ++ toString now_id
    let squad : MiningSquad :=
      { squad_id := squad_id
        member_devices := device_ids
        created_at := now_created
        total_hashrate := 0
        blocks_found := 0 }
    let squad := { squad with total_hashrate := accumulateHashrate self device_ids squad.total_hashrate }
    (squad_id, { self with m_squads := self.m_squads.assign squad_id squad })

/-! ## MiningSquad methods (device_verifier.cpp 85-119) -/

/-- The method `MiningSquad::AddDevice`: the boolean result and the squad after the call. -/
def MiningSquad.AddDevice (self : MiningSquad) (device_id : String) : Bool × MiningSquad :=
  if self.member_devices.length ≥ 10 then (false, self)
  else if device_id ∈ self.member_devices then (false, self)
  else (true, { self with member_devices := self.member_devices ++ [device_id] })

/-- The method `MiningSquad::RemoveDevice`: the first occurrence found by `std::find` is
erased. -/
def MiningSquad.RemoveDevice (self : MiningSquad) (device_id : String) : Bool × MiningSquad :=
  if device_id ∈ self.member_devices then
    (true, { self with member_devices := self.member_devices.erase device_id })
  else (false, self)

/-- The method `MiningSquad::GetRewardShare`. -/
noncomputable def MiningSquad.GetRewardShare (self : MiningSquad) (device_id : String) : ℝ :=
  if self.member_devices.isEmpty then 0.0
  else if device_id ∉ self.member_devices then 0.0
  else 1.0 / (self.member_devices.length : ℝ)

/-! ## Sequences of registry calls -/

/-- A call of one of the three mutating methods of `DeviceVerifier`, with the clock
readings it takes. -/
inductive Call where
  | registerDevice (now : Int) (device_id : String) (initial_fingerprint : DeviceFingerprint)
  | updateDeviceFingerprint (now : Int) (device_id : String) (share_data : ShareData)
  | formMiningSquad (now_id now_created : Int) (device_ids : List String)

/-- The registry built by the constructor `DeviceVerifier::DeviceVerifier()`. -/
def DeviceVerifier.empty : DeviceVerifier :=
  { m_devices := [], m_registration_times := [], m_squads := [] }

/-- The registry after one call. -/
noncomputable def DeviceVerifier.call (self : DeviceVerifier) : Call → DeviceVerifier
  | .registerDevice now device_id fp => (self.RegisterDevice now device_id fp).2
  | .updateDeviceFingerprint now device_id share_data =>
    self.UpdateDeviceFingerprint now device_id share_data
  | .formMiningSquad now_id now_created device_ids =>
    (self.FormMiningSquad now_id now_created device_ids).2

/-- The registry reached from the empty registry by a sequence of calls. -/
noncomputable def runCalls (calls : List Call) : DeviceVerifier :=
  calls.foldl DeviceVerifier.call DeviceVerifier.empty

/-! ## DeviceFingerprint::GetFingerprintHash (device_verifier.cpp 67-83) -/

/-- The string `data.str()` that `GetFingerprintHash` feeds to SHA-256: the identity
fields separated by `|`, the integers in decimal. -/
def DeviceFingerprint.hashInput (self : DeviceFingerprint) : String :=
  self.device_id ++ "|"
    ++ toString self.avg_nonce_time_us ++ "|"
    ++ toString self.timing_variance_us ++ "|"
    ++ self.firmware_version ++ "|"
    ++ toString self.chip_count ++ "|"
    ++ toString self.memory_size_mb

/-! ## Concrete fingerprints and registries used in the evaluations below -/

/-- A fingerprint with the given id, average nonce time and IP address; every other
field is a fixed value and the timing ring is empty (all ten slots zero). -/
noncomputable def sampleFingerprint (id : String) (avg : Nat) (ip : String) :
    DeviceFingerprint :=
  { avg_nonce_time_us := avg
    timing_variance_us := 100
    timing_samples := [0, 0, 0, 0, 0, 0, 0, 0, 0, 0]
    ip_address := ip
    avg_latency_ms := 20
    latency_variance_ms := 2
    traceroute_hops := []
    device_id := id
    firmware_version := "v2.1.0"
    memory_size_mb := 512
    chip_count := 1
    power_consumption_watts := 15
    temperature_celsius := 55
    nonce_search_space := 0
    nonce_increment_pattern := 1
    recent_nonces := []
    last_seen := 0
    uptime_seconds := 0
    restart_count := 0
    average_hashrate := 500 }

/-- Device `A`: average nonce time 2 microseconds. -/
noncomputable def deviceA : DeviceFingerprint := sampleFingerprint "A" 2 "10.0.0.5"

/-- Device `B`: average nonce time 1 microsecond, equal to `deviceA` in every other field
that `CalculateSimilarity` compares. -/
noncomputable def deviceB : DeviceFingerprint := sampleFingerprint "B" 1 "10.0.0.5"

/-- A registry holding `deviceA` under id `A` and `deviceB` under id `B`. -/
noncomputable def registryAB : DeviceVerifier :=
  { m_devices := [("A", deviceA), ("B", deviceB)]
    m_registration_times := [("A", 0), ("B", 0)]
    m_squads := [] }

/-- Device `E`: last seen at tick `29 h 58 min`, hashrate 5000 at 15 watts. -/
noncomputable def deviceE : DeviceFingerprint :=
  { sampleFingerprint "E" 7 "172.16.0.10" with
    last_seen := 107880000000000
    average_hashrate := 5000 }

/-- A registry holding `deviceE` under id `E`, registered at tick 0. -/
noncomputable def registryE : DeviceVerifier :=
  { m_devices := [("E", deviceE)]
    m_registration_times := [("E", 0)]
    m_squads := [] }

/-- A device with average hashrate 0.5 and an empty timing ring. -/
noncomputable def deviceH (id : String) (avg : Nat) : DeviceFingerprint :=
  { sampleFingerprint id avg "10.0.0.5" with average_hashrate := 0.5 }

/-- A registry holding two devices `H1`, `H2` of average hashrate 0.5 each. -/
noncomputable def registryHalf : DeviceVerifier :=
  { m_devices := [("H1", deviceH "H1" 1), ("H2", deviceH "H2" 2)]
    m_registration_times := [("H1", 0), ("H2", 0)]
    m_squads := [] }

/-- The registry `registryAB` after a squad of `A` and `B` was formed at clock reading 5. -/
noncomputable def registryAB1 : DeviceVerifier := (registryAB.FormMiningSquad 5 5 ["A", "B"]).2

/-- A share with the given timestamp and nonce; it reports no IP address and no latency. -/
noncomputable def sampleShare (timestamp nonce : Nat) : ShareData :=
  { device_id := "A"
    nonce := nonce
    timestamp_us := timestamp
    difficulty := 1
    block_hash := "00ff"
    hashrate := 480
    temperature := 60
    power_watts := 14
    ip_address := ""
    latency_ms := 0 }

/-- A share that reports a latency of 25 ms. -/
noncomputable def shareLatency25 : ShareData := { sampleShare 11 1 with latency_ms := 25 }

/-- A squad with the two members `A` and `B`. -/
def squadAB : MiningSquad :=
  { squad_id := "SQUAD_5", member_devices := ["A", "B"], created_at := 5,
    total_hashrate := 1000, blocks_found := 0 }

/-- The hypothesis of the amended C22 on one call: a registered fingerprint carries at most
100 recent nonces. -/
def Call.nonceCapped : Call → Prop
  | .registerDevice _ _ fp => fp.recent_nonces.length ≤ 100
  | .updateDeviceFingerprint _ _ _ => True
  | .formMiningSquad _ _ _ => True

/-- A fingerprint that carries 101 recent nonces. -/
noncomputable def deviceLong : DeviceFingerprint :=
  { sampleFingerprint "L" 1 "10.0.0.5" with recent_nonces := List.replicate 101 7 }

/-- A fingerprint whose device id `X|1` contains the separator character. -/
noncomputable def collidingA : DeviceFingerprint :=
  { sampleFingerprint "X|1" 2 "10.0.0.5" with timing_variance_us := 3, firmware_version := "F" }

/-- A fingerprint whose firmware version `3|F` contains the separator character. -/
noncomputable def collidingB : DeviceFingerprint :=
  { sampleFingerprint "X" 1 "10.0.0.5" with timing_variance_us := 2, firmware_version := "3|F" }

/-- The formula of the specification for `Similarity(a, b)`, with the mathematical
differences of the compared fields. -/
noncomputable def similarityFormula (a b : DeviceFingerprint) : ℝ :=
  0.4 * Real.exp (-|(a.avg_nonce_time_us : ℝ) - (b.avg_nonce_time_us : ℝ)| / 10000)
    + 0.2 * Real.exp (-|(a.timing_variance_us : ℝ) - (b.timing_variance_us : ℝ)| / 5000)
    + (if a.ip_address = b.ip_address then 0.15 else 0)
    + 0.05 * Real.exp (-|(a.avg_latency_ms : ℝ) - (b.avg_latency_ms : ℝ)| / 50)
    + (if a.firmware_version = b.firmware_version then 0.05 else 0)
    + (if a.chip_count = b.chip_count then 0.05 else 0)
    + 0.1 * Real.exp (-|a.power_consumption_watts - b.power_consumption_watts| / 10)

/-! ## The conditions of the four checks of VerifyDeviceDistribution -/

/-- The test of the inner loop of check 2 at the index pair `ij`:
`fingerprints[i].CalculateSimilarity(fingerprints[j]) > 0.9`. -/
noncomputable def pairFlagged (fingerprints : List DeviceFingerprint) (ij : Nat × Nat) : Bool :=
  match fingerprints[ij.1]?, fingerprints[ij.2]? with
  | some fi, some fj => decide (fi.CalculateSimilarity fj > 0.9)
  | _, _ => false

/-- The number of iterations of the loops of check 2 in which the test succeeds. -/
noncomputable def flaggedCount (fingerprints : List DeviceFingerprint) : Nat :=
  (indexPairs fingerprints.length).countP (pairFlagged fingerprints)

/-- The condition of check 3: unique IP addresses per fingerprint below 0.5. -/
noncomputable def diversityLow (fingerprints : List DeviceFingerprint) : Bool :=
  decide ((((fingerprints.map (fun fp => fp.ip_address)).dedup.length : Nat) : ℝ)
    / (fingerprints.length : ℝ) < 0.5)

/-- The condition of check 4: entropy of the pooled non-zero samples below 2.0. -/
noncomputable def entropyLow (fingerprints : List DeviceFingerprint) : Bool :=
  decide (Impl.CalculateTimingEntropy (pooledTimings fingerprints) < 2.0)

/-- The indicator 1 or 0 of a condition. -/
noncomputable def indicator (b : Bool) : ℝ := if b then 1 else 0

/-! ## Lemmas on the checks -/

/-- The number `k` of the specification: the index pairs `i < j` of the fingerprints
with `Similarity(fingerprints[i], fingerprints[j]) > 0.9`. -/
noncomputable def similarPairCount (fingerprints : List DeviceFingerprint) : Nat :=
  ((Finset.range fingerprints.length ×ˢ Finset.range fingerprints.length).filter
    (fun ij => ij.1 < ij.2 ∧ pairFlagged fingerprints ij = true)).card

/-- The proviso of the amended C37 on one call: a fingerprint is registered under its own
`device_id`. -/
def Call.idMatches : Call → Prop
  | .registerDevice _ device_id fp => fp.device_id = device_id
  | .updateDeviceFingerprint _ _ _ => True
  | .formMiningSquad _ _ _ => True

/-! ## RewardStatistics: the Gini coefficient (reward_calculator.cpp 222-282) -/

/-- The part of the class `RewardStatistics` that the Gini computation reads: the map
`m_miner_totals` from miner address to the `int64_t` total of its rewards. -/
structure RewardStatistics where
  m_miner_totals : Map Int

/-- The field `gini_coefficient` of `RewardStatistics::Stats`; the other fields of the
struct do not enter the Gini computation and are left out. -/
structure RewardStatistics.Stats where
  gini_coefficient : ℝ

/-- The statement `m_miner_totals[miner.address] += reward.total_reward` of
`RewardStatistics::RecordReward`; a missing entry starts at 0. (Overflow of the signed
sum is undefined in C++ and is not modelled.) -/
def RewardStatistics.RecordReward (self : RewardStatistics) (address : String)
    (total_reward : Int) : RewardStatistics :=
  { m_miner_totals :=
      self.m_miner_totals.assign address
        ((self.m_miner_totals.find address).getD 0 + total_reward) }

/-- Conversion of an `int64_t` to `uint64_t` (the usual arithmetic conversion applied to
`amounts[i]` when it is multiplied by a `size_t`). -/
def int64ToUInt64 (z : Int) : Nat := (z % 2 ^ 64).toNat

/-- The factor `2 * (i + 1) - amounts.size() - 1`, computed in `size_t`. -/
def giniFactor (i n : Nat) : Nat :=
  wrapSub 64 (wrapSub 64 ((2 * (i + 1)) % 2 ^ 64) n) 1

/-- The body of the loop at lines 273-276 on the accumulators
`(sum_of_values, sum_of_differences)`; the product is a `uint64_t` and is converted to
`double` when it is added. -/
noncomputable def giniStep (n : Nat) (acc : ℝ × ℝ) (ia : Nat × Int) : ℝ × ℝ :=
  (acc.1 + (ia.2 : ℝ),
    acc.2 + (((giniFactor ia.1 n * int64ToUInt64 ia.2) % 2 ^ 64 : Nat) : ℝ))

/-- The Gini part of `RewardStatistics::GetStatistics` (lines 263-282); `Stats stats = {}`
leaves the field at 0 when it is not assigned. -/
noncomputable def RewardStatistics.GetStatistics (self : RewardStatistics) :
    RewardStatistics.Stats :=
  if self.m_miner_totals.isEmpty then { gini_coefficient := 0 }
  else
    let amounts : List Int :=
      (self.m_miner_totals.map (fun kv => kv.2)).insertionSort (fun x y => x ≤ y)
    let sums : ℝ × ℝ := amounts.enum.foldl (giniStep amounts.length) (0, 0)
    let sum_of_values := sums.1
    let sum_of_differences := sums.2
    if sum_of_values > 0 then
      { gini_coefficient := sum_of_differences / ((amounts.length : ℝ) * sum_of_values) }
    else { gini_coefficient := 0 }

/-- The Gini formula of the specification: `sum_i (2i - n - 1) * x_i / (n * sum_i x_i)`
over the totals sorted ascending, `i` from 1 to `n`, in exact arithmetic. -/
noncomputable def giniFormula (totals : List Int) : ℝ :=
  let xs : List Int := totals.insertionSort (fun x y => x ≤ y)
  let n : Int := (xs.length : Int)
  (((xs.enum.map (fun ix : Nat × Int => (2 * ((ix.1 : Int) + 1) - n - 1) * ix.2)).sum : Int) : ℝ)
    / (((n : Int) : ℝ) * ((xs.sum : Int) : ℝ))

/-- The record history of two miners: `a` receives 1 and `b` receives 3. -/
def statsOneThree : RewardStatistics :=
  (({ m_miner_totals := [] } : RewardStatistics).RecordReward "a" 1).RecordReward "b" 3

/-! ## SimplePoDDVerifier (sync-demo.cpp 15-65) -/

/-- The struct `SimplePoDDVerifier::DeviceInfo`. -/
structure DeviceInfo where
  id : String
  hashrate_ghs : ℝ
  timing_variance : ℝ
  ip_address : String
  nonce_pattern : Int

/-- The method `SimplePoDDVerifier::VerifyDevices` (the console output is left out). -/
noncomputable def SimplePoDDVerifier.VerifyDevices (devices : List DeviceInfo) : Bool :=
  match devices with
  | [] => true
  | first :: _ =>
    if devices.length < 2 then true
    else
      let min_variance : ℝ :=
        devices.foldl (fun (m : ℝ) (dev : DeviceInfo) => min m dev.timing_variance)
          first.timing_variance
      let max_variance : ℝ :=
        devices.foldl (fun (m : ℝ) (dev : DeviceInfo) => max m dev.timing_variance)
          first.timing_variance
      let variance_spread : ℝ := max_variance - min_variance
      let timing_ok : Bool := decide (variance_spread > 0.1)
      let ip_count : List String := (devices.map (fun dev => dev.ip_address)).dedup
      let ip_ok : Bool := decide (ip_count.length > devices.length / 2)
      let pattern_count : List Int := (devices.map (fun dev => dev.nonce_pattern)).dedup
      let pattern_ok : Bool := decide (pattern_count.length > 1)
      timing_ok && ip_ok && pattern_ok

/-- The devices of Scenario 1 of `DemoPoDD` (sync-demo.cpp 132-138). -/
noncomputable def real_devices : List DeviceInfo :=
  [ { id := "BITAXE_001", hashrate_ghs := 500, timing_variance := 0.15,
      ip_address := "192.168.1.101", nonce_pattern := 1 },
    { id := "BITAXE_002", hashrate_ghs := 480, timing_variance := 0.22,
      ip_address := "192.168.1.102", nonce_pattern := 2 },
    { id := "BITAXE_003", hashrate_ghs := 510, timing_variance := 0.18,
      ip_address := "10.0.0.5", nonce_pattern := 1 },
    { id := "BITAXE_004", hashrate_ghs := 495, timing_variance := 0.25,
      ip_address := "172.16.0.10", nonce_pattern := 3 },
    { id := "BITAXE_005", hashrate_ghs := 505, timing_variance := 0.20,
      ip_address := "192.168.2.50", nonce_pattern := 2 } ]

/-! ## Binary64 arithmetic

The definitions above take every `double` operation as exact. The definitions of this
part embed the same source lines with every operation rounded to binary64: the result of
an addition, subtraction, multiplication or division of two `double` values, of a
conversion from `uint64_t` or `size_t`, and of a decimal literal is the representable
value nearest to the exact one, ties to even. Each operation is rounded on its own (no
fused multiply-add, no extended precision). A binary64 value is the real number it
stands for; overflow to infinity and NaN are outside the model. -/

/-- The integer nearest to `q`, the even one of the two when `q` lies halfway. -/
noncomputable def roundHalfEven (q : ℝ) : Int :=
  let n : Int := ⌊q⌋
  let r : ℝ := q - (n : ℝ)
  if r < 1 / 2 then n else if 1 / 2 < r then n + 1 else if n % 2 = 0 then n else n + 1

/-- The binary64 value nearest to the real `x` (round to nearest, ties to even): the
significand has 53 bits, and below `2^-1022` the spacing stays `2^-1074` (gradual
underflow). -/
noncomputable def round64 (x : ℝ) : ℝ :=
  let e : Int := max (Int.log 2 |x|) (-1022)
  let ulp : ℝ := (2 : ℝ) ^ (e - 52)
  (roundHalfEven (x / ulp) : ℝ) * ulp

/-- The functions of the C library that the verifier calls and whose results the
language does not fix bit for bit: `std::exp`, `std::log2`, `std::pow`. They are
parameters of the binary64 definitions; the one fact used about them is `exp(0) = 1`
(C standard, F.10.3.1). -/
structure Libm where
  exp : ℝ → ℝ
  log2 : ℝ → ℝ
  pow : ℝ → ℝ → ℝ
  exp_zero : exp 0 = 1

/-- A C library whose three functions return the binary64 value nearest to the exact
result. -/
noncomputable def Libm.correctlyRounded : Libm :=
  { exp := fun x => round64 (Real.exp x)
    log2 := fun x => round64 (Real.logb 2 x)
    pow := fun x y => round64 (x ^ y)
    exp_zero := by
      have hl : Int.log 2 |(1 : ℝ)| = 0 := by rw [abs_one, Int.log_one_right]
      have hq : (1 : ℝ) / (2 : ℝ) ^ ((0 : Int) - 52) = ((4503599627370496 : Int) : ℝ) := by
        norm_num
      have hf : ⌊((4503599627370496 : Int) : ℝ)⌋ = 4503599627370496 := Int.floor_intCast _
      simp only [Real.exp_zero, round64, roundHalfEven, hl]
      rw [max_eq_left (by norm_num), hq, hf]
      norm_num }

/-- The method `DeviceFingerprint::CalculateSimilarity` in binary64. The conversion of
the `uint32_t` latency difference to `double` is exact. -/
noncomputable def Binary64.CalculateSimilarity (L : Libm)
    (self other : DeviceFingerprint) : ℝ :=
  let similarity : ℝ := 0.0
  let weight_sum : ℝ := 0.0
  -- Timing similarity
  let timing_diff : ℝ :=
    |round64 ((wrapSub 64 self.avg_nonce_time_us other.avg_nonce_time_us : Nat) : ℝ)|
  let timing_similarity : ℝ := L.exp (round64 (-timing_diff / 10000.0))
  let similarity := round64 (similarity + round64 (timing_similarity * round64 0.4))
  let weight_sum := round64 (weight_sum + round64 0.4)
  -- Variance similarity
  let variance_diff : ℝ :=
    |round64 ((wrapSub 64 self.timing_variance_us other.timing_variance_us : Nat) : ℝ)|
  let variance_similarity : ℝ := L.exp (round64 (-variance_diff / 5000.0))
  let similarity := round64 (similarity + round64 (variance_similarity * round64 0.2))
  let weight_sum := round64 (weight_sum + round64 0.2)
  -- Network similarity
  let similarity :=
    if self.ip_address = other.ip_address then round64 (similarity + round64 0.15)
    else similarity
  let latency_diff : ℝ :=
    |((wrapSub 32 self.avg_latency_ms other.avg_latency_ms : Nat) : ℝ)|
  let latency_similarity : ℝ := L.exp (round64 (-latency_diff / 50.0))
  let similarity := round64 (similarity + round64 (latency_similarity * round64 0.05))
  let weight_sum := round64 (weight_sum + round64 0.2)
  -- Hardware similarity
  let similarity :=
    if self.firmware_version = other.firmware_version then
      round64 (similarity + round64 0.05)
    else similarity
  let similarity :=
    if self.chip_count = other.chip_count then round64 (similarity + round64 0.05)
    else similarity
  let power_diff : ℝ :=
    |round64 (self.power_consumption_watts - other.power_consumption_watts)|
  let power_similarity : ℝ := L.exp (round64 (-power_diff / 10.0))
  let similarity := round64 (similarity + round64 (power_similarity * round64 0.1))
  let weight_sum := round64 (weight_sum + round64 0.2)
  round64 (similarity / weight_sum)

/-- The method `Impl::CalculateTimingEntropy` in binary64. The conversion of the `int`
count to `double` is exact; the conversion of `timings.size()` is rounded. -/
noncomputable def Binary64.CalculateTimingEntropy (L : Libm) (timings : List Nat) : ℝ :=
  if timings.length < 2 then 0.0
  else
    let buckets : List Nat := timings.map (fun t => t / 1000)
    let histogram : List (Nat × Nat) :=
      (buckets.dedup.insertionSort (fun x y => x ≤ y)).map (fun b => (b, buckets.count b))
    let n : ℝ := round64 (timings.length : ℝ)
    histogram.foldl
      (fun entropy bc =>
        let p : ℝ := round64 ((bc.2 : ℝ) / n)
        if p > 0 then round64 (entropy - round64 (p * L.log2 p)) else entropy)
      0.0

/-- The method `Impl::DetectSynchronizedTiming` in binary64; `std::sqrt` returns the
nearest value (IEEE 754). -/
noncomputable def Binary64.DetectSynchronizedTiming (L : Libm)
    (devices : List DeviceFingerprint) : Bool :=
  if devices.length < 2 then false
  else
    let all_timings := pooledTimings devices
    if all_timings.isEmpty then false
    else
      let mean : ℝ :=
        round64 (all_timings.foldl
            (fun (acc : ℝ) (timing : Nat) => round64 (acc + round64 (timing : ℝ))) 0.0
          / round64 (all_timings.length : ℝ))
      let sq_sum : ℝ :=
        all_timings.foldl
          (fun (acc : ℝ) (timing : Nat) =>
            round64 (acc + L.pow (round64 (round64 (timing : ℝ) - mean)) 2)) 0.0
      let stdev : ℝ := round64 (Real.sqrt (round64 (sq_sum / round64 (all_timings.length : ℝ))))
      let cv : ℝ := round64 (stdev / mean)
      decide (cv < round64 0.1)

/-- The body of the inner loop of check 2 in binary64. -/
noncomputable def Binary64.similarityStep (L : Libm) (device_ids : List String)
    (fingerprints : List DeviceFingerprint) (result : VerificationResult) (ij : Nat × Nat) :
    VerificationResult :=
  match fingerprints[ij.1]?, fingerprints[ij.2]? with
  | some fi, some fj =>
    if Binary64.CalculateSimilarity L fi fj > round64 0.9 then
      { is_valid := false
        confidence := round64 (result.confidence - round64 0.3)
        suspicious_pairs :=
          result.suspicious_pairs ++ [(device_ids.getD ij.1 "", device_ids.getD ij.2 "")]
        reason := "Devices too similar (likely same hardware)" }
    else result
  | _, _ => result

/-- The method `DeviceVerifier::VerifyDeviceDistribution` in binary64. -/
noncomputable def Binary64.VerifyDeviceDistribution (L : Libm) (self : DeviceVerifier)
    (device_ids : List String) : VerificationResult :=
  let result : VerificationResult :=
    { is_valid := true, confidence := 1.0, reason := "", suspicious_pairs := [] }
  if device_ids.length < 2 then
    { result with reason := "Single device, no distribution to verify" }
  else
    let fingerprints := collectFingerprints self device_ids
    if fingerprints.length < 2 then
      { result with
        is_valid := false, confidence := 0.0, reason := "Not enough registered devices" }
    else
      -- Check 1: timing synchronization
      let result :=
        if Binary64.DetectSynchronizedTiming L fingerprints then
          { result with
            is_valid := false
            confidence := round64 (result.confidence - round64 0.4)
            reason := "Timing patterns too synchronized" }
        else result
      -- Check 2: similarity between devices
      let result :=
        (indexPairs fingerprints.length).foldl
          (Binary64.similarityStep L device_ids fingerprints) result
      -- Check 3: network diversity
      let unique_ips : List String := (fingerprints.map (fun fp => fp.ip_address)).dedup
      let ip_diversity : ℝ :=
        round64 (round64 (unique_ips.length : ℝ) / round64 (fingerprints.length : ℝ))
      let result :=
        if ip_diversity < 0.5 then
          { result with
            confidence := round64 (result.confidence - round64 0.2)
            is_valid :=
              if round64 (result.confidence - round64 0.2) < 0.5 then false
              else result.is_valid
            reason := result.reason ++ "; Low network diversity" }
        else result
      -- Check 4: timing entropy
      let all_timings := pooledTimings fingerprints
      let entropy := Binary64.CalculateTimingEntropy L all_timings
      let result :=
        if entropy < 2.0 then
          { result with
            confidence := round64 (result.confidence - round64 0.2)
            is_valid :=
              if round64 (result.confidence - round64 0.2) < 0.5 then false
              else result.is_valid
            reason := result.reason ++ "; Low timing entropy" }
        else result
      { result with confidence := max 0.0 (min 1.0 result.confidence) }

/-- The method `DeviceVerifier::DetectSpoofing` in binary64. -/
noncomputable def Binary64.DetectSpoofing (L : Libm) (self : DeviceVerifier)
    (device_ids : List String) : Bool :=
  let verification := Binary64.VerifyDeviceDistribution L self device_ids
  !verification.is_valid && decide (verification.confidence < round64 0.3)

/-- The method `DeviceVerifier::GetDeviceRewardMultiplier` in binary64; `now_age` and
`now_seen` are the readings of its two calls of `steady_clock::now()`. -/
noncomputable def Binary64.GetDeviceRewardMultiplier (self : DeviceVerifier)
    (now_age now_seen : Int) (device_id : String) : ℝ :=
  match self.m_devices.find device_id with
  | none => 1.0
  | some fp =>
    let young : Bool :=
      match self.m_registration_times.find device_id with
      | some registered => decide (durationHours (now_age - registered) < 24)
      | none => false
    if young then 1.0
    else
      let multiplier : ℝ := round64 1.1
      let minutes := durationMinutes (now_seen - fp.last_seen)
      let multiplier := if minutes < 10 then round64 (multiplier + round64 0.05) else multiplier
      let multiplier :=
        if fp.power_consumption_watts > 0 ∧ fp.average_hashrate > 0 then
          let efficiency := round64 (fp.average_hashrate / fp.power_consumption_watts)
          if efficiency > 100 then round64 (multiplier + round64 0.05) else multiplier
        else multiplier
      multiplier

/-- The loop `squad.total_hashrate += GetDeviceHashrate(id)` in binary64: the `uint64_t`
total is converted to the nearest `double`, the hashrate is added with rounding and the
sum is converted back, the fractional part being discarded. -/
noncomputable def Binary64.accumulateHashrate (self : DeviceVerifier)
    (device_ids : List String) (total_hashrate : Nat) : Nat :=
  device_ids.foldl
    (fun total id =>
      doubleToUInt64 (round64 (round64 (total : ℝ) + self.GetDeviceHashrate id)))
    total_hashrate

/-- The method `DeviceVerifier::FormMiningSquad` in binary64; `now_id` and `now_created`
are the readings of its first and second call of `steady_clock::now()`. -/
noncomputable def Binary64.FormMiningSquad (L : Libm) (self : DeviceVerifier)
    (now_id now_created : Int) (device_ids : List String) : String × DeviceVerifier :=
  if device_ids.length < 2 ∨ device_ids.length > 10 then ("", self)
  else if device_ids.any (fun id => (self.m_devices.find id).isNone) then ("", self)
  else if Binary64.DetectSpoofing L self device_ids then ("", self)
  else
    let squad_id := "SQUAD_" ++ toString now_id
    let squad : MiningSquad :=
      { squad_id := squad_id
        member_devices := device_ids
        created_at := now_created
        total_hashrate := 0
        blocks_found := 0 }
    let squad :=
      { squad with
        total_hashrate := Binary64.accumulateHashrate self device_ids squad.total_hashrate }
    (squad_id, { self with m_squads := self.m_squads.assign squad_id squad })

/-- The method `MiningSquad::GetRewardShare` in binary64: the size is converted to
`double` and the quotient is rounded. -/
noncomputable def Binary64.GetRewardShare (self : MiningSquad) (device_id : String) : ℝ :=
  if self.member_devices.isEmpty then 0.0
  else if device_id ∉ self.member_devices then 0.0
  else round64 (1.0 / round64 (self.member_devices.length : ℝ))

/-- The sum of a list of `double` values as a loop `sum += x` computes it: added from the
left, every addition rounded to binary64. -/
noncomputable def sum64 (xs : List ℝ) : ℝ :=
  xs.foldl (fun acc x => round64 (acc + x)) 0.0

/-- A squad with six pairwise distinct members. -/
def squadSix : MiningSquad :=
  { squad_id := "SQUAD_6", member_devices := ["A", "B", "C", "D", "E", "F"], created_at := 6,
    total_hashrate := 3000, blocks_found := 0 }

/-! ## The conditions of the four checks in binary64 -/

/-- The test of the inner loop of check 2 at the index pair `ij`, in binary64. -/
noncomputable def Binary64.pairFlagged (L : Libm) (fingerprints : List DeviceFingerprint)
    (ij : Nat × Nat) : Bool :=
  match fingerprints[ij.1]?, fingerprints[ij.2]? with
  | some fi, some fj => decide (Binary64.CalculateSimilarity L fi fj > round64 0.9)
  | _, _ => false

/-- The number of iterations of the loops of check 2 in which the binary64 test
succeeds. -/
noncomputable def Binary64.flaggedCount (L : Libm) (fingerprints : List DeviceFingerprint) :
    Nat :=
  (indexPairs fingerprints.length).countP (Binary64.pairFlagged L fingerprints)

/-- The number `k` of the specification with the similarity computed in binary64: the
index pairs `i < j` of the fingerprints with
`fingerprints[i].CalculateSimilarity(fingerprints[j]) > 0.9`. -/
noncomputable def Binary64.similarPairCount (L : Libm)
    (fingerprints : List DeviceFingerprint) : Nat :=
  ((Finset.range fingerprints.length ×ˢ Finset.range fingerprints.length).filter
    (fun ij => ij.1 < ij.2 ∧ Binary64.pairFlagged L fingerprints ij = true)).card

/-- The condition of check 3 in binary64: the rounded quotient of the two sizes is below
0.5. -/
noncomputable def Binary64.diversityLow (fingerprints : List DeviceFingerprint) : Bool :=
  decide (round64
      (round64 (((fingerprints.map (fun fp => fp.ip_address)).dedup.length : Nat) : ℝ)
        / round64 (fingerprints.length : ℝ)) < 0.5)

/-- The condition of check 4 in binary64. -/
noncomputable def Binary64.entropyLow (L : Libm) (fingerprints : List DeviceFingerprint) :
    Bool :=
  decide (Binary64.CalculateTimingEntropy L (pooledTimings fingerprints) < 2.0)

/-- The confidence before the final clamp as the code accumulates it: starting from 1.0,
subtract 0.4 if `s`, then 0.3 once for each of the `k` flagged pairs, then 0.2 if `d`,
then 0.2 if `e`, every subtraction rounded to binary64. -/
noncomputable def Binary64.deductions (s : Bool) (k : Nat) (d e : Bool) : ℝ :=
  let c : ℝ := if s then round64 (1.0 - round64 0.4) else 1.0
  let c : ℝ := (fun x => round64 (x - round64 0.3))^[k] c
  let c : ℝ := if d then round64 (c - round64 0.2) else c
  let c : ℝ := if e then round64 (c - round64 0.2) else c
  c

/-- Eleven timing samples, one in each of the 1 ms buckets 1 to 11. -/
def timingsEleven : List Nat :=
  [1000, 2000, 3000, 4000, 5000, 6000, 7000, 8000, 9000, 10000, 11000]

/-- A registry holding two devices whose average hashrates are `2^53` and 1. -/
noncomputable def registryPow53 : DeviceVerifier :=
  { m_devices :=
      [("P1", { sampleFingerprint "P1" 1 "10.0.0.5" with average_hashrate := 9007199254740992 }),
       ("P2", { sampleFingerprint "P2" 2 "10.0.0.6" with average_hashrate := 1 })]
    m_registration_times := [("P1", 0), ("P2", 0)]
    m_squads := [] }

/-! ## Lemmas on CalculateSimilarity -/

theorem wrapSub_self (w a : Nat) : wrapSub w a a = 0 := by
  unfold wrapSub
  have h : a % 2 ^ w ≤ a := Nat.mod_le _ _
  have e : a + 2 ^ w - a % 2 ^ w = (a - a % 2 ^ w) + 2 ^ w := by omega
  rw [e, Nat.add_mod_right]
  have hd : 2 ^ w ∣ a - a % 2 ^ w := Nat.dvd_sub_mod a
  exact Nat.mod_eq_zero_of_dvd hd

theorem exp_neg_div_mem (x c : ℝ) (hx : 0 ≤ x) (hc : 0 < c) :
    0 < Real.exp (-x / c) ∧ Real.exp (-x / c) ≤ 1 := by
  refine ⟨Real.exp_pos _, ?_⟩
  rw [Real.exp_le_one_iff]
  have : 0 ≤ x / c := div_nonneg hx hc.le
  have e : -x / c = -(x / c) := by ring
  rw [e]
  linarith

theorem CalculateSimilarity_self (a : DeviceFingerprint) : a.CalculateSimilarity a = 1 := by
  simp only [DeviceFingerprint.CalculateSimilarity, wrapSub_self]
  norm_num

theorem CalculateSimilarity_bounds (a b : DeviceFingerprint) :
    0 ≤ a.CalculateSimilarity b ∧ a.CalculateSimilarity b ≤ 1 := by
  simp only [DeviceFingerprint.CalculateSimilarity]
  obtain ⟨h1, h1'⟩ := exp_neg_div_mem
    |((wrapSub 64 a.avg_nonce_time_us b.avg_nonce_time_us : Nat) : ℝ)| 10000.0
    (abs_nonneg _) (by norm_num)
  obtain ⟨h2, h2'⟩ := exp_neg_div_mem
    |((wrapSub 64 a.timing_variance_us b.timing_variance_us : Nat) : ℝ)| 5000.0
    (abs_nonneg _) (by norm_num)
  obtain ⟨h3, h3'⟩ := exp_neg_div_mem
    |((wrapSub 32 a.avg_latency_ms b.avg_latency_ms : Nat) : ℝ)| 50.0
    (abs_nonneg _) (by norm_num)
  obtain ⟨h4, h4'⟩ := exp_neg_div_mem
    |a.power_consumption_watts - b.power_consumption_watts| 10.0
    (abs_nonneg _) (by norm_num)
  have hw : (0.0 + 0.4 + 0.2 + 0.2 + 0.2 : ℝ) = 1 := by norm_num
  rw [hw, div_one]
  constructor
  · split_ifs <;> linarith
  · split_ifs <;> linarith

theorem wrapSub_of_le (w a b : Nat) (hab : b ≤ a) (ha : a < 2 ^ w) :
    wrapSub w a b = a - b := by
  unfold wrapSub
  have hb : b % 2 ^ w = b := Nat.mod_eq_of_lt (by omega)
  have e : a + 2 ^ w - b = (a - b) + 2 ^ w := by omega
  rw [hb, e, Nat.add_mod_right]
  exact Nat.mod_eq_of_lt (by omega)

theorem abs_cast_wrapSub_of_le (w a b : Nat) (hab : b ≤ a) (ha : a < 2 ^ w) :
    |((wrapSub w a b : Nat) : ℝ)| = |(a : ℝ) - (b : ℝ)| := by
  rw [wrapSub_of_le w a b hab ha, Nat.cast_sub hab]

/-- Where none of the three unsigned subtractions wraps (each field of `a` is in range and
at least the field of `b`), `CalculateSimilarity` is the specification's formula. -/
theorem CalculateSimilarity_eq_formula_of_no_wrap (a b : DeviceFingerprint)
    (h1 : b.avg_nonce_time_us ≤ a.avg_nonce_time_us) (r1 : a.avg_nonce_time_us < 2 ^ 64)
    (h2 : b.timing_variance_us ≤ a.timing_variance_us) (r2 : a.timing_variance_us < 2 ^ 64)
    (h3 : b.avg_latency_ms ≤ a.avg_latency_ms) (r3 : a.avg_latency_ms < 2 ^ 32) :
    a.CalculateSimilarity b = similarityFormula a b := by
  simp only [DeviceFingerprint.CalculateSimilarity, similarityFormula,
    abs_cast_wrapSub_of_le _ _ _ h1 r1, abs_cast_wrapSub_of_le _ _ _ h2 r2,
    abs_cast_wrapSub_of_le _ _ _ h3 r3]
  have hw : (0.0 + 0.4 + 0.2 + 0.2 + 0.2 : ℝ) = 1 := by norm_num
  rw [hw, div_one]
  split_ifs <;> norm_num <;> ring

/-! ## Lemmas on the registry maps -/

theorem Map.find_assign_self {V : Type} (m : Map V) (k : String) (v : V) :
    Map.find (Map.assign m k v) k = some v := by
  simp [Map.assign, Map.find]

/-! ## Lemmas on VerifyDeviceDistribution -/

theorem VerifyDeviceDistribution_short (self : DeviceVerifier) (device_ids : List String)
    (h : device_ids.length < 2) :
    self.VerifyDeviceDistribution device_ids =
      { is_valid := true, confidence := 1.0,
        reason := "Single device, no distribution to verify", suspicious_pairs := [] } := by
  simp [DeviceVerifier.VerifyDeviceDistribution, h]

theorem VerifyDeviceDistribution_unresolved (self : DeviceVerifier) (device_ids : List String)
    (h : 2 ≤ device_ids.length) (hr : (collectFingerprints self device_ids).length < 2) :
    self.VerifyDeviceDistribution device_ids =
      { is_valid := false, confidence := 0.0,
        reason := "Not enough registered devices", suspicious_pairs := [] } := by
  have h' : ¬ device_ids.length < 2 := by omega
  simp [DeviceVerifier.VerifyDeviceDistribution, h', hr]

/-! ## Evaluation lemmas -/

theorem sampleSimilarity (i j ip : String) (a b : Nat) :
    (sampleFingerprint i a ip).CalculateSimilarity (sampleFingerprint j b ip) =
      0.4 * Real.exp (-((wrapSub 64 a b : Nat) : ℝ) / 10000) + 0.6 := by
  simp only [DeviceFingerprint.CalculateSimilarity, sampleFingerprint, wrapSub_self]
  norm_num
  ring

theorem wrapSub_2_1 : wrapSub 64 2 1 = 1 := by decide

theorem wrapSub_1_2 : wrapSub 64 1 2 = 18446744073709551615 := by decide

theorem exp_small_gt : (0.75 : ℝ) < Real.exp (-((1 : Nat) : ℝ) / 10000) := by
  have h := Real.add_one_le_exp (-((1 : Nat) : ℝ) / 10000)
  norm_num at h ⊢
  linarith

theorem exp_huge_lt : Real.exp (-((18446744073709551615 : Nat) : ℝ) / 10000) < 0.75 := by
  have h := Real.add_one_le_exp (((18446744073709551615 : Nat) : ℝ) / 10000)
  have e : -((18446744073709551615 : Nat) : ℝ) / 10000
      = -(((18446744073709551615 : Nat) : ℝ) / 10000) := by ring
  rw [e, Real.exp_neg]
  have hpos : (0 : ℝ) < Real.exp (((18446744073709551615 : Nat) : ℝ) / 10000) := Real.exp_pos _
  rw [inv_lt_comm₀ hpos (by norm_num)]
  norm_num at h ⊢
  linarith

theorem similarity_A_B : 0.9 < deviceA.CalculateSimilarity deviceB := by
  rw [deviceA, deviceB, sampleSimilarity, wrapSub_2_1]
  have h := exp_small_gt
  linarith

theorem similarity_B_A : deviceB.CalculateSimilarity deviceA < 0.9 := by
  rw [deviceA, deviceB, sampleSimilarity, wrapSub_1_2]
  have h := exp_huge_lt
  linarith

theorem similarityFormula_B_A : 0.9 < similarityFormula deviceB deviceA := by
  have e : similarityFormula deviceB deviceA
      = 0.4 * Real.exp (-((1 : Nat) : ℝ) / 10000) + 0.6 := by
    simp only [similarityFormula, deviceA, deviceB, sampleFingerprint]
    norm_num
    ring
  rw [e]
  have h := exp_small_gt
  linarith

theorem indexPairs_two : indexPairs 2 = [(0, 1)] := by decide

theorem pooled_sample (i j ip ip2 : String) (a b : Nat) :
    pooledTimings [sampleFingerprint i a ip, sampleFingerprint j b ip2] = [] := by
  simp [pooledTimings, sampleFingerprint]

theorem sync_of_pool_nil (fps : List DeviceFingerprint) (hp : pooledTimings fps = []) :
    Impl.DetectSynchronizedTiming fps = false := by
  simp [Impl.DetectSynchronizedTiming, hp]

theorem entropy_nil : Impl.CalculateTimingEntropy [] = 0 := by
  simp [Impl.CalculateTimingEntropy]
  norm_num

theorem ip_diversity_pair (f g : DeviceFingerprint) :
    ¬ ((([f, g].map (fun fp => fp.ip_address)).dedup.length : ℝ)
        / (([f, g].length : Nat) : ℝ) < 0.5) := by
  by_cases h : f.ip_address = g.ip_address
  · simp [List.dedup_cons_of_mem, h]; norm_num
  · simp [List.dedup_cons_of_not_mem, h]; norm_num

theorem similarity_fold_pair (ids : List String) (f g : DeviceFingerprint)
    (r : VerificationResult) :
    (indexPairs [f, g].length).foldl (similarityStep ids [f, g]) r =
      if f.CalculateSimilarity g > 0.9 then
        { is_valid := false
          confidence := r.confidence - 0.3
          suspicious_pairs := r.suspicious_pairs ++ [(ids.getD 0 "", ids.getD 1 "")]
          reason := "Devices too similar (likely same hardware)" }
      else r := by
  have e : indexPairs [f, g].length = [(0, 1)] := indexPairs_two
  rw [e]
  simp [similarityStep]

/-- The result of `VerifyDeviceDistribution` when exactly two fingerprints resolve and
none of their timing samples is non-zero: only check 2 and check 4 can fire. -/
theorem Verify_pair_eval (self : DeviceVerifier) (ids : List String) (f g : DeviceFingerprint)
    (hlen : 2 ≤ ids.length) (hc : collectFingerprints self ids = [f, g])
    (hp : pooledTimings [f, g] = []) :
    (self.VerifyDeviceDistribution ids).is_valid = decide (¬ f.CalculateSimilarity g > 0.9) ∧
    (self.VerifyDeviceDistribution ids).suspicious_pairs =
      (if f.CalculateSimilarity g > 0.9 then [(ids.getD 0 "", ids.getD 1 "")] else []) ∧
    (self.VerifyDeviceDistribution ids).confidence =
      (if f.CalculateSimilarity g > 0.9 then 0.5 else 0.8) := by
  have h' : ¬ ids.length < 2 := by omega
  have hd := ip_diversity_pair f g
  have hl : ¬ [f, g].length < 2 := by simp
  have he : (0 : ℝ) < 2.0 := by norm_num
  simp only [DeviceVerifier.VerifyDeviceDistribution, h', hc, if_false, sync_of_pool_nil _ hp, hp,
    entropy_nil, hd, similarity_fold_pair, hl, he, if_true]
  by_cases hs : f.CalculateSimilarity g > 0.9
  · simp only [hs, if_true]
    refine ⟨?_, ?_, ?_⟩
    · norm_num
    · simp
    · norm_num
  · simp only [hs, if_false]
    refine ⟨?_, ?_, ?_⟩
    · norm_num
    · simp
    · norm_num

theorem collect_A_B : collectFingerprints registryAB ["A", "B"] = [deviceA, deviceB] := by
  simp [collectFingerprints, registryAB, Map.find]

theorem collect_B_A : collectFingerprints registryAB ["B", "A"] = [deviceB, deviceA] := by
  simp [collectFingerprints, registryAB, Map.find]

theorem collect_ghost_A_B :
    collectFingerprints registryAB ["ghost", "A", "B"] = [deviceA, deviceB] := by
  simp [collectFingerprints, registryAB, Map.find]

/-! ## Lemmas on durations and the reward multiplier -/

theorem tdiv_lt_iff (d c k : Int) (hc : 0 < c) (hk : 0 < k) :
    Int.tdiv d c < k ↔ d < k * c := by
  by_cases hd : 0 ≤ d
  · rw [Int.tdiv_eq_ediv hd hc.le]
    exact Int.ediv_lt_iff_lt_mul hc
  · have hd' : 0 ≤ -d := by omega
    have e : Int.tdiv d c = -(Int.tdiv (-d) c) := by
      rw [Int.neg_tdiv, neg_neg]
    have h0 : 0 ≤ Int.tdiv (-d) c := Int.tdiv_nonneg hd' hc.le
    have hkc : 0 < k * c := Int.mul_pos hk hc
    constructor
    · intro _; omega
    · intro _; omega

theorem durationHours_lt_iff (d : Int) :
    durationHours d < 24 ↔ d < 24 * (3600 * ticksPerSecond) :=
  tdiv_lt_iff d (3600 * ticksPerSecond) 24 (by decide) (by decide)

theorem durationMinutes_lt_iff (d : Int) :
    durationMinutes d < 10 ↔ d < 10 * (60 * ticksPerSecond) :=
  tdiv_lt_iff d (60 * ticksPerSecond) 10 (by decide) (by decide)

theorem Map.find_filter_ne {V : Type} (m : Map V) (k k' : String) (h : k' ≠ k) :
    Map.find (m.filter (fun p => decide (p.1 ≠ k))) k' = Map.find m k' := by
  induction m with
  | nil => rfl
  | cons p rest ih =>
    obtain ⟨q, w⟩ := p
    by_cases hq : q = k
    · have hqk : ¬ q = k' := fun e => h (e.symm.trans hq)
      rw [List.filter_cons_of_neg (by simpa using hq)]
      simp only [Map.find, hqk, if_false]
      exact ih
    · rw [List.filter_cons_of_pos (by simpa using hq)]
      simp only [Map.find]
      rw [ih]

theorem Map.find_assign_ne {V : Type} (m : Map V) (k k' : String) (v : V) (h : k' ≠ k) :
    Map.find (Map.assign m k v) k' = Map.find m k' := by
  have hk : ¬ k = k' := fun e => h e.symm
  simp only [Map.assign, Map.find, hk, if_false]
  exact Map.find_filter_ne m k k' h

theorem UpdateDeviceFingerprint_registration_times (self : DeviceVerifier) (now : Int)
    (id : String) (share : ShareData) :
    (self.UpdateDeviceFingerprint now id share).m_registration_times
      = self.m_registration_times := by
  unfold DeviceVerifier.UpdateDeviceFingerprint
  cases self.m_devices.find id <;> rfl

theorem applyUpdates_registration_times (calls : List (Int × ShareData))
    (self : DeviceVerifier) (id : String) :
    (applyUpdates self id calls).m_registration_times = self.m_registration_times := by
  induction calls generalizing self with
  | nil => rfl
  | cons c cs ih =>
    simp only [applyUpdates, List.foldl_cons] at ih ⊢
    rw [ih, UpdateDeviceFingerprint_registration_times]

theorem GetDeviceRewardMultiplier_young (self : DeviceVerifier) (now_age now_seen t0 : Int)
    (id : String) (hrt : self.m_registration_times.find id = some t0)
    (ht : now_age - t0 < 24 * (3600 * ticksPerSecond)) :
    self.GetDeviceRewardMultiplier now_age now_seen id = 1.0 := by
  unfold DeviceVerifier.GetDeviceRewardMultiplier
  cases self.m_devices.find id with
  | none => rfl
  | some fp =>
    have h : durationHours (now_age - t0) < 24 := (durationHours_lt_iff _).mpr ht
    simp [hrt, h]

/-! ## Lemmas on FormMiningSquad -/

theorem squad_id_ne_empty (n : Int) : "SQUAD_" ++ toString n ≠ "" := by
  intro h
  have hl := congrArg String.length h
  rw [String.length_append] at hl
  have h6 : "SQUAD_".length = 6 := by decide
  have h0 : "".length = 0 := by decide
  omega

theorem squad_id_5 : "SQUAD_" ++ toString (5 : Int) = "SQUAD_5" := by decide

theorem any_unregistered_iff (self : DeviceVerifier) (ids : List String) :
    ids.any (fun id => (self.m_devices.find id).isNone) = true
      ↔ ∃ id ∈ ids, self.m_devices.find id = none := by
  simp [List.any_eq_true]

theorem FormMiningSquad_failure (self : DeviceVerifier) (n1 n2 : Int) (ids : List String)
    (h : ids.length < 2 ∨ ids.length > 10 ∨ (∃ id ∈ ids, self.m_devices.find id = none)
      ∨ self.DetectSpoofing ids = true) :
    self.FormMiningSquad n1 n2 ids = ("", self) := by
  unfold DeviceVerifier.FormMiningSquad
  by_cases h1 : ids.length < 2 ∨ ids.length > 10
  · rw [if_pos h1]
  · rw [if_neg h1]
    by_cases h2 : ids.any (fun id => (self.m_devices.find id).isNone) = true
    · rw [if_pos h2]
    · rw [if_neg h2]
      have h3 : self.DetectSpoofing ids = true := by
        rcases h with h | h | h | h
        · exact absurd (Or.inl h) h1
        · exact absurd (Or.inr h) h1
        · exact absurd ((any_unregistered_iff self ids).mpr h) h2
        · exact h
      rw [if_pos h3]

theorem FormMiningSquad_success (self : DeviceVerifier) (n1 n2 : Int) (ids : List String)
    (h : ¬ (ids.length < 2 ∨ ids.length > 10 ∨ (∃ id ∈ ids, self.m_devices.find id = none)
      ∨ self.DetectSpoofing ids = true)) :
    self.FormMiningSquad n1 n2 ids =
      ("SQUAD_" ++ toString n1,
        { self with
          m_squads := self.m_squads.assign ("SQUAD_" ++ toString n1)
            { squad_id := "SQUAD_" ++ toString n1
              member_devices := ids
              created_at := n2
              total_hashrate := accumulateHashrate self ids 0
              blocks_found := 0 } }) := by
  unfold DeviceVerifier.FormMiningSquad
  have h1 : ¬ (ids.length < 2 ∨ ids.length > 10) := by
    intro hc
    rcases hc with hc | hc
    · exact h (Or.inl hc)
    · exact h (Or.inr (Or.inl hc))
  have h2 : ¬ ids.any (fun id => (self.m_devices.find id).isNone) = true := by
    intro hc
    exact h (Or.inr (Or.inr (Or.inl ((any_unregistered_iff self ids).mp hc))))
  have h3 : ¬ self.DetectSpoofing ids = true := by
    intro hc
    exact h (Or.inr (Or.inr (Or.inr hc)))
  rw [if_neg h1, if_neg h2, if_neg h3]

theorem FormMiningSquad_success_of_ne (self : DeviceVerifier) (n1 n2 : Int) (ids : List String)
    (h : (self.FormMiningSquad n1 n2 ids).1 ≠ "") :
    ¬ (ids.length < 2 ∨ ids.length > 10 ∨ (∃ id ∈ ids, self.m_devices.find id = none)
      ∨ self.DetectSpoofing ids = true) := by
  intro hc
  rw [FormMiningSquad_failure self n1 n2 ids hc] at h
  exact h rfl

theorem DetectSpoofing_iff (self : DeviceVerifier) (ids : List String) :
    self.DetectSpoofing ids = true ↔
      (self.VerifyDeviceDistribution ids).is_valid = false ∧
        (self.VerifyDeviceDistribution ids).confidence < 0.3 := by
  simp [DeviceVerifier.DetectSpoofing]

theorem DetectSpoofing_false_of_confidence (self : DeviceVerifier) (ids : List String)
    (h : 0.3 ≤ (self.VerifyDeviceDistribution ids).confidence) :
    self.DetectSpoofing ids = false := by
  cases hd : self.DetectSpoofing ids
  · rfl
  · have := ((DetectSpoofing_iff self ids).mp hd).2
    linarith

/-- When exactly two fingerprints resolve and the first is not too similar to the second,
the confidence is at least 0.4: only checks 1 and 4 can fire. -/
theorem Verify_pair_dissimilar (self : DeviceVerifier) (ids : List String)
    (f g : DeviceFingerprint) (hlen : 2 ≤ ids.length)
    (hc : collectFingerprints self ids = [f, g]) (hs : ¬ f.CalculateSimilarity g > 0.9) :
    0.4 ≤ (self.VerifyDeviceDistribution ids).confidence := by
  have h' : ¬ ids.length < 2 := by omega
  have hd := ip_diversity_pair f g
  have hl : ¬ [f, g].length < 2 := by simp
  simp only [DeviceVerifier.VerifyDeviceDistribution, h', hc, if_false, hd, similarity_fold_pair,
    hl, hs]
  split_ifs <;> norm_num

theorem Verify_pair_pool_nil_confidence (self : DeviceVerifier) (ids : List String)
    (f g : DeviceFingerprint) (hlen : 2 ≤ ids.length)
    (hc : collectFingerprints self ids = [f, g]) (hp : pooledTimings [f, g] = []) :
    0.3 ≤ (self.VerifyDeviceDistribution ids).confidence := by
  rw [(Verify_pair_eval self ids f g hlen hc hp).2.2]
  split_ifs <;> norm_num

theorem collect_pair (self : DeviceVerifier) (a b : String) (fa fb : DeviceFingerprint)
    (ha : self.m_devices.find a = some fa) (hb : self.m_devices.find b = some fb) :
    collectFingerprints self [a, b] = [fa, fb] := by
  simp [collectFingerprints, ha, hb]

theorem collect_A_A : collectFingerprints registryAB ["A", "A"] = [deviceA, deviceA] := by
  simp [collectFingerprints, registryAB, Map.find]

theorem FormMiningSquad_pair_ok (self : DeviceVerifier) (ids : List String)
    (f g : DeviceFingerprint)
    (hlen : ids.length = 2) (hreg : ¬ ∃ id ∈ ids, self.m_devices.find id = none)
    (hc : collectFingerprints self ids = [f, g]) (hp : pooledTimings [f, g] = []) :
    ¬ (ids.length < 2 ∨ ids.length > 10 ∨ (∃ id ∈ ids, self.m_devices.find id = none)
      ∨ self.DetectSpoofing ids = true) := by
  have hd := DetectSpoofing_false_of_confidence self ids
    (Verify_pair_pool_nil_confidence self ids f g (by omega) hc hp)
  intro h
  rcases h with h | h | h | h
  · omega
  · omega
  · exact hreg h
  · rw [hd] at h
    exact Bool.false_ne_true h

theorem Map.find_eq_none_iff {V : Type} (m : Map V) (k : String) :
    Map.find m k = none ↔ k ∉ m.map (fun p => p.1) := by
  induction m with
  | nil => simp [Map.find]
  | cons p rest ih =>
    obtain ⟨q, w⟩ := p
    by_cases hq : q = k
    · simp [Map.find, hq]
    · have hq' : ¬ k = q := fun e => hq e.symm
      simp only [Map.find, hq, if_false, ih, List.map_cons, List.mem_cons, hq', false_or]

theorem Map.size_assign {V : Type} (m : Map V) (k : String) (v : V) :
    Map.size (Map.assign m k v)
      = if (Map.find m k).isSome then Map.size m else Map.size m + 1 := by
  have hkeys : (Map.assign m k v).map (fun p => p.1)
      = k :: (m.map (fun p => p.1)).filter (fun q => decide (q ≠ k)) := by
    simp only [Map.assign, List.map_cons, List.filter_map]
    rfl
  simp only [Map.size, ← List.card_toFinset, hkeys, List.toFinset_cons, List.toFinset_filter]
  have hf : Finset.filter (fun q => decide (q ≠ k) = true) (m.map (fun p => p.1)).toFinset
      = (m.map (fun p => p.1)).toFinset.erase k := by
    ext x
    simp [Finset.mem_erase, and_comm]
  rw [hf]
  cases hk : Map.find m k with
  | none =>
    have hn : k ∉ (m.map (fun p => p.1)).toFinset := by
      rw [List.mem_toFinset]
      exact (Map.find_eq_none_iff m k).mp hk
    simp only [Option.isSome_none, Bool.false_eq_true, if_false]
    rw [Finset.erase_eq_of_not_mem hn, Finset.card_insert_of_not_mem hn]
  | some w =>
    have hn : k ∈ (m.map (fun p => p.1)).toFinset := by
      rw [List.mem_toFinset]
      by_contra hc
      have := (Map.find_eq_none_iff m k).mpr hc
      rw [hk] at this
      exact Option.noConfusion this
    simp only [Option.isSome_some, if_true]
    rw [Finset.insert_erase hn]

theorem doubleToUInt64_natCast (n : Nat) (h : n < 2 ^ 64) : doubleToUInt64 (n : ℝ) = n := by
  unfold doubleToUInt64
  rw [Nat.floor_natCast]
  exact Nat.mod_eq_of_lt h

/-- When the members' hashrates are whole numbers and the running total stays below
`2^64`, the accumulated `total_hashrate` is the exact sum. -/
theorem accumulateHashrate_natural (self : DeviceVerifier) (ids : List String) :
    ∀ (hashrates : List Nat) (total : Nat),
      ids.map (fun id => self.GetDeviceHashrate id) = hashrates.map (fun n : Nat => (n : ℝ)) →
      total + hashrates.sum < 2 ^ 64 →
      accumulateHashrate self ids total = total + hashrates.sum := by
  induction ids with
  | nil =>
    intro hashrates total hmap _
    cases hashrates with
    | nil => simp [accumulateHashrate]
    | cons n ns => simp at hmap
  | cons id rest ih =>
    intro hashrates total hmap hb
    cases hashrates with
    | nil => simp at hmap
    | cons n ns =>
      simp only [List.map_cons, List.cons.injEq] at hmap
      simp only [List.sum_cons] at hb ⊢
      have hstep : doubleToUInt64 ((total : ℝ) + self.GetDeviceHashrate id) = total + n := by
        rw [hmap.1, ← Nat.cast_add]
        exact doubleToUInt64_natCast _ (by omega)
      have := ih ns (total + n) hmap.2 (by omega)
      simp only [accumulateHashrate, List.foldl_cons] at this ⊢
      rw [hstep, this]
      omega



theorem doubleToUInt64_half (n : Nat) (h : n < 2 ^ 64) :
    doubleToUInt64 ((n : ℝ) + 0.5) = n := by
  unfold doubleToUInt64
  have e : ⌊(n : ℝ) + 0.5⌋₊ = n := by
    rw [Nat.floor_eq_iff (by positivity)]
    constructor <;> norm_num
  rw [e]
  exact Nat.mod_eq_of_lt h

theorem accumulate_half : accumulateHashrate registryHalf ["H1", "H2"] 0 = 0 := by
  have h1 : registryHalf.GetDeviceHashrate "H1" = 0.5 := by
    simp [DeviceVerifier.GetDeviceHashrate, registryHalf, Map.find, deviceH]
  have h2 : registryHalf.GetDeviceHashrate "H2" = 0.5 := by
    simp [DeviceVerifier.GetDeviceHashrate, registryHalf, Map.find, deviceH]
  simp only [accumulateHashrate, List.foldl_cons, List.foldl_nil, h1, h2]
  have e := doubleToUInt64_half 0 (by norm_num)
  simp only [Nat.cast_zero] at e ⊢
  rw [e]
  simpa using e

theorem registryAB1_eq :
    registryAB1 =
      { registryAB with
        m_squads := Map.assign registryAB.m_squads "SQUAD_5"
          { squad_id := "SQUAD_5"
            member_devices := ["A", "B"]
            created_at := 5
            total_hashrate := accumulateHashrate registryAB ["A", "B"] 0
            blocks_found := 0 } } := by
  unfold registryAB1
  rw [FormMiningSquad_success registryAB 5 5 ["A", "B"]
    (FormMiningSquad_pair_ok registryAB ["A", "B"] deviceA deviceB rfl
      (by simp [registryAB, Map.find]) collect_A_B (pooled_sample _ _ _ _ _ _))]
  simp only [squad_id_5]

theorem registryAB1_devices : registryAB1.m_devices = [("A", deviceA), ("B", deviceB)] := by
  rw [registryAB1_eq]
  rfl

theorem registryAB1_second_ok :
    ¬ (["B", "A"].length < 2 ∨ ["B", "A"].length > 10
      ∨ (∃ id ∈ ["B", "A"], registryAB1.m_devices.find id = none)
      ∨ registryAB1.DetectSpoofing ["B", "A"] = true) :=
  FormMiningSquad_pair_ok registryAB1 ["B", "A"] deviceB deviceA rfl
    (by simp [registryAB1_devices, Map.find])
    (by simp [collectFingerprints, registryAB1_devices, Map.find])
    (pooled_sample _ _ _ _ _ _)

/-! ## Lemmas on the timing ring -/

theorem length_ten (s : List Nat) (h : s.length = 10) :
    ∃ a0 a1 a2 a3 a4 a5 a6 a7 a8 a9 : Nat, s = [a0, a1, a2, a3, a4, a5, a6, a7, a8, a9] := by
  rcases s with _ | ⟨a0, _ | ⟨a1, _ | ⟨a2, _ | ⟨a3, _ | ⟨a4, _ | ⟨a5, _ | ⟨a6, _ | ⟨a7, _ |
    ⟨a8, _ | ⟨a9, _ | ⟨a10, s⟩⟩⟩⟩⟩⟩⟩⟩⟩⟩⟩
  all_goals first
    | exact ⟨_, _, _, _, _, _, _, _, _, _, rfl⟩
    | (simp at h)

theorem ring_update (s : List Nat) (ts : Nat) (h : s.length = 10) :
    (shiftTimingSamples s).set 0 ts = ts :: s.take 9 := by
  obtain ⟨a0, a1, a2, a3, a4, a5, a6, a7, a8, a9, rfl⟩ := length_ten s h
  rfl

theorem updateFingerprint_timing_samples (fp : DeviceFingerprint) (now : Int)
    (share : ShareData) (h : fp.timing_samples.length = 10) :
    (updateFingerprint fp now share).timing_samples
      = share.timestamp_us :: fp.timing_samples.take 9 := by
  simp only [updateFingerprint]
  exact ring_update _ _ h

theorem UpdateDeviceFingerprint_find (self : DeviceVerifier) (now : Int) (id : String)
    (share : ShareData) (fp : DeviceFingerprint) (h : self.m_devices.find id = some fp) :
    (self.UpdateDeviceFingerprint now id share).m_devices.find id
      = some (updateFingerprint fp now share) := by
  simp only [DeviceVerifier.UpdateDeviceFingerprint, h, Map.find_assign_self]

theorem take_ten_append_cons (X old : List Nat) (t : Nat) :
    (X ++ t :: old.take 9).take 10 = (X ++ t :: old).take 10 := by
  rw [List.take_append_eq_append_take, List.take_append_eq_append_take]
  congr 1
  cases h : 10 - X.length with
  | zero => simp
  | succ m =>
    simp only [List.take_succ_cons, List.take_take]
    congr 2
    omega

/-- The ring after consecutive updates: the timestamps, newest first, followed by the old
ring, cut to 10 slots. -/
theorem applyUpdates_ring (id : String) (calls : List (Int × ShareData)) :
    ∀ (self : DeviceVerifier) (fp : DeviceFingerprint),
      self.m_devices.find id = some fp → fp.timing_samples.length = 10 →
      ∃ fp' : DeviceFingerprint,
        (applyUpdates self id calls).m_devices.find id = some fp' ∧
          fp'.timing_samples
            = (((calls.map (fun c => c.2.timestamp_us)).reverse ++ fp.timing_samples).take 10) := by
  induction calls with
  | nil =>
    intro self fp hfp hlen
    refine ⟨fp, hfp, ?_⟩
    simp [List.take_of_length_le, hlen]
  | cons c cs ih =>
    intro self fp hfp hlen
    have h1 := UpdateDeviceFingerprint_find self c.1 id c.2 fp hfp
    have hts := updateFingerprint_timing_samples fp c.1 c.2 hlen
    have hlen1 : (updateFingerprint fp c.1 c.2).timing_samples.length = 10 := by
      rw [hts]
      simp [hlen]
    obtain ⟨fp', hfind, hring⟩ := ih _ _ h1 hlen1
    refine ⟨fp', ?_, ?_⟩
    · simpa [applyUpdates] using hfind
    · rw [hring, hts, take_ten_append_cons]
      simp

/-! ## Lemmas on UpdateDeviceFingerprint -/

theorem updateFingerprint_recent_nonces (fp : DeviceFingerprint) (now : Int) (share : ShareData) :
    (updateFingerprint fp now share).recent_nonces
      = if (fp.recent_nonces ++ [share.nonce]).length > 100
        then (fp.recent_nonces ++ [share.nonce]).tail
        else fp.recent_nonces ++ [share.nonce] := rfl

theorem updateFingerprint_nonces_le (fp : DeviceFingerprint) (now : Int) (share : ShareData)
    (h : fp.recent_nonces.length ≤ 100) :
    (updateFingerprint fp now share).recent_nonces.length ≤ 100 := by
  rw [updateFingerprint_recent_nonces]
  split_ifs with hgt
  · simp only [List.length_tail, List.length_append, List.length_singleton]
    omega
  · omega

theorem latency_average_floor (old s : Nat) :
    ⌊(old : ℝ) * 0.9 + (s : ℝ) * 0.1⌋₊ = (9 * old + s) / 10 := by
  have e : (old : ℝ) * 0.9 + (s : ℝ) * 0.1 = ((9 * old + s : Nat) : ℝ) / ((10 : Nat) : ℝ) := by
    push_cast
    ring
  rw [e, Nat.floor_div_eq_div]

theorem doubleToUInt32_latency (old s : Nat) (ho : old < 2 ^ 32) (hs : s < 2 ^ 32) :
    doubleToUInt32 ((old : ℝ) * 0.9 + (s : ℝ) * 0.1) = (9 * old + s) / 10 := by
  unfold doubleToUInt32
  rw [latency_average_floor]
  apply Nat.mod_eq_of_lt
  omega

theorem updateFingerprint_avg_latency (fp : DeviceFingerprint) (now : Int) (share : ShareData) :
    (updateFingerprint fp now share).avg_latency_ms
      = if share.latency_ms > 0 then
          doubleToUInt32 ((fp.avg_latency_ms : ℝ) * 0.9 + (share.latency_ms : ℝ) * 0.1)
        else fp.avg_latency_ms := rfl

theorem sumAndCount_fold (l : List Nat) :
    ∀ (a c : Nat), a < 2 ^ 64 →
      l.foldl
          (fun sc sample => if sample > 0 then ((sc.1 + sample) % 2 ^ 64, sc.2 + 1) else sc)
          (a, c)
        = ((a + (l.filter (fun t => decide (t > 0))).sum) % 2 ^ 64,
          c + (l.filter (fun t => decide (t > 0))).length) := by
  induction l with
  | nil =>
    intro a c ha
    simp only [List.foldl_nil, List.filter_nil, List.sum_nil, List.length_nil, Nat.add_zero]
    rw [Nat.mod_eq_of_lt ha]
  | cons x xs ih =>
    intro a c ha
    by_cases hx : x > 0
    · have hfil : List.filter (fun t => decide (t > 0)) (x :: xs)
          = x :: List.filter (fun t => decide (t > 0)) xs := by simp [hx]
      have hlt : (a + x) % 2 ^ 64 < 2 ^ 64 := Nat.mod_lt _ (by norm_num)
      simp only [List.foldl_cons, hx, if_true]
      rw [ih _ _ hlt, hfil, List.sum_cons, List.length_cons, Nat.mod_add_mod]
      refine Prod.ext ?_ ?_
      · simp only [Nat.add_assoc]
      · simp only []
        omega
    · have hfil : List.filter (fun t => decide (t > 0)) (x :: xs)
          = List.filter (fun t => decide (t > 0)) xs := by simp [hx]
      simp only [List.foldl_cons, hx, if_false]
      rw [ih _ _ ha, hfil]

theorem filter_pos_sum (l : List Nat) : (l.filter (fun t => decide (t > 0))).sum = l.sum := by
  induction l with
  | nil => rfl
  | cons x xs ih =>
    by_cases hx : x > 0
    · have hfil : List.filter (fun t => decide (t > 0)) (x :: xs)
          = x :: List.filter (fun t => decide (t > 0)) xs := by simp [hx]
      rw [hfil, List.sum_cons, List.sum_cons, ih]
    · have hfil : List.filter (fun t => decide (t > 0)) (x :: xs)
          = List.filter (fun t => decide (t > 0)) xs := by simp [hx]
      have hx0 : x = 0 := by omega
      rw [hfil, List.sum_cons, ih, hx0, Nat.zero_add]

theorem sumAndCount_eq (l : List Nat) (h : l.sum < 2 ^ 64) :
    sumAndCount l
      = ((l.filter (fun t => decide (t > 0))).sum, (l.filter (fun t => decide (t > 0))).length) := by
  unfold sumAndCount
  rw [sumAndCount_fold l 0 0 (by norm_num)]
  refine Prod.ext ?_ ?_
  · simp only [Nat.zero_add]
    rw [filter_pos_sum]
    exact Nat.mod_eq_of_lt h
  · simp

theorem sumAndCount_count (l : List Nat) :
    (sumAndCount l).2 = (l.filter (fun t => decide (t > 0))).length := by
  unfold sumAndCount
  rw [sumAndCount_fold l 0 0 (by norm_num)]
  simp

theorem updateFingerprint_avg (fp : DeviceFingerprint) (now : Int) (share : ShareData) :
    (updateFingerprint fp now share).avg_nonce_time_us
      = if (sumAndCount (updateFingerprint fp now share).timing_samples).2 > 0 then
          (sumAndCount (updateFingerprint fp now share).timing_samples).1
            / (sumAndCount (updateFingerprint fp now share).timing_samples).2
        else fp.avg_nonce_time_us := rfl

theorem UpdateDeviceFingerprint_squads (self : DeviceVerifier) (now : Int)
    (id : String) (share : ShareData) :
    (self.UpdateDeviceFingerprint now id share).m_squads = self.m_squads := by
  unfold DeviceVerifier.UpdateDeviceFingerprint
  cases self.m_devices.find id <;> rfl

theorem UpdateDeviceFingerprint_find_ne (self : DeviceVerifier) (now : Int)
    (id k : String) (share : ShareData) (hk : k ≠ id) :
    (self.UpdateDeviceFingerprint now id share).m_devices.find k = self.m_devices.find k := by
  unfold DeviceVerifier.UpdateDeviceFingerprint
  cases h : self.m_devices.find id with
  | none => rfl
  | some fp => exact Map.find_assign_ne _ _ _ _ hk

theorem UpdateDeviceFingerprint_unregistered (self : DeviceVerifier) (now : Int)
    (id : String) (share : ShareData) (h : self.m_devices.find id = none) :
    self.UpdateDeviceFingerprint now id share = self := by
  simp only [DeviceVerifier.UpdateDeviceFingerprint, h]

theorem updateFingerprint_stable (fp : DeviceFingerprint) (now : Int) (share : ShareData) :
    (updateFingerprint fp now share).device_id = fp.device_id ∧
      (updateFingerprint fp now share).firmware_version = fp.firmware_version ∧
      (updateFingerprint fp now share).chip_count = fp.chip_count ∧
      (updateFingerprint fp now share).memory_size_mb = fp.memory_size_mb ∧
      (updateFingerprint fp now share).timing_variance_us = fp.timing_variance_us ∧
      (share.ip_address = "" → (updateFingerprint fp now share).ip_address = fp.ip_address) := by
  simp only [updateFingerprint, true_and]
  intro hip
  simp only [hip, ne_eq, not_true_eq_false, if_false]

/-! ## Lemmas on the timing analysis -/

theorem dedup_replicate_succ (n b : Nat) : (List.replicate (n + 1) b).dedup = [b] := by
  induction n with
  | zero => simp
  | succ m ih =>
    rw [List.replicate_succ, List.dedup_cons_of_mem (by simp), ih]

theorem buckets_eq_replicate (timings : List Nat)
    (h : ∀ t ∈ timings, ∀ u ∈ timings, t / 1000 = u / 1000) (t0 : Nat) (rest : List Nat)
    (ht : timings = t0 :: rest) :
    timings.map (fun t => t / 1000) = List.replicate (rest.length + 1) (t0 / 1000) := by
  rw [List.eq_replicate_iff]
  refine ⟨by simp [ht], ?_⟩
  intro b hb
  obtain ⟨t, htm, rfl⟩ := List.mem_map.mp hb
  exact h t htm t0 (by simp [ht])

theorem foldl_sum_const (l : List Nat) (v : Nat) (h : ∀ t ∈ l, t = v) :
    ∀ a : ℝ, l.foldl (fun (acc : ℝ) (timing : Nat) => acc + (timing : ℝ)) a
        = a + (l.length : ℝ) * (v : ℝ) := by
  induction l with
  | nil => intro a; simp
  | cons x xs ih =>
    intro a
    have hx : x = v := h x (by simp)
    rw [List.foldl_cons, ih (fun t ht => h t (by simp [ht])), hx, List.length_cons]
    push_cast
    ring

theorem foldl_sq_const (l : List Nat) (v : Nat) (m : ℝ) (hm : m = (v : ℝ))
    (h : ∀ t ∈ l, t = v) :
    ∀ a : ℝ, l.foldl (fun (acc : ℝ) (timing : Nat) => acc + ((timing : ℝ) - m) ^ 2) a = a := by
  induction l with
  | nil => intro a; rfl
  | cons x xs ih =>
    intro a
    have hx : x = v := h x (by simp)
    rw [List.foldl_cons, ih (fun t ht => h t (by simp [ht])), hx, hm]
    ring

/-! ## Lemmas on MiningSquad -/

theorem GetRewardShare_member (squad : MiningSquad) (id : String)
    (h : id ∈ squad.member_devices) :
    squad.GetRewardShare id = 1 / (squad.member_devices.length : ℝ) := by
  unfold MiningSquad.GetRewardShare
  have hne : squad.member_devices.isEmpty = false := by
    cases hm : squad.member_devices with
    | nil => rw [hm] at h; simp at h
    | cons a rest => rfl
  simp only [hne, h, Bool.false_eq_true, if_false, not_true_eq_false]
  norm_num

theorem GetRewardShare_non_member (squad : MiningSquad) (id : String)
    (h : id ∉ squad.member_devices) : squad.GetRewardShare id = 0 := by
  unfold MiningSquad.GetRewardShare
  by_cases he : squad.member_devices.isEmpty = true
  · simp only [he, if_true]
    norm_num
  · simp only [he, h, if_false, not_false_eq_true, if_true]
    norm_num

/-! ## Lemmas on sequences of calls -/

theorem foldl_call_invariant (P : Call → Prop) (I : DeviceVerifier → Prop)
    (hstep : ∀ (s : DeviceVerifier) (c : Call), I s → P c → I (s.call c)) :
    ∀ (calls : List Call) (s : DeviceVerifier), I s → (∀ c ∈ calls, P c) →
      I (calls.foldl DeviceVerifier.call s) := by
  intro calls
  induction calls with
  | nil => intro s hs _; exact hs
  | cons c cs ih =>
    intro s hs hP
    rw [List.foldl_cons]
    exact ih _ (hstep s c hs (hP c (by simp))) (fun d hd => hP d (by simp [hd]))

theorem FormMiningSquad_devices (self : DeviceVerifier) (n1 n2 : Int) (ids : List String) :
    (self.FormMiningSquad n1 n2 ids).2.m_devices = self.m_devices := by
  by_cases hc : ids.length < 2 ∨ ids.length > 10
      ∨ (∃ id ∈ ids, self.m_devices.find id = none) ∨ self.DetectSpoofing ids = true
  · rw [FormMiningSquad_failure self n1 n2 ids hc]
  · rw [FormMiningSquad_success self n1 n2 ids hc]

theorem RegisterDevice_find (self : DeviceVerifier) (now : Int) (id k : String)
    (fp g : DeviceFingerprint)
    (h : (self.RegisterDevice now id fp).2.m_devices.find k = some g) :
    g = fp ∨ self.m_devices.find k = some g := by
  unfold DeviceVerifier.RegisterDevice at h
  by_cases hs : (self.m_devices.find id).isSome = true
  · rw [if_pos hs] at h
    exact Or.inr h
  · rw [if_neg hs] at h
    by_cases hk : k = id
    · subst hk
      simp only [Map.find_assign_self] at h
      exact Or.inl (Option.some.inj h).symm
    · simp only [Map.find_assign_ne _ _ _ _ hk] at h
      exact Or.inr h

theorem call_nonce_invariant (s : DeviceVerifier) (c : Call)
    (hI : ∀ (id : String) (fp : DeviceFingerprint), s.m_devices.find id = some fp →
      fp.recent_nonces.length ≤ 100)
    (hc : c.nonceCapped) :
    ∀ (id : String) (fp : DeviceFingerprint), (s.call c).m_devices.find id = some fp →
      fp.recent_nonces.length ≤ 100 := by
  intro k g hg
  cases c with
  | registerDevice now id fp =>
    rcases RegisterDevice_find s now id k fp g hg with h | h
    · rw [h]; exact hc
    · exact hI k g h
  | updateDeviceFingerprint now id share =>
    simp only [DeviceVerifier.call] at hg
    by_cases hk : k = id
    · subst hk
      cases hf : s.m_devices.find k with
      | none =>
        rw [UpdateDeviceFingerprint_unregistered s now k share hf, hf] at hg
        exact Option.noConfusion hg
      | some fp0 =>
        rw [UpdateDeviceFingerprint_find s now k share fp0 hf] at hg
        rw [← Option.some.inj hg]
        exact updateFingerprint_nonces_le fp0 now share (hI k fp0 hf)
    · rw [UpdateDeviceFingerprint_find_ne s now id k share hk] at hg
      exact hI k g hg
  | formMiningSquad n1 n2 ids =>
    simp only [DeviceVerifier.call, FormMiningSquad_devices] at hg
    exact hI k g hg

/-! ## Lemmas on the checks of VerifyDeviceDistribution -/

theorem mem_indexPairs (n i j : Nat) : (i, j) ∈ indexPairs n ↔ i < j ∧ j < n := by
  simp only [indexPairs, List.mem_flatMap, List.mem_range, List.mem_map, List.mem_range',
    Prod.mk.injEq]
  constructor
  · rintro ⟨a, ha, b, ⟨k, hk, rfl⟩, rfl, rfl⟩
    omega
  · rintro ⟨hij, hj⟩
    exact ⟨i, by omega, j, ⟨j - (i + 1), by omega, by omega⟩, rfl, rfl⟩

theorem indexPairs_nodup (n : Nat) : (indexPairs n).Nodup := by
  unfold indexPairs
  rw [List.nodup_flatMap]
  refine ⟨?_, ?_⟩
  · intro i _
    exact (List.nodup_range' _ _).map (fun a b h => (Prod.mk.inj h).2)
  · refine (List.nodup_range n).pairwise_of_forall_ne ?_
    intro a _ b _ hab
    intro x hx hy
    simp only [List.mem_map] at hx hy
    obtain ⟨_, _, rfl⟩ := hx
    obtain ⟨_, _, h⟩ := hy
    exact hab (Prod.mk.inj h).1.symm

theorem flaggedCount_eq (fps : List DeviceFingerprint) :
    flaggedCount fps = similarPairCount fps := by
  unfold flaggedCount similarPairCount
  rw [List.countP_eq_length_filter,
    ← List.toFinset_card_of_nodup ((indexPairs_nodup fps.length).filter _)]
  congr 1
  ext ⟨i, j⟩
  simp only [List.mem_toFinset, List.mem_filter, mem_indexPairs, Finset.mem_filter,
    Finset.mem_product, Finset.mem_range]
  constructor
  · rintro ⟨⟨h1, h2⟩, h3⟩
    exact ⟨⟨by omega, h2⟩, h1, h3⟩
  · rintro ⟨⟨_, h2⟩, h1, h3⟩
    exact ⟨⟨h1, h2⟩, h3⟩

theorem similarityStep_eq (ids : List String) (fps : List DeviceFingerprint)
    (r : VerificationResult) (ij : Nat × Nat) :
    similarityStep ids fps r ij =
      if pairFlagged fps ij = true then
        { is_valid := false
          confidence := r.confidence - 0.3
          suspicious_pairs := r.suspicious_pairs ++ [(ids.getD ij.1 "", ids.getD ij.2 "")]
          reason := "Devices too similar (likely same hardware)" }
      else r := by
  unfold similarityStep pairFlagged
  cases fps[ij.1]? with
  | none => simp
  | some fi =>
    cases fps[ij.2]? with
    | none => simp
    | some fj => simp

theorem similarity_fold (ids : List String) (fps : List DeviceFingerprint) :
    ∀ (L : List (Nat × Nat)) (r : VerificationResult),
      (L.foldl (similarityStep ids fps) r).confidence
          = r.confidence - 0.3 * ((L.countP (pairFlagged fps) : Nat) : ℝ) ∧
        (L.foldl (similarityStep ids fps) r).suspicious_pairs.length
          = r.suspicious_pairs.length + L.countP (pairFlagged fps) ∧
        (L.foldl (similarityStep ids fps) r).is_valid
          = (if L.countP (pairFlagged fps) = 0 then r.is_valid else false) ∧
        (L.foldl (similarityStep ids fps) r).reason
          = (if L.countP (pairFlagged fps) = 0 then r.reason
              else "Devices too similar (likely same hardware)") := by
  intro L
  induction L with
  | nil => intro r; simp
  | cons p ps ih =>
    intro r
    rw [List.foldl_cons, similarityStep_eq]
    by_cases hp : pairFlagged fps p = true
    · rw [if_pos hp, List.countP_cons_of_pos _ _ hp]
      obtain ⟨h1, h2, h3, h4⟩ := ih
        { is_valid := false
          confidence := r.confidence - 0.3
          suspicious_pairs := r.suspicious_pairs ++ [(ids.getD p.1 "", ids.getD p.2 "")]
          reason := "Devices too similar (likely same hardware)" }
      refine ⟨?_, ?_, ?_, ?_⟩
      · rw [h1]; push_cast; ring
      · rw [h2]; simp only [List.length_append, List.length_singleton]; omega
      · rw [h3]; simp
      · rw [h4]; simp
    · rw [if_neg hp, List.countP_cons_of_neg _ _ hp]
      exact ih r



theorem collect_length_le (self : DeviceVerifier) (ids : List String) :
    (collectFingerprints self ids).length ≤ ids.length :=
  List.length_filterMap_le _ _

/-- Checks 3 and 4 and the final clamp of `VerifyDeviceDistribution`, applied to any
intermediate result `r`. -/
theorem Verify_tail (r : VerificationResult) (P Q : Prop) [Decidable P] [Decidable Q] :
    let r1 : VerificationResult :=
      if P then
        { r with
          confidence := r.confidence - 0.2
          is_valid := if r.confidence - 0.2 < 0.5 then false else r.is_valid
          reason := r.reason ++ "; Low network diversity" }
      else r
    let r2 : VerificationResult :=
      if Q then
        { r1 with
          confidence := r1.confidence - 0.2
          is_valid := if r1.confidence - 0.2 < 0.5 then false else r1.is_valid
          reason := r1.reason ++ "; Low timing entropy" }
      else r1
    let out : VerificationResult := { r2 with confidence := max 0.0 (min 1.0 r2.confidence) }
    out.confidence
        = max 0 (min 1 (r.confidence - 0.2 * (if P then 1 else 0) - 0.2 * (if Q then 1 else 0))) ∧
      out.suspicious_pairs = r.suspicious_pairs ∧
      (out.is_valid = true ↔
        (r.is_valid = true ∧ ¬ (P ∧ r.confidence - 0.2 < 0.5) ∧
          ¬ (Q ∧ r.confidence - 0.2 * (if P then 1 else 0) - 0.2 < 0.5))) ∧
      out.reason = r.reason ++ (if P then "; Low network diversity" else "")
          ++ (if Q then "; Low timing entropy" else "") := by
  intro r1 r2 out
  refine ⟨?_, ?_, ?_, ?_⟩
  · by_cases hP : P <;> by_cases hQ : Q <;>
      simp only [out, r2, r1, hP, hQ, if_true, if_false] <;> norm_num
  · by_cases hP : P <;> by_cases hQ : Q <;>
      simp only [out, r2, r1, hP, hQ, if_true, if_false]
  · by_cases hP : P <;> by_cases hQ : Q <;>
      simp only [out, r2, r1, hP, hQ, if_true, if_false, true_and, false_and,
        not_false_eq_true, and_true, mul_one, mul_zero, sub_zero]
    · by_cases h1 : r.confidence - 0.2 < 0.5 <;> by_cases h2 : r.confidence - 0.2 - 0.2 < 0.5 <;>
        simp [h1, h2]
    · by_cases h1 : r.confidence - 0.2 < 0.5 <;> simp [h1]
    · by_cases h1 : r.confidence - 0.2 < 0.5 <;> simp [h1]
  · by_cases hP : P <;> by_cases hQ : Q <;>
      simp only [out, r2, r1, hP, hQ, if_true, if_false, String.append_empty]

/-- With at least two resolved ids the result is checks 3 and 4 and the clamp applied
to the result of the pair loop, which started from the result of check 1. -/
theorem Verify_unfold (self : DeviceVerifier) (ids : List String)
    (h2 : 2 ≤ (collectFingerprints self ids).length) :
    self.VerifyDeviceDistribution ids =
      (let fingerprints := collectFingerprints self ids
       let r : VerificationResult :=
        (indexPairs fingerprints.length).foldl (similarityStep ids fingerprints)
          (if Impl.DetectSynchronizedTiming fingerprints = true then
            { is_valid := false, confidence := 1.0 - 0.4,
              reason := "Timing patterns too synchronized", suspicious_pairs := [] }
           else { is_valid := true, confidence := 1.0, reason := "", suspicious_pairs := [] })
       let P : Prop := (((fingerprints.map (fun fp => fp.ip_address)).dedup.length : Nat) : ℝ)
          / (fingerprints.length : ℝ) < 0.5
       let Q : Prop := Impl.CalculateTimingEntropy (pooledTimings fingerprints) < 2.0
       let r1 : VerificationResult :=
        if P then
          { r with
            confidence := r.confidence - 0.2
            is_valid := if r.confidence - 0.2 < 0.5 then false else r.is_valid
            reason := r.reason ++ "; Low network diversity" }
        else r
       let r2 : VerificationResult :=
        if Q then
          { r1 with
            confidence := r1.confidence - 0.2
            is_valid := if r1.confidence - 0.2 < 0.5 then false else r1.is_valid
            reason := r1.reason ++ "; Low timing entropy" }
        else r1
       { r2 with confidence := max 0.0 (min 1.0 r2.confidence) }) := by
  have hle := collect_length_le self ids
  have hlen : ¬ ids.length < 2 := by omega
  have hres : ¬ (collectFingerprints self ids).length < 2 := by omega
  unfold DeviceVerifier.VerifyDeviceDistribution
  simp only [hlen, hres, if_false]

/-- The four fields of the result of `VerifyDeviceDistribution` when at least two ids
resolve, in terms of the conditions of the four checks. -/
theorem Verify_resolved (self : DeviceVerifier) (ids : List String)
    (h2 : 2 ≤ (collectFingerprints self ids).length) :
    (self.VerifyDeviceDistribution ids).confidence
        = max 0 (1 - 0.4 * indicator (Impl.DetectSynchronizedTiming (collectFingerprints self ids))
            - 0.3 * ((flaggedCount (collectFingerprints self ids) : Nat) : ℝ)
            - 0.2 * indicator (diversityLow (collectFingerprints self ids))
            - 0.2 * indicator (entropyLow (collectFingerprints self ids))) ∧
      (self.VerifyDeviceDistribution ids).suspicious_pairs.length
        = flaggedCount (collectFingerprints self ids) ∧
      ((self.VerifyDeviceDistribution ids).is_valid = true ↔
        (Impl.DetectSynchronizedTiming (collectFingerprints self ids) = false ∧
          flaggedCount (collectFingerprints self ids) = 0)) ∧
      (self.VerifyDeviceDistribution ids).reason
        = (if flaggedCount (collectFingerprints self ids) = 0 then
              (if Impl.DetectSynchronizedTiming (collectFingerprints self ids) = true
                then "Timing patterns too synchronized" else "")
            else "Devices too similar (likely same hardware)")
          ++ (if diversityLow (collectFingerprints self ids) = true
                then "; Low network diversity" else "")
          ++ (if entropyLow (collectFingerprints self ids) = true
                then "; Low timing entropy" else "") := by
  rw [Verify_unfold self ids h2]
  have hk0 : (0 : ℝ) ≤ ((flaggedCount (collectFingerprints self ids) : Nat) : ℝ) :=
    Nat.cast_nonneg _
  obtain ⟨r0, hr0⟩ : ∃ r0 : VerificationResult, r0 =
      (if Impl.DetectSynchronizedTiming (collectFingerprints self ids) = true then
        { is_valid := false, confidence := 1.0 - 0.4,
          reason := "Timing patterns too synchronized", suspicious_pairs := [] }
       else { is_valid := true, confidence := 1.0, reason := "", suspicious_pairs := [] }) :=
    ⟨_, rfl⟩
  have hc0 : r0.confidence
      = 1 - 0.4 * indicator (Impl.DetectSynchronizedTiming (collectFingerprints self ids)) := by
    rw [hr0]; unfold indicator
    by_cases hs : Impl.DetectSynchronizedTiming (collectFingerprints self ids) = true <;>
      simp only [hs, if_true, if_false, Bool.false_eq_true] <;> norm_num
  have hp0 : r0.suspicious_pairs = [] := by
    rw [hr0]
    by_cases hs : Impl.DetectSynchronizedTiming (collectFingerprints self ids) = true <;>
      simp only [hs, if_true, if_false, Bool.false_eq_true]
  have hv0 : r0.is_valid = !Impl.DetectSynchronizedTiming (collectFingerprints self ids) := by
    rw [hr0]
    by_cases hs : Impl.DetectSynchronizedTiming (collectFingerprints self ids) = true <;>
      simp [hs]
  have hre0 : r0.reason = (if Impl.DetectSynchronizedTiming (collectFingerprints self ids) = true
                then "Timing patterns too synchronized" else "") := by
    rw [hr0]
    by_cases hs : Impl.DetectSynchronizedTiming (collectFingerprints self ids) = true <;>
      simp only [hs, if_true, if_false, Bool.false_eq_true]
  have F := similarity_fold ids (collectFingerprints self ids)
    (indexPairs (collectFingerprints self ids).length) r0
  have T := Verify_tail
    ((indexPairs (collectFingerprints self ids).length).foldl
      (similarityStep ids (collectFingerprints self ids)) r0)
    ((((((collectFingerprints self ids).map (fun fp => fp.ip_address)).dedup.length : Nat) : ℝ)
          / ((collectFingerprints self ids).length : ℝ) < 0.5))
    (Impl.CalculateTimingEntropy (pooledTimings (collectFingerprints self ids)) < 2.0)
  simp only [] at T ⊢
  rw [← hr0]
  obtain ⟨T1, T2, T3, T4⟩ := T
  have hd : indicator (diversityLow (collectFingerprints self ids))
      = if (((((collectFingerprints self ids).map (fun fp => fp.ip_address)).dedup.length : Nat) : ℝ)
          / ((collectFingerprints self ids).length : ℝ) < 0.5) then 1 else 0 := by
    unfold indicator diversityLow
    simp only [decide_eq_true_eq]
  have he : indicator (entropyLow (collectFingerprints self ids))
      = if Impl.CalculateTimingEntropy (pooledTimings (collectFingerprints self ids)) < 2.0
          then 1 else 0 := by
    unfold indicator entropyLow
    simp only [decide_eq_true_eq]
  have hi0 : ∀ b : Bool, 0 ≤ indicator b ∧ indicator b ≤ 1 := by
    intro b; cases b <;> simp [indicator]
  refine ⟨?_, ?_, ?_, ?_⟩
  · rw [T1, F.1, hc0, ← hd, ← he]
    have a := hi0 (Impl.DetectSynchronizedTiming (collectFingerprints self ids))
    have b := hi0 (diversityLow (collectFingerprints self ids))
    have c := hi0 (entropyLow (collectFingerprints self ids))
    unfold flaggedCount at hk0 ⊢
    rw [min_eq_right (by linarith)]
  · rw [T2, F.2.1, hp0]; simp [flaggedCount]
  · rw [T3, F.2.2.1, hv0, F.1, hc0]
    unfold flaggedCount
    by_cases hc : List.countP (pairFlagged (collectFingerprints self ids))
        (indexPairs (collectFingerprints self ids).length) = 0
    · simp only [hc, if_true, Nat.cast_zero, mul_zero, sub_zero, and_true]
      by_cases hs : Impl.DetectSynchronizedTiming (collectFingerprints self ids) = true
      · simp [hs]
      · simp only [Bool.not_eq_true] at hs
        simp only [hs, indicator, Bool.not_false, Bool.false_eq_true, if_false, true_and]
        refine ⟨fun _ => trivial, fun _ => ⟨?_, ?_⟩⟩
        · rintro ⟨_, h⟩; norm_num at h
        · rintro ⟨_, h⟩; split_ifs at h <;> norm_num at h
    · simp [hc]
  · rw [T4, F.2.2.2, hre0]
    unfold flaggedCount diversityLow entropyLow
    simp only [decide_eq_true_eq]

theorem indicator_bounds (b : Bool) : 0 ≤ indicator b ∧ indicator b ≤ 1 := by
  cases b <;> simp [indicator]

theorem diversityLow_three (fps : List DeviceFingerprint) (h2 : 2 ≤ fps.length)
    (hd : diversityLow fps = true) : 3 ≤ fps.length := by
  unfold diversityLow at hd
  simp only [decide_eq_true_eq] at hd
  have hne : (fps.map (fun fp => fp.ip_address)).dedup ≠ [] := by
    intro h0
    rw [List.dedup_eq_nil, List.map_eq_nil_iff] at h0
    rw [h0] at h2
    simp at h2
  have h1 : 1 ≤ (fps.map (fun fp => fp.ip_address)).dedup.length :=
    List.length_pos.mpr hne
  have hn : (0 : ℝ) < (fps.length : ℝ) := by
    have : 0 < fps.length := by omega
    exact_mod_cast this
  rw [div_lt_iff₀ hn] at hd
  have h1r : (1 : ℝ) ≤ ((fps.map (fun fp => fp.ip_address)).dedup.length : ℝ) := by
    exact_mod_cast h1
  have : (2 : ℝ) < (fps.length : ℝ) := by linarith
  have : 2 < fps.length := by exact_mod_cast this
  omega

/-! ## Lemmas on the timing entropy -/

theorem entropy_fold (n : ℝ) : ∀ (H : List (Nat × Nat)) (a : ℝ),
    H.foldl
        (fun entropy bc =>
          let p : ℝ := (bc.2 : ℝ) / n
          if p > 0 then entropy - p * Real.logb 2 p else entropy)
        a
      = a - (H.map (fun bc : Nat × Nat =>
          if (bc.2 : ℝ) / n > 0 then (bc.2 : ℝ) / n * Real.logb 2 ((bc.2 : ℝ) / n) else 0)).sum := by
  intro H
  induction H with
  | nil => intro a; simp
  | cons h t ih =>
    intro a
    rw [List.foldl_cons, ih, List.map_cons, List.sum_cons]
    by_cases hp : (h.2 : ℝ) / n > 0
    · simp only [hp, if_true]; ring
    · simp only [hp, if_false]; ring

theorem sum_map_affine (a b : ℝ) : ∀ ps : List ℝ,
    (ps.map (fun p => a * p + b)).sum = a * ps.sum + b * (ps.length : ℝ) := by
  intro ps
  induction ps with
  | nil => simp
  | cons h t ih =>
    rw [List.map_cons, List.sum_cons, ih, List.sum_cons, List.length_cons]
    push_cast
    ring

theorem sum_map_neg_eq (f : Nat → ℝ) : ∀ l : List Nat,
    (l.map (fun x => -f x)).sum = -(l.map f).sum := by
  intro l
  induction l with
  | nil => simp
  | cons h t ih =>
    rw [List.map_cons, List.sum_cons, ih, List.map_cons, List.sum_cons]
    ring

theorem sum_map_div_const (n : ℝ) : ∀ cs : List Nat,
    (cs.map (fun c : Nat => (c : ℝ) / n)).sum = ((cs.sum : Nat) : ℝ) / n := by
  intro cs
  induction cs with
  | nil => simp
  | cons h t ih =>
    rw [List.map_cons, List.sum_cons, ih, List.sum_cons]
    push_cast
    ring

/-- Shannon entropy in bits of a list of positive probabilities of sum 1 lies between 0
and the logarithm of the number of entries. -/
theorem shannon_bounds (ps : List ℝ) (hpos : ∀ p ∈ ps, 0 < p) (hsum : ps.sum = 1) :
    0 ≤ (ps.map (fun p => -(p * Real.logb 2 p))).sum ∧
      (ps.map (fun p => -(p * Real.logb 2 p))).sum ≤ Real.logb 2 (ps.length : ℝ) := by
  have hle : ∀ p ∈ ps, p ≤ 1 := by
    intro p hp
    rw [← hsum]
    exact List.single_le_sum (fun x hx => (hpos x hx).le) p hp
  have hne : ps ≠ [] := by
    intro h0
    rw [h0] at hsum
    simp at hsum
  have hk : (0 : ℝ) < (ps.length : ℝ) := by
    have : 0 < ps.length := List.length_pos.mpr hne
    exact_mod_cast this
  have hl2 : 0 < Real.log 2 := Real.log_pos (by norm_num)
  refine ⟨?_, ?_⟩
  · apply List.sum_nonneg
    intro x hx
    obtain ⟨p, hp, rfl⟩ := List.mem_map.mp hx
    have := Real.logb_nonpos (b := 2) (by norm_num) (hpos p hp).le (hle p hp)
    have hp0 := (hpos p hp).le
    nlinarith
  · have hterm : ∀ p ∈ ps, -(p * Real.logb 2 p)
        ≤ (Real.logb 2 (ps.length : ℝ) - 1 / Real.log 2) * p
          + 1 / ((ps.length : ℝ) * Real.log 2) := by
      intro p hp
      have hp0 := hpos p hp
      have hx : 0 < 1 / ((ps.length : ℝ) * p) := by positivity
      have h1 := Real.log_le_sub_one_of_pos hx
      rw [one_div, Real.log_inv, Real.log_mul hk.ne.symm hp0.ne.symm] at h1
      have h2 : p * (-(Real.log (ps.length : ℝ) + Real.log p))
          ≤ p * (((ps.length : ℝ) * p)⁻¹ - 1) := mul_le_mul_of_nonneg_left h1 hp0.le
      have h3 : p * (((ps.length : ℝ) * p)⁻¹ - 1) = 1 / (ps.length : ℝ) - p := by
        field_simp
        ring
      rw [h3] at h2
      have h4 : -(p * Real.log p) ≤ Real.log (ps.length : ℝ) * p + 1 / (ps.length : ℝ) - p := by
        linarith
      have h5 : -(p * Real.logb 2 p) = -(p * Real.log p) / Real.log 2 := by
        rw [Real.logb]; ring
      have h6 : (Real.logb 2 (ps.length : ℝ) - 1 / Real.log 2) * p
            + 1 / ((ps.length : ℝ) * Real.log 2)
          = (Real.log (ps.length : ℝ) * p + 1 / (ps.length : ℝ) - p) / Real.log 2 := by
        rw [Real.logb]; field_simp; ring
      rw [h5, h6]
      exact div_le_div_of_nonneg_right h4 hl2.le
    refine le_trans (List.sum_le_sum hterm) ?_
    rw [sum_map_affine, hsum]
    apply le_of_eq
    field_simp
    ring

/-- The value of `CalculateTimingEntropy` on at least two samples is the Shannon entropy
of the bucket frequencies. -/
theorem entropy_eq_sum (timings : List Nat) (h : 2 ≤ timings.length) :
    Impl.CalculateTimingEntropy timings
      = (((timings.map (fun t => t / 1000)).dedup.map
          (fun b => (((timings.map (fun t => t / 1000)).count b : Nat) : ℝ)
            / (timings.length : ℝ))).map (fun p => -(p * Real.logb 2 p))).sum := by
  have hlt : ¬ timings.length < 2 := by omega
  have hn : (0 : ℝ) < (timings.length : ℝ) := by
    have : 0 < timings.length := by omega
    exact_mod_cast this
  unfold Impl.CalculateTimingEntropy
  simp only [hlt, if_false]
  rw [entropy_fold]
  simp only [List.map_map]
  have hperm := List.perm_insertionSort (fun x y : Nat => x ≤ y)
    (timings.map (fun t => t / 1000)).dedup
  rw [(hperm.map _).sum_eq]
  have e : (0.0 : ℝ) = 0 := by norm_num
  rw [e, zero_sub, ← sum_map_neg_eq]
  congr 1
  apply List.map_congr_left
  intro b hb
  have hb2 : b ∈ timings.map (fun t => t / 1000) := List.mem_dedup.mp hb
  have hc : 0 < (timings.map (fun t => t / 1000)).count b := List.count_pos_iff.mpr hb2
  have hp : (((timings.map (fun t => t / 1000)).count b : Nat) : ℝ) / (timings.length : ℝ) > 0 := by
    have : (0 : ℝ) < (((timings.map (fun t => t / 1000)).count b : Nat) : ℝ) := by
      exact_mod_cast hc
    positivity
  simp only [Function.comp, hp, if_true]

/-- For at least one sample the entropy lies between 0 and the binary logarithm of the
number of distinct buckets. -/
theorem entropy_bounds (timings : List Nat) (hne : timings ≠ []) :
    0 ≤ Impl.CalculateTimingEntropy timings ∧
      Impl.CalculateTimingEntropy timings
        ≤ Real.logb 2 (((timings.map (fun t => t / 1000)).dedup.length : Nat) : ℝ) := by
  by_cases h : timings.length < 2
  · have e : Impl.CalculateTimingEntropy timings = 0 := by
      unfold Impl.CalculateTimingEntropy
      simp only [h, if_true]
      norm_num
    have hk : 1 ≤ (timings.map (fun t => t / 1000)).dedup.length := by
      apply List.length_pos.mpr
      intro h0
      rw [List.dedup_eq_nil, List.map_eq_nil_iff] at h0
      exact hne h0
    have hk1 : (1 : ℝ) ≤ (((timings.map (fun t => t / 1000)).dedup.length : Nat) : ℝ) := by
      exact_mod_cast hk
    rw [e]
    exact ⟨le_refl 0, Real.logb_nonneg (by norm_num) hk1⟩
  · have h2 : 2 ≤ timings.length := by omega
    have hn : (0 : ℝ) < (timings.length : ℝ) := by
      have : 0 < timings.length := by omega
      exact_mod_cast this
    rw [entropy_eq_sum timings h2]
    have hs := shannon_bounds
      ((timings.map (fun t => t / 1000)).dedup.map
        (fun b => (((timings.map (fun t => t / 1000)).count b : Nat) : ℝ)
          / (timings.length : ℝ)))
      (by
        intro p hp
        obtain ⟨b, hb, rfl⟩ := List.mem_map.mp hp
        have hc : 0 < (timings.map (fun t => t / 1000)).count b :=
          List.count_pos_iff.mpr (List.mem_dedup.mp hb)
        have : (0 : ℝ) < (((timings.map (fun t => t / 1000)).count b : Nat) : ℝ) := by
          exact_mod_cast hc
        positivity)
      (by
        have e1 := sum_map_div_const (timings.length : ℝ)
          ((timings.map (fun t => t / 1000)).dedup.map
            (fun b => (timings.map (fun t => t / 1000)).count b))
        rw [List.map_map] at e1
        have e2 := List.sum_map_count_dedup_eq_length (timings.map (fun t => t / 1000))
        rw [List.length_map] at e2
        rw [e2] at e1
        rw [show ((fun c : Nat => (c : ℝ) / (timings.length : ℝ)) ∘
            (fun b => (timings.map (fun t => t / 1000)).count b))
            = (fun b => (((timings.map (fun t => t / 1000)).count b : Nat) : ℝ)
              / (timings.length : ℝ)) from rfl] at e1
        rw [e1]
        exact div_self hn.ne.symm)
    rw [List.length_map] at hs
    exact hs

theorem logb_two_three_lt : Real.logb 2 3 < 2 := by
  rw [Real.logb_lt_iff_lt_rpow (by norm_num) (by norm_num)]
  norm_num

/-- Fewer than four distinct buckets in the pool make the condition of check 4 true. -/
theorem entropyLow_of_few_buckets (fps : List DeviceFingerprint)
    (hk : ((pooledTimings fps).map (fun t => t / 1000)).dedup.length < 4) :
    entropyLow fps = true := by
  unfold entropyLow
  simp only [decide_eq_true_eq]
  by_cases hne : pooledTimings fps = []
  · rw [hne, entropy_nil]; norm_num
  · have hb := (entropy_bounds (pooledTimings fps) hne).2
    have hk1 : 1 ≤ ((pooledTimings fps).map (fun t => t / 1000)).dedup.length := by
      apply List.length_pos.mpr
      intro h0
      rw [List.dedup_eq_nil, List.map_eq_nil_iff] at h0
      exact hne h0
    have h3 : ((((pooledTimings fps).map (fun t => t / 1000)).dedup.length : Nat) : ℝ) ≤ 3 := by
      have : ((pooledTimings fps).map (fun t => t / 1000)).dedup.length ≤ 3 := by omega
      exact_mod_cast this
    have h1 : (0 : ℝ) < ((((pooledTimings fps).map (fun t => t / 1000)).dedup.length : Nat) : ℝ) := by
      have : 0 < ((pooledTimings fps).map (fun t => t / 1000)).dedup.length := by omega
      exact_mod_cast this
    have hmono := Real.logb_le_logb_of_le (b := 2) (by norm_num) h1 h3
    have := logb_two_three_lt
    have e : (2.0 : ℝ) = 2 := by norm_num
    rw [e]
    linarith

/-! ## Lemmas on the key sets of the registry -/

theorem FormMiningSquad_registration_times (self : DeviceVerifier) (n1 n2 : Int)
    (ids : List String) :
    (self.FormMiningSquad n1 n2 ids).2.m_registration_times = self.m_registration_times := by
  by_cases hc : ids.length < 2 ∨ ids.length > 10
      ∨ (∃ id ∈ ids, self.m_devices.find id = none) ∨ self.DetectSpoofing ids = true
  · rw [FormMiningSquad_failure self n1 n2 ids hc]
  · rw [FormMiningSquad_success self n1 n2 ids hc]

theorem call_keys_invariant (s : DeviceVerifier) (c : Call)
    (hI : ∀ k : String, (s.m_devices.find k).isSome = (s.m_registration_times.find k).isSome)
    (_hc : True) :
    ∀ k : String,
      ((s.call c).m_devices.find k).isSome = ((s.call c).m_registration_times.find k).isSome := by
  intro k
  cases c with
  | registerDevice now id fp =>
    simp only [DeviceVerifier.call, DeviceVerifier.RegisterDevice]
    by_cases hs : (s.m_devices.find id).isSome = true
    · rw [if_pos hs]; exact hI k
    · rw [if_neg hs]
      by_cases hk : k = id
      · subst hk
        simp only [Map.find_assign_self, Option.isSome_some]
      · simp only [Map.find_assign_ne _ _ _ _ hk]
        exact hI k
  | updateDeviceFingerprint now id share =>
    simp only [DeviceVerifier.call, UpdateDeviceFingerprint_registration_times]
    by_cases hk : k = id
    · subst hk
      cases hf : s.m_devices.find k with
      | none =>
        rw [UpdateDeviceFingerprint_unregistered s now k share hf, hf, ← hI k, hf]
      | some fp0 =>
        rw [UpdateDeviceFingerprint_find s now k share fp0 hf, ← hI k, hf]
        rfl
    · rw [UpdateDeviceFingerprint_find_ne s now id k share hk]
      exact hI k
  | formMiningSquad n1 n2 ids =>
    simp only [DeviceVerifier.call, FormMiningSquad_devices, FormMiningSquad_registration_times]
    exact hI k

theorem runCalls_keys (calls : List Call) (k : String) :
    ((runCalls calls).m_devices.find k).isSome
      = ((runCalls calls).m_registration_times.find k).isSome := by
  unfold runCalls
  refine foldl_call_invariant (fun _ => True)
    (fun s => ∀ k : String,
      (s.m_devices.find k).isSome = (s.m_registration_times.find k).isSome)
    call_keys_invariant calls DeviceVerifier.empty ?_ (fun _ _ => trivial) k
  intro k
  simp [DeviceVerifier.empty, Map.find]

theorem call_id_invariant (s : DeviceVerifier) (c : Call)
    (hI : ∀ (id : String) (fp : DeviceFingerprint), s.m_devices.find id = some fp →
      fp.device_id = id)
    (hc : c.idMatches) :
    ∀ (id : String) (fp : DeviceFingerprint), (s.call c).m_devices.find id = some fp →
      fp.device_id = id := by
  intro k g hg
  cases c with
  | registerDevice now id fp =>
    simp only [DeviceVerifier.call, DeviceVerifier.RegisterDevice] at hg
    by_cases hs : (s.m_devices.find id).isSome = true
    · rw [if_pos hs] at hg
      exact hI k g hg
    · rw [if_neg hs] at hg
      by_cases hk : k = id
      · subst hk
        simp only [Map.find_assign_self] at hg
        rw [← Option.some.inj hg]
        exact hc
      · simp only [Map.find_assign_ne _ _ _ _ hk] at hg
        exact hI k g hg
  | updateDeviceFingerprint now id share =>
    simp only [DeviceVerifier.call] at hg
    by_cases hk : k = id
    · subst hk
      cases hf : s.m_devices.find k with
      | none =>
        rw [UpdateDeviceFingerprint_unregistered s now k share hf, hf] at hg
        exact Option.noConfusion hg
      | some fp0 =>
        rw [UpdateDeviceFingerprint_find s now k share fp0 hf] at hg
        rw [← Option.some.inj hg, (updateFingerprint_stable fp0 now share).1]
        exact hI k fp0 hf
    · rw [UpdateDeviceFingerprint_find_ne s now id k share hk] at hg
      exact hI k g hg
  | formMiningSquad n1 n2 ids =>
    simp only [DeviceVerifier.call, FormMiningSquad_devices] at hg
    exact hI k g hg

/-! ## Evaluation lemmas for the Gini coefficient and the demo verifier -/

theorem statsOneThree_totals : statsOneThree.m_miner_totals = [("b", 3), ("a", 1)] := by
  decide

theorem sorted_three_one : ([3, 1] : List Int).insertionSort (fun x y => x ≤ y) = [1, 3] := by
  decide

theorem sorted_one_three : ([1, 3] : List Int).insertionSort (fun x y => x ≤ y) = [1, 3] := by
  decide

theorem giniProduct_first :
    (giniFactor 0 2 * int64ToUInt64 1) % 18446744073709551616 = 18446744073709551615 := by
  decide

theorem giniProduct_second :
    (giniFactor 1 2 * int64ToUInt64 3) % 18446744073709551616 = 3 := by
  decide

theorem statsOneThree_gini :
    statsOneThree.GetStatistics.gini_coefficient = (2 ^ 64 + 2) / 8 := by
  have hne : statsOneThree.m_miner_totals.isEmpty = false := by
    rw [statsOneThree_totals]; rfl
  unfold RewardStatistics.GetStatistics
  simp only [hne, Bool.false_eq_true, if_false]
  rw [statsOneThree_totals]
  simp only [List.map_cons, List.map_nil, sorted_three_one]
  have he : ([1, 3] : List Int).enum = [(0, 1), (1, 3)] := by decide
  simp only [he, List.foldl_cons, List.foldl_nil, giniStep, List.length_cons, List.length_nil]
  norm_num
  rw [giniProduct_first, giniProduct_second]
  norm_num

/-! ## Lemmas on binary64 rounding -/

theorem roundHalfEven_eq (q : ℝ) (m : Int) (h : |q - (m : ℝ)| < 1 / 2) :
    roundHalfEven q = m := by
  rw [abs_lt] at h
  unfold roundHalfEven
  by_cases hq : (m : ℝ) ≤ q
  · have hf : ⌊q⌋ = m := by
      rw [Int.floor_eq_iff]
      constructor <;> linarith
    simp only [hf]
    rw [if_pos (by linarith)]
  · push_neg at hq
    have hf : ⌊q⌋ = m - 1 := by
      rw [Int.floor_eq_iff]
      push_cast
      constructor <;> linarith
    simp only [hf]
    push_cast
    rw [if_neg (by linarith), if_pos (by linarith)]
    ring

theorem roundHalfEven_tie_up (m : Int) (hm : m % 2 = 0) :
    roundHalfEven ((m : ℝ) + 1 / 2) = m := by
  unfold roundHalfEven
  have hf : ⌊(m : ℝ) + 1 / 2⌋ = m := by
    rw [Int.floor_eq_iff]
    constructor <;> linarith
  simp only [hf]
  rw [if_neg (by linarith), if_neg (by linarith), if_pos hm]

theorem roundHalfEven_tie_down (m : Int) (hm : m % 2 = 0) :
    roundHalfEven ((m : ℝ) - 1 / 2) = m := by
  unfold roundHalfEven
  have hf : ⌊(m : ℝ) - 1 / 2⌋ = m - 1 := by
    rw [Int.floor_eq_iff]
    push_cast
    constructor <;> linarith
  simp only [hf]
  push_cast
  have hodd : ¬ (m - 1) % 2 = 0 := by omega
  rw [if_neg (by linarith), if_neg (by linarith), if_neg hodd]
  ring

theorem roundHalfEven_intCast (m : Int) : roundHalfEven (m : ℝ) = m :=
  roundHalfEven_eq _ m (by simp)

theorem log_two_eq (x : ℝ) (e : Int) (hx : 0 < x) (hlo : (2 : ℝ) ^ e ≤ x)
    (hhi : x < (2 : ℝ) ^ (e + 1)) : Int.log 2 x = e := by
  have h1 : e ≤ Int.log 2 x :=
    (Int.zpow_le_iff_le_log (b := 2) (by norm_num) hx (x := e)).mp (by exact_mod_cast hlo)
  have h2 : Int.log 2 x < e + 1 :=
    (Int.lt_zpow_iff_log_lt (b := 2) (by norm_num) hx (x := e + 1)).mp
      (by exact_mod_cast hhi)
  omega

/-- Evaluation of `round64` at a positive real of known binade, away from a tie. -/
theorem round64_eval (x : ℝ) (e m : Int) (hx : 0 < x) (he : -1022 ≤ e)
    (hlo : (2 : ℝ) ^ e ≤ x) (hhi : x < (2 : ℝ) ^ (e + 1))
    (hq : |x / (2 : ℝ) ^ (e - 52) - (m : ℝ)| < 1 / 2) :
    round64 x = (m : ℝ) * (2 : ℝ) ^ (e - 52) := by
  unfold round64
  have hl : Int.log 2 |x| = e := by
    rw [abs_of_pos hx]
    exact log_two_eq x e hx hlo hhi
  simp only [hl, max_eq_left he]
  rw [roundHalfEven_eq _ m hq]

/-- Evaluation of `round64` at a positive real that lies halfway between two neighbours,
the lower one having the even significand `m`. -/
theorem round64_eval_tie_up (x : ℝ) (e m : Int) (hx : 0 < x) (he : -1022 ≤ e)
    (hlo : (2 : ℝ) ^ e ≤ x) (hhi : x < (2 : ℝ) ^ (e + 1))
    (hq : x / (2 : ℝ) ^ (e - 52) = (m : ℝ) + 1 / 2) (hm : m % 2 = 0) :
    round64 x = (m : ℝ) * (2 : ℝ) ^ (e - 52) := by
  unfold round64
  have hl : Int.log 2 |x| = e := by
    rw [abs_of_pos hx]
    exact log_two_eq x e hx hlo hhi
  simp only [hl, max_eq_left he]
  rw [hq, roundHalfEven_tie_up m hm]

/-- Evaluation of `round64` at a positive real that lies halfway between two neighbours,
the upper one having the even significand `m`. -/
theorem round64_eval_tie_down (x : ℝ) (e m : Int) (hx : 0 < x) (he : -1022 ≤ e)
    (hlo : (2 : ℝ) ^ e ≤ x) (hhi : x < (2 : ℝ) ^ (e + 1))
    (hq : x / (2 : ℝ) ^ (e - 52) = (m : ℝ) - 1 / 2) (hm : m % 2 = 0) :
    round64 x = (m : ℝ) * (2 : ℝ) ^ (e - 52) := by
  unfold round64
  have hl : Int.log 2 |x| = e := by
    rw [abs_of_pos hx]
    exact log_two_eq x e hx hlo hhi
  simp only [hl, max_eq_left he]
  rw [hq, roundHalfEven_tie_down m hm]

theorem round64_zero : round64 0 = 0 := by
  have h : roundHalfEven 0 = 0 := by simpa using roundHalfEven_intCast 0
  simp only [round64, zero_div, h]
  simp

/-- Evaluation of `round64` at a negative real of known binade, away from a tie. -/
theorem round64_eval_neg (x : ℝ) (e m : Int) (hx : x < 0) (he : -1022 ≤ e)
    (hlo : (2 : ℝ) ^ e ≤ -x) (hhi : -x < (2 : ℝ) ^ (e + 1))
    (hq : |x / (2 : ℝ) ^ (e - 52) - (m : ℝ)| < 1 / 2) :
    round64 x = (m : ℝ) * (2 : ℝ) ^ (e - 52) := by
  unfold round64
  have hl : Int.log 2 |x| = e := by
    rw [abs_of_neg hx]
    exact log_two_eq (-x) e (by linarith) hlo hhi
  simp only [hl, max_eq_left he]
  rw [roundHalfEven_eq _ m hq]

/-- A positive real that is an integer multiple of the spacing of its binade is a binary64
value: rounding leaves it unchanged. -/
theorem round64_exact (x : ℝ) (e m : Int) (hx : 0 < x) (he : -1022 ≤ e)
    (hlo : (2 : ℝ) ^ e ≤ x) (hhi : x < (2 : ℝ) ^ (e + 1))
    (hm : x = (m : ℝ) * (2 : ℝ) ^ (e - 52)) : round64 x = x := by
  have hp : (0 : ℝ) < (2 : ℝ) ^ (e - 52) := by positivity
  rw [round64_eval x e m hx he hlo hhi, ← hm]
  rw [hm, mul_div_assoc, div_self hp.ne.symm, mul_one, sub_self, abs_zero]
  norm_num

/-- Every natural number below `2^53` is a binary64 value. -/
theorem round64_natCast (n : Nat) (h : n < 2 ^ 53) : round64 (n : ℝ) = n := by
  rcases Nat.eq_zero_or_pos n with h0 | hpos
  · subst h0
    simpa using round64_zero
  have hn0 : n ≠ 0 := by omega
  have hk : Nat.log 2 n < 53 := Nat.log_lt_of_lt_pow hn0 h
  have hlo : 2 ^ Nat.log 2 n ≤ n := Nat.pow_log_le_self 2 hn0
  have hhi : n < 2 ^ (Nat.log 2 n + 1) := Nat.lt_pow_succ_log_self (by norm_num) n
  have e1 : (2 : ℝ) ^ ((Nat.log 2 n : Int)) = ((2 ^ Nat.log 2 n : Nat) : ℝ) := by
    rw [zpow_natCast]; push_cast; rfl
  have e2 : (2 : ℝ) ^ ((Nat.log 2 n : Int) + 1) = ((2 ^ (Nat.log 2 n + 1) : Nat) : ℝ) := by
    rw [show ((Nat.log 2 n : Int) + 1) = ((Nat.log 2 n + 1 : Nat) : Int) by push_cast; rfl,
      zpow_natCast]
    push_cast; rfl
  refine round64_exact (n : ℝ) (Nat.log 2 n : Int) ((n * 2 ^ (52 - Nat.log 2 n) : Nat) : Int)
    (by exact_mod_cast hpos) (by omega) ?_ ?_ ?_
  · rw [e1]; exact_mod_cast hlo
  · rw [e2]; exact_mod_cast hhi
  · have hsplit : ((Nat.log 2 n : Int) - 52) = -((52 - Nat.log 2 n : Nat) : Int) := by omega
    rw [hsplit, zpow_neg, zpow_natCast]
    push_cast
    have hp : (0 : ℝ) < (2 : ℝ) ^ (52 - Nat.log 2 n) := by positivity
    field_simp

/-- The reciprocal of a power of two is a binary64 value. -/
theorem round64_inv_two_pow (j : Nat) (hj : j ≤ 1022) :
    round64 (1 / (2 : ℝ) ^ j) = 1 / (2 : ℝ) ^ j := by
  have hx : (1 : ℝ) / (2 : ℝ) ^ j = (2 : ℝ) ^ (-(j : Int)) := by
    rw [zpow_neg, zpow_natCast, one_div]
  rw [hx]
  refine round64_exact _ (-(j : Int)) 4503599627370496 (by positivity) (by omega)
    (le_refl _) ?_ ?_
  · exact zpow_lt_zpow_right₀ (by norm_num) (by omega)
  · rw [show (-(j : Int)) = (52 : Int) + (-(j : Int) - 52) by ring,
      zpow_add₀ (by norm_num : (2 : ℝ) ≠ 0)]
    norm_num

theorem round64_lit_0_4 : round64 (2 / 5) = (3602879701896397 / 9007199254740992) := by
  rw [round64_eval (2 / 5) (-2) 7205759403792794 (by norm_num) (by norm_num) (by norm_num)
    (by norm_num) (by rw [abs_lt]; constructor <;> norm_num)]
  norm_num

theorem round64_lit_0_2 : round64 (1 / 5) = (3602879701896397 / 18014398509481984) := by
  rw [round64_eval (1 / 5) (-3) 7205759403792794 (by norm_num) (by norm_num) (by norm_num)
    (by norm_num) (by rw [abs_lt]; constructor <;> norm_num)]
  norm_num

theorem round64_lit_0_15 : round64 (3 / 20) = (5404319552844595 / 36028797018963968) := by
  rw [round64_eval (3 / 20) (-3) 5404319552844595 (by norm_num) (by norm_num) (by norm_num)
    (by norm_num) (by rw [abs_lt]; constructor <;> norm_num)]
  norm_num

theorem round64_lit_0_05 : round64 (1 / 20) = (3602879701896397 / 72057594037927936) := by
  rw [round64_eval (1 / 20) (-5) 7205759403792794 (by norm_num) (by norm_num) (by norm_num)
    (by norm_num) (by rw [abs_lt]; constructor <;> norm_num)]
  norm_num

theorem round64_lit_0_1 : round64 (1 / 10) = (3602879701896397 / 36028797018963968) := by
  rw [round64_eval (1 / 10) (-4) 7205759403792794 (by norm_num) (by norm_num) (by norm_num)
    (by norm_num) (by rw [abs_lt]; constructor <;> norm_num)]
  norm_num

theorem round64_c04 : round64 (3602879701896397 / 9007199254740992) = (3602879701896397 / 9007199254740992) := by
  rw [round64_eval (3602879701896397 / 9007199254740992) (-2) 7205759403792794 (by norm_num) (by norm_num) (by norm_num)
    (by norm_num) (by rw [abs_lt]; constructor <;> norm_num)]
  norm_num

theorem round64_c02 : round64 (3602879701896397 / 18014398509481984) = (3602879701896397 / 18014398509481984) := by
  rw [round64_eval (3602879701896397 / 18014398509481984) (-3) 7205759403792794 (by norm_num) (by norm_num) (by norm_num)
    (by norm_num) (by rw [abs_lt]; constructor <;> norm_num)]
  norm_num

theorem round64_c005 : round64 (3602879701896397 / 72057594037927936) = (3602879701896397 / 72057594037927936) := by
  rw [round64_eval (3602879701896397 / 72057594037927936) (-5) 7205759403792794 (by norm_num) (by norm_num) (by norm_num)
    (by norm_num) (by rw [abs_lt]; constructor <;> norm_num)]
  norm_num

theorem round64_c01 : round64 (3602879701896397 / 36028797018963968) = (3602879701896397 / 36028797018963968) := by
  rw [round64_eval (3602879701896397 / 36028797018963968) (-4) 7205759403792794 (by norm_num) (by norm_num) (by norm_num)
    (by norm_num) (by rw [abs_lt]; constructor <;> norm_num)]
  norm_num

theorem round64_sim_2 : round64 (10808639105689191 / 18014398509481984) = (1351079888211149 / 2251799813685248) := by
  rw [round64_eval_tie_down (10808639105689191 / 18014398509481984) (-1) 5404319552844596 (by norm_num) (by norm_num)
    (by norm_num) (by norm_num) (by norm_num) (by decide)]
  norm_num

theorem round64_sim_3 : round64 (27021597764222979 / 36028797018963968) = (6755399441055745 / 9007199254740992) := by
  rw [round64_eval (27021597764222979 / 36028797018963968) (-1) 6755399441055745 (by norm_num) (by norm_num) (by norm_num)
    (by norm_num) (by rw [abs_lt]; constructor <;> norm_num)]
  norm_num

theorem round64_sim_4 : round64 (57646075230342357 / 72057594037927936) = (7205759403792795 / 9007199254740992) := by
  rw [round64_eval (57646075230342357 / 72057594037927936) (-1) 7205759403792795 (by norm_num) (by norm_num) (by norm_num)
    (by norm_num) (by rw [abs_lt]; constructor <;> norm_num)]
  norm_num

theorem round64_sim_5 : round64 (61248954932238757 / 72057594037927936) = (7656119366529845 / 9007199254740992) := by
  rw [round64_eval (61248954932238757 / 72057594037927936) (-1) 7656119366529845 (by norm_num) (by norm_num) (by norm_num)
    (by norm_num) (by rw [abs_lt]; constructor <;> norm_num)]
  norm_num

theorem round64_sim_6 : round64 (64851834634135157 / 72057594037927936) = (8106479329266895 / 9007199254740992) := by
  rw [round64_eval (64851834634135157 / 72057594037927936) (-1) 8106479329266895 (by norm_num) (by norm_num) (by norm_num)
    (by norm_num) (by rw [abs_lt]; constructor <;> norm_num)]
  norm_num

theorem round64_sim_7 : round64 (36028797018963977 / 36028797018963968) = (4503599627370497 / 4503599627370496) := by
  rw [round64_eval (36028797018963977 / 36028797018963968) 0 4503599627370497 (by norm_num) (by norm_num) (by norm_num)
    (by norm_num) (by rw [abs_lt]; constructor <;> norm_num)]
  norm_num

theorem round64_weight_3 : round64 (14411518807585589 / 18014398509481984) = (3602879701896397 / 4503599627370496) := by
  rw [round64_eval_tie_up (14411518807585589 / 18014398509481984) (-1) 7205759403792794 (by norm_num) (by norm_num)
    (by norm_num) (by norm_num) (by norm_num) (by decide)]
  norm_num

theorem round64_weight_4 : round64 (18014398509481985 / 18014398509481984) = 1 := by
  rw [round64_eval (18014398509481985 / 18014398509481984) 0 4503599627370496 (by norm_num) (by norm_num) (by norm_num)
    (by norm_num) (by rw [abs_lt]; constructor <;> norm_num)]
  norm_num

theorem round64_sim_8 : round64 (4503599627370497 / 4503599627370496) = (4503599627370497 / 4503599627370496) := by
  rw [round64_eval (4503599627370497 / 4503599627370496) 0 4503599627370497 (by norm_num) (by norm_num) (by norm_num)
    (by norm_num) (by rw [abs_lt]; constructor <;> norm_num)]
  norm_num

theorem Binary64_CalculateSimilarity_self (L : Libm) (a : DeviceFingerprint) :
    Binary64.CalculateSimilarity L a a = 4503599627370497 / 4503599627370496 := by
  unfold Binary64.CalculateSimilarity
  simp only [wrapSub_self, Nat.cast_zero, round64_zero, abs_zero, neg_zero, zero_div,
    L.exp_zero, sub_self, if_true]
  norm_num [round64_lit_0_4, round64_lit_0_2, round64_lit_0_15, round64_lit_0_05,
    round64_lit_0_1, round64_c04, round64_c02, round64_c005, round64_c01, round64_sim_2,
    round64_sim_3, round64_sim_4, round64_sim_5, round64_sim_6, round64_sim_7,
    round64_weight_3, round64_weight_4, round64_sim_8]
theorem round64_lit_1_1 : round64 (11 / 10) = (2476979795053773 / 2251799813685248) := by
  rw [round64_eval (11 / 10) 0 4953959590107546 (by norm_num) (by norm_num) (by norm_num)
    (by norm_num) (by rw [abs_lt]; constructor <;> norm_num)]
  norm_num

theorem round64_multiplier_one_bonus : round64 (82866233143617133 / 72057594037927936) = (5179139571476071 / 4503599627370496) := by
  rw [round64_eval (82866233143617133 / 72057594037927936) 0 5179139571476071 (by norm_num) (by norm_num) (by norm_num)
    (by norm_num) (by rw [abs_lt]; constructor <;> norm_num)]
  norm_num

theorem round64_multiplier_two_bonuses : round64 (86469112845513533 / 72057594037927936) = (1351079888211149 / 1125899906842624) := by
  rw [round64_eval (86469112845513533 / 72057594037927936) 0 5404319552844596 (by norm_num) (by norm_num) (by norm_num)
    (by norm_num) (by rw [abs_lt]; constructor <;> norm_num)]
  norm_num

theorem round64_efficiency_E : round64 (1000 / 3) = (5864062014805333 / 17592186044416) := by
  rw [round64_eval (1000 / 3) 8 5864062014805333 (by norm_num) (by norm_num) (by norm_num)
    (by norm_num) (by rw [abs_lt]; constructor <;> norm_num)]
  norm_num
theorem round64_sixth : round64 (1 / 6) = (6004799503160661 / 36028797018963968) := by
  rw [round64_eval (1 / 6) (-3) 6004799503160661 (by norm_num) (by norm_num) (by norm_num)
    (by norm_num) (by rw [abs_lt]; constructor <;> norm_num)]
  norm_num

theorem round64_share6_sum1 : round64 (6004799503160661 / 36028797018963968) = (6004799503160661 / 36028797018963968) := by
  rw [round64_eval (6004799503160661 / 36028797018963968) (-3) 6004799503160661 (by norm_num) (by norm_num) (by norm_num)
    (by norm_num) (by rw [abs_lt]; constructor <;> norm_num)]
  norm_num

theorem round64_share6_sum2 : round64 (6004799503160661 / 18014398509481984) = (6004799503160661 / 18014398509481984) := by
  rw [round64_eval (6004799503160661 / 18014398509481984) (-2) 6004799503160661 (by norm_num) (by norm_num) (by norm_num)
    (by norm_num) (by rw [abs_lt]; constructor <;> norm_num)]
  norm_num

theorem round64_share6_sum3 : round64 (18014398509481983 / 36028797018963968) = (1 / 2) := by
  rw [round64_eval_tie_down (18014398509481983 / 36028797018963968) (-2) 9007199254740992 (by norm_num) (by norm_num)
    (by norm_num) (by norm_num) (by norm_num) (by decide)]
  norm_num

theorem round64_share6_sum4 : round64 (24019198012642645 / 36028797018963968) = (6004799503160661 / 9007199254740992) := by
  rw [round64_eval (24019198012642645 / 36028797018963968) (-1) 6004799503160661 (by norm_num) (by norm_num) (by norm_num)
    (by norm_num) (by rw [abs_lt]; constructor <;> norm_num)]
  norm_num

theorem round64_share6_sum5 : round64 (30023997515803305 / 36028797018963968) = (3752999689475413 / 4503599627370496) := by
  rw [round64_eval (30023997515803305 / 36028797018963968) (-1) 7505999378950826 (by norm_num) (by norm_num) (by norm_num)
    (by norm_num) (by rw [abs_lt]; constructor <;> norm_num)]
  norm_num

theorem round64_share6_sum6 : round64 (36028797018963965 / 36028797018963968) = (9007199254740991 / 9007199254740992) := by
  rw [round64_eval (36028797018963965 / 36028797018963968) (-1) 9007199254740991 (by norm_num) (by norm_num) (by norm_num)
    (by norm_num) (by rw [abs_lt]; constructor <;> norm_num)]
  norm_num
theorem round64_one : round64 1 = 1 := by
  rw [round64_eval 1 0 4503599627370496 (by norm_num) (by norm_num) (by norm_num)
    (by norm_num) (by rw [abs_lt]; constructor <;> norm_num)]
  norm_num

theorem round64_two : round64 2 = 2 := by
  rw [round64_eval 2 1 4503599627370496 (by norm_num) (by norm_num) (by norm_num)
    (by norm_num) (by rw [abs_lt]; constructor <;> norm_num)]
  norm_num

theorem round64_half : round64 (1 / 2) = (1 / 2) := by
  rw [round64_eval (1 / 2) (-1) 4503599627370496 (by norm_num) (by norm_num) (by norm_num)
    (by norm_num) (by rw [abs_lt]; constructor <;> norm_num)]
  norm_num

theorem round64_lit_0_3 : round64 (3 / 10) = (5404319552844595 / 18014398509481984) := by
  rw [round64_eval (3 / 10) (-2) 5404319552844595 (by norm_num) (by norm_num) (by norm_num)
    (by norm_num) (by rw [abs_lt]; constructor <;> norm_num)]
  norm_num

theorem round64_lit_0_9 : round64 (9 / 10) = (8106479329266893 / 9007199254740992) := by
  rw [round64_eval (9 / 10) (-1) 8106479329266893 (by norm_num) (by norm_num) (by norm_num)
    (by norm_num) (by rw [abs_lt]; constructor <;> norm_num)]
  norm_num

theorem round64_conf_1_minus_03 : round64 (12610078956637389 / 18014398509481984) = (3152519739159347 / 4503599627370496) := by
  rw [round64_eval_tie_up (12610078956637389 / 18014398509481984) (-1) 6305039478318694 (by norm_num) (by norm_num)
    (by norm_num) (by norm_num) (by norm_num) (by decide)]
  norm_num

theorem round64_conf_07_minus_02 : round64 (9007199254740991 / 18014398509481984) = (9007199254740991 / 18014398509481984) := by
  rw [round64_eval (9007199254740991 / 18014398509481984) (-2) 9007199254740991 (by norm_num) (by norm_num) (by norm_num)
    (by norm_num) (by rw [abs_lt]; constructor <;> norm_num)]
  norm_num

theorem round64_conf_1_minus_02 : round64 (14411518807585587 / 18014398509481984) = (3602879701896397 / 4503599627370496) := by
  rw [round64_eval_tie_down (14411518807585587 / 18014398509481984) (-1) 7205759403792794 (by norm_num) (by norm_num)
    (by norm_num) (by norm_num) (by norm_num) (by decide)]
  norm_num

theorem round64_conf_1_minus_04 : round64 (5404319552844595 / 9007199254740992) = (5404319552844595 / 9007199254740992) := by
  rw [round64_eval (5404319552844595 / 9007199254740992) (-1) 5404319552844595 (by norm_num) (by norm_num) (by norm_num)
    (by norm_num) (by rw [abs_lt]; constructor <;> norm_num)]
  norm_num

theorem round64_conf_05_minus_02 : round64 (2702159776422297 / 9007199254740992) = (2702159776422297 / 9007199254740992) := by
  rw [round64_eval (2702159776422297 / 9007199254740992) (-2) 5404319552844594 (by norm_num) (by norm_num) (by norm_num)
    (by norm_num) (by rw [abs_lt]; constructor <;> norm_num)]
  norm_num
theorem round64_two_pow_53 : round64 9007199254740992 = 9007199254740992 := by
  rw [round64_eval 9007199254740992 53 4503599627370496 (by norm_num) (by norm_num) (by norm_num)
    (by norm_num) (by rw [abs_lt]; constructor <;> norm_num)]
  norm_num

theorem round64_two_pow_53_add_one : round64 9007199254740993 = 9007199254740992 := by
  rw [round64_eval_tie_up 9007199254740993 53 4503599627370496 (by norm_num) (by norm_num)
    (by norm_num) (by norm_num) (by norm_num) (by decide)]
  norm_num
/-! ## Lemmas on VerifyDeviceDistribution in binary64 -/

theorem countP_indexPairs (p : Nat × Nat → Bool) (n : Nat) :
    (indexPairs n).countP p
      = ((Finset.range n ×ˢ Finset.range n).filter
          (fun ij => ij.1 < ij.2 ∧ p ij = true)).card := by
  rw [List.countP_eq_length_filter,
    ← List.toFinset_card_of_nodup ((indexPairs_nodup n).filter _)]
  congr 1
  ext ⟨i, j⟩
  simp only [List.mem_toFinset, List.mem_filter, mem_indexPairs, Finset.mem_filter,
    Finset.mem_product, Finset.mem_range]
  constructor
  · rintro ⟨⟨h1, h2⟩, h3⟩
    exact ⟨⟨by omega, h2⟩, h1, h3⟩
  · rintro ⟨⟨_, h2⟩, h1, h3⟩
    exact ⟨⟨h1, h2⟩, h3⟩

theorem Binary64_flaggedCount_eq (L : Libm) (fps : List DeviceFingerprint) :
    Binary64.flaggedCount L fps = Binary64.similarPairCount L fps :=
  countP_indexPairs _ _

theorem Binary64_similarityStep_eq (L : Libm) (ids : List String)
    (fps : List DeviceFingerprint) (r : VerificationResult) (ij : Nat × Nat) :
    Binary64.similarityStep L ids fps r ij =
      if Binary64.pairFlagged L fps ij = true then
        { is_valid := false
          confidence := round64 (r.confidence - round64 0.3)
          suspicious_pairs := r.suspicious_pairs ++ [(ids.getD ij.1 "", ids.getD ij.2 "")]
          reason := "Devices too similar (likely same hardware)" }
      else r := by
  unfold Binary64.similarityStep Binary64.pairFlagged
  cases h1 : fps[ij.1]? with
  | none => simp
  | some fi =>
    cases h2 : fps[ij.2]? with
    | none => simp
    | some fj =>
      by_cases hs : Binary64.CalculateSimilarity L fi fj > round64 0.9
      · simp [hs]
      · simp [hs]

theorem Binary64_similarity_fold (L : Libm) (ids : List String)
    (fps : List DeviceFingerprint) :
    ∀ (pairs : List (Nat × Nat)) (r : VerificationResult),
      (pairs.foldl (Binary64.similarityStep L ids fps) r).confidence
          = (fun x => round64 (x - round64 0.3))^[pairs.countP (Binary64.pairFlagged L fps)]
              r.confidence ∧
        (pairs.foldl (Binary64.similarityStep L ids fps) r).suspicious_pairs.length
          = r.suspicious_pairs.length + pairs.countP (Binary64.pairFlagged L fps) ∧
        ((pairs.foldl (Binary64.similarityStep L ids fps) r).is_valid = true → r.is_valid = true)
        := by
  intro pairs
  induction pairs with
  | nil => intro r; simp
  | cons ij rest ih =>
    intro r
    rw [List.foldl_cons, Binary64_similarityStep_eq]
    by_cases hf : Binary64.pairFlagged L fps ij = true
    · rw [if_pos hf, List.countP_cons_of_pos _ _ hf]
      obtain ⟨h1, h2, h3⟩ := ih
        { is_valid := false
          confidence := round64 (r.confidence - round64 0.3)
          suspicious_pairs := r.suspicious_pairs ++ [(ids.getD ij.1 "", ids.getD ij.2 "")]
          reason := "Devices too similar (likely same hardware)" }
      refine ⟨?_, ?_, ?_⟩
      · rw [h1, Function.iterate_succ_apply]
      · rw [h2, List.length_append, List.length_singleton]
        omega
      · intro hv
        exact absurd (h3 hv) (by simp)
    · rw [if_neg hf, List.countP_cons_of_neg _ _ hf]
      exact ih r

/-- Checks 3 and 4 and the final clamp of the binary64 `VerifyDeviceDistribution`, applied
to any intermediate result `r`. -/
theorem Binary64_Verify_tail (r : VerificationResult) (P Q : Prop) [Decidable P]
    [Decidable Q] :
    let r1 : VerificationResult :=
      if P then
        { r with
          confidence := round64 (r.confidence - round64 0.2)
          is_valid :=
            if round64 (r.confidence - round64 0.2) < 0.5 then false else r.is_valid
          reason := r.reason ++ "; Low network diversity" }
      else r
    let r2 : VerificationResult :=
      if Q then
        { r1 with
          confidence := round64 (r1.confidence - round64 0.2)
          is_valid :=
            if round64 (r1.confidence - round64 0.2) < 0.5 then false else r1.is_valid
          reason := r1.reason ++ "; Low timing entropy" }
      else r1
    let out : VerificationResult := { r2 with confidence := max 0.0 (min 1.0 r2.confidence) }
    out.confidence
        = max 0 (min 1
            (if Q then
              round64 ((if P then round64 (r.confidence - round64 0.2) else r.confidence)
                - round64 0.2)
            else (if P then round64 (r.confidence - round64 0.2) else r.confidence))) ∧
      out.suspicious_pairs = r.suspicious_pairs ∧
      (out.is_valid = true → r.is_valid = true) := by
  intro r1 r2 out
  refine ⟨?_, ?_, ?_⟩
  · by_cases hP : P <;> by_cases hQ : Q <;>
      simp only [out, r2, r1, hP, hQ, if_true, if_false] <;> norm_num
  · by_cases hP : P <;> by_cases hQ : Q <;>
      simp only [out, r2, r1, hP, hQ, if_true, if_false]
  · by_cases hP : P <;> by_cases hQ : Q <;>
      simp only [out, r2, r1, hP, hQ, if_true, if_false] <;>
      intro h <;> (try split_ifs at h) <;> exact h

theorem Binary64_Verify_unfold (L : Libm) (self : DeviceVerifier) (ids : List String)
    (h2 : 2 ≤ (collectFingerprints self ids).length) :
    Binary64.VerifyDeviceDistribution L self ids =
      (let fingerprints := collectFingerprints self ids
       let r : VerificationResult :=
        (indexPairs fingerprints.length).foldl (Binary64.similarityStep L ids fingerprints)
          (if Binary64.DetectSynchronizedTiming L fingerprints = true then
            { is_valid := false, confidence := round64 (1.0 - round64 0.4),
              reason := "Timing patterns too synchronized", suspicious_pairs := [] }
           else { is_valid := true, confidence := 1.0, reason := "", suspicious_pairs := [] })
       let P : Prop :=
        round64 (round64 (((fingerprints.map (fun fp => fp.ip_address)).dedup.length : Nat) : ℝ)
          / round64 (fingerprints.length : ℝ)) < 0.5
       let Q : Prop := Binary64.CalculateTimingEntropy L (pooledTimings fingerprints) < 2.0
       let r1 : VerificationResult :=
        if P then
          { r with
            confidence := round64 (r.confidence - round64 0.2)
            is_valid :=
              if round64 (r.confidence - round64 0.2) < 0.5 then false else r.is_valid
            reason := r.reason ++ "; Low network diversity" }
        else r
       let r2 : VerificationResult :=
        if Q then
          { r1 with
            confidence := round64 (r1.confidence - round64 0.2)
            is_valid :=
              if round64 (r1.confidence - round64 0.2) < 0.5 then false else r1.is_valid
            reason := r1.reason ++ "; Low timing entropy" }
        else r1
       { r2 with confidence := max 0.0 (min 1.0 r2.confidence) }) := by
  have hle := collect_length_le self ids
  have hlen : ¬ ids.length < 2 := by omega
  have hres : ¬ (collectFingerprints self ids).length < 2 := by omega
  unfold Binary64.VerifyDeviceDistribution
  simp only [hlen, hres, if_false]

/-- The confidence and the suspicious pairs of the binary64 `VerifyDeviceDistribution`
when at least two ids resolve. -/
theorem Binary64_Verify_resolved (L : Libm) (self : DeviceVerifier) (ids : List String)
    (h2 : 2 ≤ (collectFingerprints self ids).length) :
    (Binary64.VerifyDeviceDistribution L self ids).confidence
        = max 0 (min 1 (Binary64.deductions
            (Binary64.DetectSynchronizedTiming L (collectFingerprints self ids))
            (Binary64.flaggedCount L (collectFingerprints self ids))
            (Binary64.diversityLow (collectFingerprints self ids))
            (Binary64.entropyLow L (collectFingerprints self ids)))) ∧
      (Binary64.VerifyDeviceDistribution L self ids).suspicious_pairs.length
        = Binary64.flaggedCount L (collectFingerprints self ids) ∧
      ((Binary64.VerifyDeviceDistribution L self ids).is_valid = true →
        Binary64.DetectSynchronizedTiming L (collectFingerprints self ids) = false) := by
  rw [Binary64_Verify_unfold L self ids h2]
  obtain ⟨r0, hr0⟩ : ∃ r0 : VerificationResult, r0 =
      (if Binary64.DetectSynchronizedTiming L (collectFingerprints self ids) = true then
        { is_valid := false, confidence := round64 (1.0 - round64 0.4),
          reason := "Timing patterns too synchronized", suspicious_pairs := [] }
       else { is_valid := true, confidence := 1.0, reason := "", suspicious_pairs := [] }) :=
    ⟨_, rfl⟩
  have hc0 : r0.confidence
      = if Binary64.DetectSynchronizedTiming L (collectFingerprints self ids) = true then
          round64 (1.0 - round64 0.4) else 1.0 := by
    rw [hr0]
    by_cases hs : Binary64.DetectSynchronizedTiming L (collectFingerprints self ids) = true <;>
      simp only [hs, if_true, if_false, Bool.false_eq_true]
  have hp0 : r0.suspicious_pairs = [] := by
    rw [hr0]
    by_cases hs : Binary64.DetectSynchronizedTiming L (collectFingerprints self ids) = true <;>
      simp only [hs, if_true, if_false, Bool.false_eq_true]
  have hv0 : r0.is_valid = true →
      Binary64.DetectSynchronizedTiming L (collectFingerprints self ids) = false := by
    rw [hr0]
    by_cases hs : Binary64.DetectSynchronizedTiming L (collectFingerprints self ids) = true <;>
      simp [hs]
  have F := Binary64_similarity_fold L ids (collectFingerprints self ids)
    (indexPairs (collectFingerprints self ids).length) r0
  have T := Binary64_Verify_tail
    ((indexPairs (collectFingerprints self ids).length).foldl
      (Binary64.similarityStep L ids (collectFingerprints self ids)) r0)
    (round64 (round64
        ((((collectFingerprints self ids).map (fun fp => fp.ip_address)).dedup.length : Nat) : ℝ)
      / round64 ((collectFingerprints self ids).length : ℝ)) < 0.5)
    (Binary64.CalculateTimingEntropy L (pooledTimings (collectFingerprints self ids)) < 2.0)
  simp only [] at T ⊢
  rw [← hr0]
  obtain ⟨T1, T2, T3⟩ := T
  refine ⟨?_, ?_, ?_⟩
  · rw [T1, F.1, hc0]
    unfold Binary64.deductions Binary64.flaggedCount Binary64.diversityLow Binary64.entropyLow
    simp only [decide_eq_true_eq]
  · rw [T2, F.2.1, hp0]
    simp [Binary64.flaggedCount]
  · intro hv
    exact hv0 (F.2.2 (T3 hv))

theorem Binary64_sync_of_pool_nil (L : Libm) (fps : List DeviceFingerprint)
    (hp : pooledTimings fps = []) : Binary64.DetectSynchronizedTiming L fps = false := by
  simp [Binary64.DetectSynchronizedTiming, hp]

theorem Binary64_entropy_nil (L : Libm) : Binary64.CalculateTimingEntropy L [] = 0 := by
  simp [Binary64.CalculateTimingEntropy]
  norm_num

theorem Binary64_entropyLow_of_pool_nil (L : Libm) (fps : List DeviceFingerprint)
    (hp : pooledTimings fps = []) : Binary64.entropyLow L fps = true := by
  simp only [Binary64.entropyLow, hp, Binary64_entropy_nil, decide_eq_true_eq]
  norm_num

/-- With exactly two fingerprints the binary64 quotient of check 3 is 0.5 or 1, never
below 0.5. -/
theorem Binary64_diversity_pair (f g : DeviceFingerprint) :
    Binary64.diversityLow [f, g] = false := by
  unfold Binary64.diversityLow
  by_cases h : f.ip_address = g.ip_address
  · simp [List.dedup_cons_of_mem, h]
    norm_num [round64_one, round64_two, round64_half]
  · simp [List.dedup_cons_of_not_mem, h]
    norm_num [round64_one, round64_two]

theorem Binary64_flaggedCount_pair (L : Libm) (f g : DeviceFingerprint) :
    Binary64.flaggedCount L [f, g]
      = if Binary64.CalculateSimilarity L f g > round64 0.9 then 1 else 0 := by
  have e : indexPairs [f, g].length = [(0, 1)] := indexPairs_two
  unfold Binary64.flaggedCount
  rw [e]
  by_cases hs : Binary64.CalculateSimilarity L f g > round64 0.9 <;>
    simp [Binary64.pairFlagged, hs]

theorem Binary64_flaggedCount_A_A (L : Libm) :
    Binary64.flaggedCount L [deviceA, deviceA] = 1 := by
  rw [Binary64_flaggedCount_pair, Binary64_CalculateSimilarity_self, if_pos]
  norm_num [round64_lit_0_9]

theorem Binary64_deductions_one_pair_low_entropy :
    Binary64.deductions false 1 false true = 9007199254740991 / 18014398509481984 := by
  simp only [Binary64.deductions, Bool.false_eq_true, if_false, if_true,
    Function.iterate_succ, Function.iterate_zero, Function.comp, id]
  norm_num [round64_lit_0_3, round64_lit_0_2, round64_conf_1_minus_03,
    round64_conf_07_minus_02]

theorem Binary64_deductions_low_entropy :
    Binary64.deductions false 0 false true = 3602879701896397 / 4503599627370496 := by
  simp only [Binary64.deductions, Bool.false_eq_true, if_false, if_true,
    Function.iterate_zero, id]
  norm_num [round64_lit_0_2, round64_conf_1_minus_02]

/-- The binary64 confidence for the list `[A, A]`: one flagged pair and the low-entropy
deduction give `1.0 - 0.3 - 0.2 = 9007199254740991 / 2^54` (0.49999999999999994). -/
theorem Binary64_Verify_A_A (L : Libm) :
    (Binary64.VerifyDeviceDistribution L registryAB ["A", "A"]).confidence
      = 9007199254740991 / 18014398509481984 := by
  have hp : pooledTimings [deviceA, deviceA] = [] := by
    rw [deviceA]; exact pooled_sample _ _ _ _ _ _
  rw [(Binary64_Verify_resolved L registryAB ["A", "A"]
    (by rw [collect_A_A]; exact Nat.le_refl 2)).1, collect_A_A,
    Binary64_sync_of_pool_nil L _ hp, Binary64_flaggedCount_A_A, Binary64_diversity_pair,
    Binary64_entropyLow_of_pool_nil L _ hp, Binary64_deductions_one_pair_low_entropy]
  norm_num

/-! ## Lemmas on FormMiningSquad in binary64 -/

/-- When exactly two fingerprints resolve and their timing rings are empty, the binary64
confidence is `1.0 - 0.2` or `1.0 - 0.3 - 0.2`, so `DetectSpoofing` is false. -/
theorem Binary64_DetectSpoofing_pair (L : Libm) (self : DeviceVerifier) (ids : List String)
    (f g : DeviceFingerprint) (hc : collectFingerprints self ids = [f, g])
    (hp : pooledTimings [f, g] = []) : Binary64.DetectSpoofing L self ids = false := by
  have h := (Binary64_Verify_resolved L self ids (by rw [hc]; exact Nat.le_refl 2)).1
  rw [hc, Binary64_sync_of_pool_nil L _ hp, Binary64_diversity_pair,
    Binary64_entropyLow_of_pool_nil L _ hp, Binary64_flaggedCount_pair] at h
  unfold Binary64.DetectSpoofing
  simp only [h]
  by_cases hs : Binary64.CalculateSimilarity L f g > round64 0.9
  · rw [if_pos hs, Binary64_deductions_one_pair_low_entropy]
    norm_num [round64_lit_0_3]
  · rw [if_neg hs, Binary64_deductions_low_entropy]
    norm_num [round64_lit_0_3]

theorem Binary64_FormMiningSquad_success (L : Libm) (self : DeviceVerifier) (n1 n2 : Int)
    (ids : List String)
    (h : ¬ (ids.length < 2 ∨ ids.length > 10 ∨ (∃ id ∈ ids, self.m_devices.find id = none)
      ∨ Binary64.DetectSpoofing L self ids = true)) :
    Binary64.FormMiningSquad L self n1 n2 ids =
      ("SQUAD_" ++ toString n1,
        { self with
          m_squads := self.m_squads.assign ("SQUAD_" ++ toString n1)
            { squad_id := "SQUAD_" ++ toString n1
              member_devices := ids
              created_at := n2
              total_hashrate := Binary64.accumulateHashrate self ids 0
              blocks_found := 0 } }) := by
  unfold Binary64.FormMiningSquad
  have h1 : ¬ (ids.length < 2 ∨ ids.length > 10) := by
    intro hc
    rcases hc with hc | hc
    · exact h (Or.inl hc)
    · exact h (Or.inr (Or.inl hc))
  have h2 : ¬ ids.any (fun id => (self.m_devices.find id).isNone) = true := by
    intro hc
    exact h (Or.inr (Or.inr (Or.inl ((any_unregistered_iff self ids).mp hc))))
  have h3 : ¬ Binary64.DetectSpoofing L self ids = true := by
    intro hc
    exact h (Or.inr (Or.inr (Or.inr hc)))
  rw [if_neg h1, if_neg h2, if_neg h3]

theorem Binary64_FormMiningSquad_success_of_ne (L : Libm) (self : DeviceVerifier)
    (n1 n2 : Int) (ids : List String)
    (h : (Binary64.FormMiningSquad L self n1 n2 ids).1 ≠ "") :
    ¬ (ids.length < 2 ∨ ids.length > 10 ∨ (∃ id ∈ ids, self.m_devices.find id = none)
      ∨ Binary64.DetectSpoofing L self ids = true) := by
  intro hc
  apply h
  unfold Binary64.FormMiningSquad
  by_cases h1 : ids.length < 2 ∨ ids.length > 10
  · rw [if_pos h1]
  · rw [if_neg h1]
    by_cases h2 : ids.any (fun id => (self.m_devices.find id).isNone) = true
    · rw [if_pos h2]
    · rw [if_neg h2]
      have h3 : Binary64.DetectSpoofing L self ids = true := by
        rcases hc with hc | hc | hc | hc
        · exact absurd (Or.inl hc) h1
        · exact absurd (Or.inr hc) h1
        · exact absurd ((any_unregistered_iff self ids).mpr hc) h2
        · exact hc
      rw [if_pos h3]

theorem Binary64_FormMiningSquad_pair_ok (L : Libm) (self : DeviceVerifier)
    (ids : List String) (f g : DeviceFingerprint)
    (hlen : ids.length = 2) (hreg : ¬ ∃ id ∈ ids, self.m_devices.find id = none)
    (hc : collectFingerprints self ids = [f, g]) (hp : pooledTimings [f, g] = []) :
    ¬ (ids.length < 2 ∨ ids.length > 10 ∨ (∃ id ∈ ids, self.m_devices.find id = none)
      ∨ Binary64.DetectSpoofing L self ids = true) := by
  have hd := Binary64_DetectSpoofing_pair L self ids f g hc hp
  intro h
  rcases h with h | h | h | h
  · omega
  · omega
  · exact hreg h
  · rw [hd] at h
    exact Bool.false_ne_true h

/-- When the members' hashrates are whole numbers and the running total stays below
`2^53`, every conversion and addition is exact and the accumulated `total_hashrate` is
the sum. -/
theorem Binary64_accumulateHashrate_natural (self : DeviceVerifier) (ids : List String) :
    ∀ (hashrates : List Nat) (total : Nat),
      ids.map (fun id => self.GetDeviceHashrate id) = hashrates.map (fun n : Nat => (n : ℝ)) →
      total + hashrates.sum < 2 ^ 53 →
      Binary64.accumulateHashrate self ids total = total + hashrates.sum := by
  induction ids with
  | nil =>
    intro hashrates total hmap _
    cases hashrates with
    | nil => simp [Binary64.accumulateHashrate]
    | cons n ns => simp at hmap
  | cons id rest ih =>
    intro hashrates total hmap hb
    cases hashrates with
    | nil => simp at hmap
    | cons n ns =>
      simp only [List.map_cons, List.cons.injEq] at hmap
      simp only [List.sum_cons] at hb
      have hstep : doubleToUInt64 (round64 (round64 (total : ℝ) + self.GetDeviceHashrate id))
          = total + n := by
        rw [hmap.1, round64_natCast total (by omega)]
        have e : (total : ℝ) + (n : ℝ) = ((total + n : Nat) : ℝ) := by push_cast; rfl
        rw [e, round64_natCast (total + n) (by omega)]
        exact doubleToUInt64_natCast _ (by omega)
      have := ih ns (total + n) hmap.2 (by omega)
      simp only [Binary64.accumulateHashrate, List.foldl_cons] at this ⊢
      rw [hstep, this, List.sum_cons]
      omega

theorem Binary64_accumulate_half :
    Binary64.accumulateHashrate registryHalf ["H1", "H2"] 0 = 0 := by
  have h1 : registryHalf.GetDeviceHashrate "H1" = 0.5 := by
    simp [DeviceVerifier.GetDeviceHashrate, registryHalf, Map.find, deviceH]
  have h2 : registryHalf.GetDeviceHashrate "H2" = 0.5 := by
    simp [DeviceVerifier.GetDeviceHashrate, registryHalf, Map.find, deviceH]
  have e : doubleToUInt64 (1 / 2) = 0 := by
    have := doubleToUInt64_half 0 (by norm_num)
    norm_num at this
    exact this
  simp only [Binary64.accumulateHashrate, List.foldl_cons, List.foldl_nil, h1, h2]
  norm_num [round64_zero, round64_half, e]

theorem roundHalfEven_error (q : ℝ) : |(roundHalfEven q : ℝ) - q| ≤ 1 / 2 := by
  unfold roundHalfEven
  have h1 := Int.floor_le q
  have h2 := Int.lt_floor_add_one q
  rw [abs_le]
  by_cases ha : q - (⌊q⌋ : ℝ) < 1 / 2
  · simp only [ha, if_true]
    constructor <;> linarith
  · by_cases hb : 1 / 2 < q - (⌊q⌋ : ℝ)
    · simp only [ha, hb, if_true, if_false]
      push_cast
      constructor <;> linarith
    · have he : q - (⌊q⌋ : ℝ) = 1 / 2 := le_antisymm (not_lt.mp hb) (not_lt.mp ha)
      by_cases hc : ⌊q⌋ % 2 = 0
      · simp only [ha, hb, hc, if_true, if_false]
        constructor <;> linarith
      · simp only [ha, hb, hc, if_false]
        push_cast
        constructor <;> linarith

theorem roundHalfEven_le (q : ℝ) (M : Int) (h : q ≤ (M : ℝ)) : roundHalfEven q ≤ M := by
  unfold roundHalfEven
  have h1 := Int.floor_le q
  have hfl : ⌊q⌋ ≤ M := by
    have : (⌊q⌋ : ℝ) ≤ (M : ℝ) := le_trans h1 h
    exact_mod_cast this
  rcases lt_or_eq_of_le hfl with hlt | heq
  · simp only []
    split_ifs <;> omega
  · have hq : q = (M : ℝ) := le_antisymm h (by rw [← heq]; exact h1)
    have hr : q - (⌊q⌋ : ℝ) < 1 / 2 := by rw [heq, hq]; norm_num
    simp only [hr, if_true]
    omega

theorem le_roundHalfEven (q : ℝ) (M : Int) (h : (M : ℝ) ≤ q) : M ≤ roundHalfEven q := by
  unfold roundHalfEven
  have hfl : M ≤ ⌊q⌋ := Int.le_floor.mpr h
  simp only []
  split_ifs <;> omega

theorem round64_nonneg (x : ℝ) (hx : 0 ≤ x) : 0 ≤ round64 x := by
  unfold round64
  have hu : (0 : ℝ) < (2 : ℝ) ^ (max (Int.log 2 |x|) (-1022) - 52) := by positivity
  have hq : ((0 : Int) : ℝ) ≤ x / (2 : ℝ) ^ (max (Int.log 2 |x|) (-1022) - 52) := by
    push_cast; exact div_nonneg hx hu.le
  have := le_roundHalfEven _ 0 hq
  have h' : (0 : ℝ) ≤ (roundHalfEven (x / (2 : ℝ) ^ (max (Int.log 2 |x|) (-1022) - 52)) : ℝ) := by
    exact_mod_cast this
  exact mul_nonneg h' hu.le

theorem round64_nonpos (x : ℝ) (hx : x ≤ 0) : round64 x ≤ 0 := by
  unfold round64
  have hu : (0 : ℝ) < (2 : ℝ) ^ (max (Int.log 2 |x|) (-1022) - 52) := by positivity
  have hq : x / (2 : ℝ) ^ (max (Int.log 2 |x|) (-1022) - 52) ≤ ((0 : Int) : ℝ) := by
    push_cast; exact div_nonpos_of_nonpos_of_nonneg hx hu.le
  have := roundHalfEven_le _ 0 hq
  have h' : (roundHalfEven (x / (2 : ℝ) ^ (max (Int.log 2 |x|) (-1022) - 52)) : ℝ) ≤ 0 := by
    exact_mod_cast this
  exact mul_nonpos_of_nonpos_of_nonneg h' hu.le

/-- The rounding error is at most half the spacing: `2^-53` relative to `x`, or `2^-1075`
in the range of gradual underflow. -/
theorem round64_error (x : ℝ) : |round64 x - x| ≤ |x| / 2 ^ 53 + 1 / 2 ^ 1075 := by
  have hu : (0 : ℝ) < (2 : ℝ) ^ (max (Int.log 2 |x|) (-1022) - 52) := by positivity
  have hx : x = x / (2 : ℝ) ^ (max (Int.log 2 |x|) (-1022) - 52)
      * (2 : ℝ) ^ (max (Int.log 2 |x|) (-1022) - 52) := by
    field_simp
  have herr := roundHalfEven_error (x / (2 : ℝ) ^ (max (Int.log 2 |x|) (-1022) - 52))
  have h1 : |round64 x - x|
      ≤ 1 / 2 * (2 : ℝ) ^ (max (Int.log 2 |x|) (-1022) - 52) := by
    have e : round64 x - x
        = ((roundHalfEven (x / (2 : ℝ) ^ (max (Int.log 2 |x|) (-1022) - 52)) : ℝ)
            - x / (2 : ℝ) ^ (max (Int.log 2 |x|) (-1022) - 52))
          * (2 : ℝ) ^ (max (Int.log 2 |x|) (-1022) - 52) := by
      rw [sub_mul, ← hx]
      rfl
    rw [e, abs_mul, abs_of_pos hu]
    exact mul_le_mul_of_nonneg_right herr hu.le
  have h0 : (0 : ℝ) ≤ |x| / 2 ^ 53 := by positivity
  have h00 : (0 : ℝ) ≤ 1 / 2 ^ 1075 := by positivity
  rcases le_total (Int.log 2 |x|) (-1022) with hle | hge
  · rw [max_eq_right hle] at h1
    have e2 : (1 : ℝ) / 2 * (2 : ℝ) ^ ((-1022 : Int) - 52) = 1 / 2 ^ 1075 := by
      norm_num
    rw [e2] at h1
    linarith
  · rw [max_eq_left hge] at h1
    by_cases hx0 : x = 0
    · subst hx0
      simp [round64_zero]
    · have hpos : 0 < |x| := abs_pos.mpr hx0
      have hlog := Int.zpow_log_le_self (b := 2) (by norm_num) hpos
      have e3 : (1 : ℝ) / 2 * (2 : ℝ) ^ (Int.log 2 |x| - 52)
          = (2 : ℝ) ^ (Int.log 2 |x|) / 2 ^ 53 := by
        rw [zpow_sub₀ (by norm_num : (2 : ℝ) ≠ 0)]
        rw [show (53 : Nat) = 52 + 1 by norm_num, pow_succ]
        rw [show ((52 : Int)) = ((52 : Nat) : Int) by norm_num, zpow_natCast]
        field_simp
        left
        ring
      rw [e3] at h1
      have : (2 : ℝ) ^ (Int.log 2 |x|) / 2 ^ 53 ≤ |x| / 2 ^ 53 := by
        apply div_le_div_of_nonneg_right _ (by positivity)
        exact_mod_cast hlog
      linarith

theorem round64_le_one (x : ℝ) (h0 : 0 ≤ x) (h1 : x ≤ 1) : round64 x ≤ 1 := by
  rcases h1.eq_or_lt with h1e | h1l
  · rw [h1e, round64_one]
  rcases h0.eq_or_lt with h0e | h0l
  · rw [← h0e, round64_zero]; norm_num
  have habs : |x| = x := abs_of_pos h0l
  have he : Int.log 2 x < 0 :=
    (Int.lt_zpow_iff_log_lt (b := 2) (by norm_num) h0l (x := 0)).mp (by simpa using h1l)
  have hx2 := Int.lt_zpow_succ_log_self (b := 2) (by norm_num) x
  have hmax : max (Int.log 2 x) (-1022) ≤ -1 := by
    rw [max_le_iff]; constructor <;> omega
  have hmono : (2 : ℝ) ^ (Int.log 2 x + 1) ≤ (2 : ℝ) ^ (max (Int.log 2 x) (-1022) + 1) :=
    zpow_le_zpow_right₀ (by norm_num) (by have := le_max_left (Int.log 2 x) (-1022); omega)
  have hu : (0 : ℝ) < (2 : ℝ) ^ (max (Int.log 2 x) (-1022) - 52) := by positivity
  have hsplit : (2 : ℝ) ^ (max (Int.log 2 x) (-1022) + 1)
      = 9007199254740992 * (2 : ℝ) ^ (max (Int.log 2 x) (-1022) - 52) := by
    rw [show max (Int.log 2 x) (-1022) + 1 = 53 + (max (Int.log 2 x) (-1022) - 52) by ring,
      zpow_add₀ (by norm_num : (2 : ℝ) ≠ 0)]
    norm_num
  have hq : x / (2 : ℝ) ^ (max (Int.log 2 x) (-1022) - 52) ≤ ((9007199254740992 : Int) : ℝ) := by
    rw [div_le_iff₀ hu]
    push_cast
    have : x < (2 : ℝ) ^ (Int.log 2 x + 1) := by exact_mod_cast hx2
    linarith
  have hr := roundHalfEven_le _ _ hq
  have hr' : (roundHalfEven (x / (2 : ℝ) ^ (max (Int.log 2 x) (-1022) - 52)) : ℝ)
      ≤ 9007199254740992 := by exact_mod_cast hr
  have hle1 : (2 : ℝ) ^ (max (Int.log 2 x) (-1022) + 1) ≤ 1 := by
    have := zpow_le_zpow_right₀ (by norm_num : (1 : ℝ) ≤ 2)
      (show max (Int.log 2 x) (-1022) + 1 ≤ 0 by omega)
    simpa using this
  unfold round64
  simp only [habs]
  calc (roundHalfEven (x / (2 : ℝ) ^ (max (Int.log 2 x) (-1022) - 52)) : ℝ)
        * (2 : ℝ) ^ (max (Int.log 2 x) (-1022) - 52)
      ≤ 9007199254740992 * (2 : ℝ) ^ (max (Int.log 2 x) (-1022) - 52) :=
        mul_le_mul_of_nonneg_right hr' hu.le
    _ = (2 : ℝ) ^ (max (Int.log 2 x) (-1022) + 1) := hsplit.symm
    _ ≤ 1 := hle1

/-- A positive binary64 value is at least the smallest positive one, `2^-1074`. -/
theorem round64_pos_ge (x : ℝ) (h : 0 < round64 x) : 1 / 2 ^ 1074 ≤ round64 x := by
  unfold round64 at h ⊢
  have hu : (0 : ℝ) < (2 : ℝ) ^ (max (Int.log 2 |x|) (-1022) - 52) := by positivity
  have hm : 0 < roundHalfEven (x / (2 : ℝ) ^ (max (Int.log 2 |x|) (-1022) - 52)) := by
    by_contra hc
    push_neg at hc
    have : (roundHalfEven (x / (2 : ℝ) ^ (max (Int.log 2 |x|) (-1022) - 52)) : ℝ) ≤ 0 := by
      exact_mod_cast hc
    have := mul_nonpos_of_nonpos_of_nonneg this hu.le
    simp only [] at h
    linarith
  have hm1 : (1 : ℝ) ≤ (roundHalfEven (x / (2 : ℝ) ^ (max (Int.log 2 |x|) (-1022) - 52)) : ℝ) := by
    exact_mod_cast hm
  have hulp : (1 : ℝ) / 2 ^ 1074 ≤ (2 : ℝ) ^ (max (Int.log 2 |x|) (-1022) - 52) := by
    have := zpow_le_zpow_right₀ (by norm_num : (1 : ℝ) ≤ 2)
      (show (-1074 : Int) ≤ max (Int.log 2 |x|) (-1022) - 52 by
        have := le_max_right (Int.log 2 |x|) (-1022); omega)
    have e : (2 : ℝ) ^ (-1074 : Int) = 1 / 2 ^ 1074 := by norm_num
    rw [e] at this
    exact this
  simp only []
  calc (1 : ℝ) / 2 ^ 1074 ≤ (2 : ℝ) ^ (max (Int.log 2 |x|) (-1022) - 52) := hulp
    _ = 1 * (2 : ℝ) ^ (max (Int.log 2 |x|) (-1022) - 52) := (one_mul _).symm
    _ ≤ _ := mul_le_mul_of_nonneg_right hm1 hu.le

/-- On `(0, 1]` the function `-x * log2 x` stays below 0.54 (its maximum is
`1 / (e * ln 2)`). -/
theorem neg_mul_logb_le (x : ℝ) (h0 : 0 < x) (h1 : x ≤ 1) :
    -(x * Real.logb 2 x) ≤ 27 / 50 := by
  have he : (0 : ℝ) < Real.exp (-1) := Real.exp_pos _
  have ht : 0 < Real.exp (-1) / x := div_pos he h0
  have hlog := Real.log_le_sub_one_of_pos ht
  rw [Real.log_div he.ne.symm h0.ne.symm, Real.log_exp] at hlog
  have h2 : -Real.log x ≤ Real.exp (-1) / x := by linarith
  have h3 : -(x * Real.log x) ≤ Real.exp (-1) := by
    have := mul_le_mul_of_nonneg_left h2 h0.le
    rw [mul_div_cancel₀ _ h0.ne.symm] at this
    linarith
  have hl2 : (0.6931471803 : ℝ) < Real.log 2 := Real.log_two_gt_d9
  have he1 : (2.7182818283 : ℝ) < Real.exp 1 := Real.exp_one_gt_d9
  have hexp : Real.exp (-1) ≤ 1 / 2.7182818283 := by
    rw [Real.exp_neg, inv_eq_one_div]
    exact one_div_le_one_div_of_le (by norm_num) he1.le
  have hlogx : Real.log x ≤ 0 := Real.log_nonpos h0.le h1
  have hl2pos : 0 < Real.log 2 := by linarith
  have e : -(x * Real.logb 2 x) = -(x * Real.log x) / Real.log 2 := by
    rw [Real.logb]; ring
  rw [e, div_le_iff₀ hl2pos]
  have hA : -(x * Real.log x) ≤ 1 / 2.7182818283 := le_trans h3 hexp
  have hB : (1 : ℝ) / 2.7182818283 ≤ 27 / 50 * 0.6931471803 := by norm_num
  nlinarith

/-- The correctly rounded `log2` is non-positive on the positive binary64 values up to 1
and within `1/16` of the exact logarithm. -/
theorem correctlyRounded_log2_accurate (x : ℝ) (hx : 1 / 2 ^ 1074 ≤ x) (h1 : x ≤ 1) :
    Libm.correctlyRounded.log2 x ≤ 0 ∧
      Real.logb 2 x - 1 / 16 ≤ Libm.correctlyRounded.log2 x := by
  have hpos : (0 : ℝ) < x := lt_of_lt_of_le (by positivity) hx
  have hy0 : Real.logb 2 x ≤ 0 := Real.logb_nonpos (by norm_num) hpos.le h1
  have hy1 : -1074 ≤ Real.logb 2 x := by
    have := Real.logb_le_logb_of_le (b := 2) (by norm_num) (by positivity) hx
    have e : Real.logb 2 (1 / 2 ^ 1074) = -1074 := by
      rw [one_div, Real.logb_inv, Real.logb_pow]
      simp
    rw [e] at this
    exact this
  show round64 (Real.logb 2 x) ≤ 0 ∧ Real.logb 2 x - 1 / 16 ≤ round64 (Real.logb 2 x)
  refine ⟨round64_nonpos _ hy0, ?_⟩
  have herr := round64_error (Real.logb 2 x)
  rw [abs_le] at herr
  have habs : |Real.logb 2 x| ≤ 1074 := by
    rw [abs_le]; constructor <;> linarith
  have hb : |Real.logb 2 x| / 2 ^ 53 + 1 / 2 ^ 1075 ≤ (1 : ℝ) / 16 := by
    have : |Real.logb 2 x| / 2 ^ 53 ≤ 1074 / 2 ^ 53 :=
      div_le_div_of_nonneg_right habs (by positivity)
    have h2 : (1074 : ℝ) / 2 ^ 53 + 1 / 2 ^ 1075 ≤ 1 / 16 := by norm_num
    linarith
  linarith [herr.1]

/-- One iteration of the entropy loop in binary64: from an entropy between 0 and 100 the
next value is non-negative and at most 0.62 larger. -/
theorem Binary64_entropy_step (L : Libm)
    (hL : ∀ x : ℝ, 1 / 2 ^ 1074 ≤ x → x ≤ 1 →
      L.log2 x ≤ 0 ∧ Real.logb 2 x - 1 / 16 ≤ L.log2 x)
    (N c : Nat) (hN1 : 0 < N) (hN : N < 2 ^ 53) (hc : c ≤ N) (E : ℝ) (hE0 : 0 ≤ E)
    (hE : E ≤ 100) :
    0 ≤ (if round64 ((c : ℝ) / round64 (N : ℝ)) > 0 then
          round64 (E - round64 (round64 ((c : ℝ) / round64 (N : ℝ))
            * L.log2 (round64 ((c : ℝ) / round64 (N : ℝ)))))
        else E) ∧
      (if round64 ((c : ℝ) / round64 (N : ℝ)) > 0 then
          round64 (E - round64 (round64 ((c : ℝ) / round64 (N : ℝ))
            * L.log2 (round64 ((c : ℝ) / round64 (N : ℝ)))))
        else E) ≤ E + 62 / 100 := by
  rw [round64_natCast N hN]
  have hNpos : (0 : ℝ) < (N : ℝ) := by exact_mod_cast hN1
  have hq0 : (0 : ℝ) ≤ (c : ℝ) / (N : ℝ) := by positivity
  have hq1 : (c : ℝ) / (N : ℝ) ≤ 1 := by
    rw [div_le_one hNpos]; exact_mod_cast hc
  by_cases hp : round64 ((c : ℝ) / (N : ℝ)) > 0
  · simp only [hp, if_true]
    have hp1 := round64_le_one _ hq0 hq1
    have hpmin := round64_pos_ge _ hp
    obtain ⟨hl0, hl1⟩ := hL _ hpmin hp1
    have hxl := neg_mul_logb_le _ hp hp1
    generalize round64 ((c : ℝ) / (N : ℝ)) = p at hp hp1 hpmin hl0 hl1 hxl
    generalize L.log2 p = l at hl0 hl1
    have hy0 : p * l ≤ 0 := mul_nonpos_of_nonneg_of_nonpos hp.le hl0
    have hy1 : -(p * l) ≤ 241 / 400 := by
      have : p * (Real.logb 2 p - 1 / 16) ≤ p * l := mul_le_mul_of_nonneg_left hl1 hp.le
      nlinarith
    have ht0 := round64_nonpos _ hy0
    have hterr := round64_error (p * l)
    rw [abs_le, abs_of_nonpos hy0] at hterr
    have htiny : (1 : ℝ) / 2 ^ 1075 ≤ 1 / 1000 := by norm_num
    have ht1 : -round64 (p * l) ≤ 61 / 100 := by
      have h53 : -(p * l) / 2 ^ 53 ≤ 241 / 400 / 2 ^ 53 :=
        div_le_div_of_nonneg_right hy1 (by positivity)
      have : (241 : ℝ) / 400 / 2 ^ 53 ≤ 1 / 1000 := by norm_num
      linarith [hterr.1]
    generalize round64 (p * l) = t at ht0 ht1
    have hz0 : 0 ≤ E - t := by linarith
    have hz1 : E - t ≤ 100 + 61 / 100 := by linarith
    have hzerr := round64_error (E - t)
    rw [abs_le, abs_of_nonneg hz0] at hzerr
    refine ⟨round64_nonneg _ hz0, ?_⟩
    have h53 : (E - t) / 2 ^ 53 ≤ (100 + 61 / 100) / 2 ^ 53 :=
      div_le_div_of_nonneg_right hz1 (by positivity)
    have : (100 + 61 / 100 : ℝ) / 2 ^ 53 ≤ 1 / 1000 := by norm_num
    linarith [hzerr.2]
  · simp only [hp, if_false]
    constructor <;> linarith

theorem Binary64_entropy_fold_bound (L : Libm)
    (hL : ∀ x : ℝ, 1 / 2 ^ 1074 ≤ x → x ≤ 1 →
      L.log2 x ≤ 0 ∧ Real.logb 2 x - 1 / 16 ≤ L.log2 x)
    (N : Nat) (hN1 : 0 < N) (hN : N < 2 ^ 53) :
    ∀ (H : List (Nat × Nat)) (E : ℝ), (∀ bc ∈ H, bc.2 ≤ N) → 0 ≤ E →
      E + 62 / 100 * (H.length : ℝ) ≤ 100 →
      0 ≤ H.foldl
          (fun entropy bc =>
            let p : ℝ := round64 ((bc.2 : ℝ) / round64 (N : ℝ))
            if p > 0 then round64 (entropy - round64 (p * L.log2 p)) else entropy) E ∧
        H.foldl
          (fun entropy bc =>
            let p : ℝ := round64 ((bc.2 : ℝ) / round64 (N : ℝ))
            if p > 0 then round64 (entropy - round64 (p * L.log2 p)) else entropy) E
          ≤ E + 62 / 100 * (H.length : ℝ) := by
  intro H
  induction H with
  | nil => intro E _ h0 _; simp [h0]
  | cons bc rest ih =>
    intro E hH h0 hE
    rw [List.foldl_cons]
    have hlen : ((bc :: rest).length : ℝ) = (rest.length : ℝ) + 1 := by
      rw [List.length_cons]; push_cast; ring
    rw [hlen] at hE ⊢
    have hr0 : (0 : ℝ) ≤ (rest.length : ℝ) := by positivity
    have hstep := Binary64_entropy_step L hL N bc.2 hN1 hN (hH bc (by simp)) E h0
      (by nlinarith)
    have := ih _ (fun b hb => hH b (by simp [hb])) hstep.1 (by linarith [hstep.2])
    refine ⟨this.1, ?_⟩
    linarith [this.2, hstep.2]


theorem log_two_lower : ((43321698784996581838577 / 62500000000000000000000) : ℝ) < Real.log 2 := by
  rw [Real.lt_log_iff_exp_lt (by norm_num)]
  refine lt_of_le_of_lt (Real.exp_bound' (by norm_num) (by norm_num) (n := 26) (by norm_num)) ?_
  simp only [Finset.sum_range_succ, Finset.sum_range_zero, Nat.factorial]
  norm_num

theorem log_two_upper : Real.log 2 < ((693147180559945309417233 / 1000000000000000000000000) : ℝ) := by
  rw [Real.log_lt_iff_lt_exp (by norm_num)]
  refine lt_of_lt_of_le ?_ (Real.sum_le_exp_of_nonneg (by norm_num) 26)
  simp only [Finset.sum_range_succ, Finset.sum_range_zero, Nat.factorial]
  norm_num

theorem log_eleven_eighths_lower : ((318453731118534615810247 / 1000000000000000000000000) : ℝ) < Real.log (11 / 8) := by
  rw [Real.lt_log_iff_exp_lt (by norm_num)]
  refine lt_of_le_of_lt (Real.exp_bound' (by norm_num) (by norm_num) (n := 22) (by norm_num)) ?_
  simp only [Finset.sum_range_succ, Finset.sum_range_zero, Nat.factorial]
  norm_num

theorem log_eleven_eighths_upper : Real.log (11 / 8) < ((39806716389816826976281 / 125000000000000000000000) : ℝ) := by
  rw [Real.log_lt_iff_lt_exp (by norm_num)]
  refine lt_of_lt_of_le ?_ (Real.sum_le_exp_of_nonneg (by norm_num) 22)
  simp only [Finset.sum_range_succ, Finset.sum_range_zero, Nat.factorial]
  norm_num
theorem round64_eleven : round64 11 = 11 := by
  rw [round64_eval 11 3 6192449487634432 (by norm_num) (by norm_num) (by norm_num)
    (by norm_num) (by rw [abs_lt]; constructor <;> norm_num)]
  norm_num

theorem round64_one_eleventh : round64 (1 / 11) = (3275345183542179 / 36028797018963968) := by
  rw [round64_eval (1 / 11) (-4) 6550690367084358 (by norm_num) (by norm_num) (by norm_num)
    (by norm_num) (by rw [abs_lt]; constructor <;> norm_num)]
  norm_num

theorem round64_entropy11_term : round64 (-(12757383470004611635225884498819 / 40564819207303340847894502572032)) = (-(2832708172474299 / 9007199254740992)) := by
  rw [round64_eval_neg (-(12757383470004611635225884498819 / 40564819207303340847894502572032)) (-2) (-5665416344948598) (by norm_num) (by norm_num) (by norm_num)
    (by norm_num) (by rw [abs_lt]; constructor <;> norm_num)]
  norm_num

theorem round64_entropy11_sum1 : round64 (2832708172474299 / 9007199254740992) = (2832708172474299 / 9007199254740992) := by
  rw [round64_eval (2832708172474299 / 9007199254740992) (-2) 5665416344948598 (by norm_num) (by norm_num) (by norm_num)
    (by norm_num) (by rw [abs_lt]; constructor <;> norm_num)]
  norm_num

theorem round64_entropy11_sum2 : round64 (2832708172474299 / 4503599627370496) = (2832708172474299 / 4503599627370496) := by
  rw [round64_eval (2832708172474299 / 4503599627370496) (-1) 5665416344948598 (by norm_num) (by norm_num) (by norm_num)
    (by norm_num) (by rw [abs_lt]; constructor <;> norm_num)]
  norm_num

theorem round64_entropy11_sum3 : round64 (8498124517422897 / 9007199254740992) = (8498124517422897 / 9007199254740992) := by
  rw [round64_eval (8498124517422897 / 9007199254740992) (-1) 8498124517422897 (by norm_num) (by norm_num) (by norm_num)
    (by norm_num) (by rw [abs_lt]; constructor <;> norm_num)]
  norm_num

theorem round64_entropy11_sum4 : round64 (2832708172474299 / 2251799813685248) = (2832708172474299 / 2251799813685248) := by
  rw [round64_eval (2832708172474299 / 2251799813685248) 0 5665416344948598 (by norm_num) (by norm_num) (by norm_num)
    (by norm_num) (by rw [abs_lt]; constructor <;> norm_num)]
  norm_num

theorem round64_entropy11_sum5 : round64 (14163540862371495 / 9007199254740992) = (1770442607796437 / 1125899906842624) := by
  rw [round64_eval_tie_down (14163540862371495 / 9007199254740992) 0 7081770431185748 (by norm_num) (by norm_num)
    (by norm_num) (by norm_num) (by norm_num) (by decide)]
  norm_num

theorem round64_entropy11_sum6 : round64 (16996249034845795 / 9007199254740992) = (4249062258711449 / 2251799813685248) := by
  rw [round64_eval_tie_down (16996249034845795 / 9007199254740992) 0 8498124517422898 (by norm_num) (by norm_num)
    (by norm_num) (by norm_num) (by norm_num) (by decide)]
  norm_num

theorem round64_entropy11_sum7 : round64 (19828957207320095 / 9007199254740992) = (619654912728753 / 281474976710656) := by
  rw [round64_eval (19828957207320095 / 9007199254740992) 1 4957239301830024 (by norm_num) (by norm_num) (by norm_num)
    (by norm_num) (by rw [abs_lt]; constructor <;> norm_num)]
  norm_num

theorem round64_entropy11_sum8 : round64 (22661665379794395 / 9007199254740992) = (5665416344948599 / 2251799813685248) := by
  rw [round64_eval (22661665379794395 / 9007199254740992) 1 5665416344948599 (by norm_num) (by norm_num) (by norm_num)
    (by norm_num) (by rw [abs_lt]; constructor <;> norm_num)]
  norm_num

theorem round64_entropy11_sum9 : round64 (25494373552268695 / 9007199254740992) = (3186796694033587 / 1125899906842624) := by
  rw [round64_eval (25494373552268695 / 9007199254740992) 1 6373593388067174 (by norm_num) (by norm_num) (by norm_num)
    (by norm_num) (by rw [abs_lt]; constructor <;> norm_num)]
  norm_num

theorem round64_entropy11_sum10 : round64 (28327081724742995 / 9007199254740992) = (7081770431185749 / 2251799813685248) := by
  rw [round64_eval (28327081724742995 / 9007199254740992) 1 7081770431185749 (by norm_num) (by norm_num) (by norm_num)
    (by norm_num) (by rw [abs_lt]; constructor <;> norm_num)]
  norm_num

theorem round64_entropy11_sum11 : round64 (31159789897217295 / 9007199254740992) = (1947486868576081 / 562949953421312) := by
  rw [round64_eval (31159789897217295 / 9007199254740992) 1 7789947474304324 (by norm_num) (by norm_num) (by norm_num)
    (by norm_num) (by rw [abs_lt]; constructor <;> norm_num)]
  norm_num

theorem logb_two_eleven_eighths_bounds :
    ((4594316186372972561993 / 10000000000000000000000) : ℝ) < Real.logb 2 (11 / 8) ∧ Real.logb 2 (11 / 8) < ((2297158093186486280997 / 5000000000000000000000) : ℝ) := by
  have hb1 := log_two_lower
  have hb2 := log_two_upper
  have ha1 := log_eleven_eighths_lower
  have ha2 := log_eleven_eighths_upper
  have hpos : 0 < Real.log 2 := by linarith
  rw [Real.logb, lt_div_iff₀ hpos, div_lt_iff₀ hpos]
  constructor
  · have h1 : ((4594316186372972561993 / 10000000000000000000000) : ℝ) * Real.log 2 ≤ (4594316186372972561993 / 10000000000000000000000) * (693147180559945309417233 / 1000000000000000000000000) :=
      mul_le_mul_of_nonneg_left hb2.le (by norm_num)
    have h2 : ((4594316186372972561993 / 10000000000000000000000) : ℝ) * (693147180559945309417233 / 1000000000000000000000000) ≤ (318453731118534615810247 / 1000000000000000000000000) := by norm_num
    linarith
  · have h1 : ((2297158093186486280997 / 5000000000000000000000) : ℝ) * (43321698784996581838577 / 62500000000000000000000) ≤ (2297158093186486280997 / 5000000000000000000000) * Real.log 2 :=
      mul_le_mul_of_nonneg_left hb1.le (by norm_num)
    have h2 : ((39806716389816826976281 / 125000000000000000000000) : ℝ) ≤ (2297158093186486280997 / 5000000000000000000000) * (43321698784996581838577 / 62500000000000000000000) := by norm_num
    linarith

theorem logb_two_eight : Real.logb 2 8 = 3 := by
  rw [show (8 : ℝ) = 2 ^ 3 by norm_num, Real.logb_pow]
  simp

theorem logb_two_eleven : Real.logb 2 11 = 3 + Real.logb 2 (11 / 8) := by
  rw [← logb_two_eight, ← Real.logb_mul (by norm_num) (by norm_num)]
  norm_num

/-- The binary logarithm of the `double` nearest to 1/11, enclosed to 18 digits. -/
theorem logb_two_one_eleventh_bounds :
    ((-(17297158093186486280997 / 5000000000000000000000)) : ℝ) < Real.logb 2 (3275345183542179 / 36028797018963968) ∧
      Real.logb 2 (3275345183542179 / 36028797018963968) < ((-(34594316186372972151993 / 10000000000000000000000)) : ℝ) := by
  have hR := logb_two_eleven_eighths_bounds
  have hb1 := log_two_lower
  have hpos : 0 < Real.log 2 := by linarith
  have hsplit : ((3275345183542179 / 36028797018963968) : ℝ) = (36028797018963969 / 36028797018963968) / 11 := by norm_num
  have hy0 : 0 ≤ Real.logb 2 (36028797018963969 / 36028797018963968) := Real.logb_nonneg (by norm_num) (by norm_num)
  have hy1 : Real.logb 2 (36028797018963969 / 36028797018963968) ≤ (41 / 1000000000000000000) := by
    have hl := Real.log_le_sub_one_of_pos (show (0 : ℝ) < (36028797018963969 / 36028797018963968) by norm_num)
    rw [Real.logb, div_le_iff₀ hpos]
    have h1 : ((41 / 1000000000000000000) : ℝ) * (43321698784996581838577 / 62500000000000000000000) ≤ (41 / 1000000000000000000) * Real.log 2 :=
      mul_le_mul_of_nonneg_left hb1.le (by norm_num)
    have h2 : ((36028797018963969 / 36028797018963968) : ℝ) - 1 ≤ (41 / 1000000000000000000) * (43321698784996581838577 / 62500000000000000000000) := by norm_num
    linarith
  rw [hsplit, Real.logb_div (by norm_num) (by norm_num), logb_two_eleven]
  constructor <;> linarith [hR.1, hR.2]

/-- The correctly rounded `log2` of the `double` nearest to 1/11. -/
theorem round64_logb_one_eleventh :
    round64 (Real.logb 2 (3275345183542179 / 36028797018963968)) = (-(3894973737152161 / 1125899906842624)) := by
  have hb := logb_two_one_eleventh_bounds
  have hu : (2 : ℝ) ^ ((1 : Int) - 52) = 1 / 2251799813685248 := by norm_num
  rw [round64_eval_neg (Real.logb 2 (3275345183542179 / 36028797018963968)) 1 (-7789947474304322) (by linarith [hb.2]) (by norm_num)
    (by norm_num; linarith [hb.2]) (by norm_num; linarith [hb.1])
    (by
      rw [hu, abs_lt, div_div_eq_mul_div, div_one]
      push_cast
      constructor <;> linarith [hb.1, hb.2])]
  norm_num

theorem logb_two_eleven_lt : Real.logb 2 11 < (1947486868576081 / 562949953421312) := by
  rw [logb_two_eleven]
  have hR := logb_two_eleven_eighths_bounds
  linarith [hR.2]

/-! ## Lemmas on the timing entropy in binary64 -/

theorem Binary64_entropy_step_nonneg (L : Libm)
    (hL : ∀ x : ℝ, 1 / 2 ^ 1074 ≤ x → x ≤ 1 →
      L.log2 x ≤ 0 ∧ Real.logb 2 x - 1 / 16 ≤ L.log2 x)
    (N c : Nat) (hN1 : 0 < N) (hN : N < 2 ^ 53) (hc : c ≤ N) (E : ℝ) (hE0 : 0 ≤ E) :
    0 ≤ (if round64 ((c : ℝ) / round64 (N : ℝ)) > 0 then
          round64 (E - round64 (round64 ((c : ℝ) / round64 (N : ℝ))
            * L.log2 (round64 ((c : ℝ) / round64 (N : ℝ)))))
        else E) := by
  rw [round64_natCast N hN]
  have hNpos : (0 : ℝ) < (N : ℝ) := by exact_mod_cast hN1
  have hq0 : (0 : ℝ) ≤ (c : ℝ) / (N : ℝ) := by positivity
  have hq1 : (c : ℝ) / (N : ℝ) ≤ 1 := by
    rw [div_le_one hNpos]; exact_mod_cast hc
  by_cases hp : round64 ((c : ℝ) / (N : ℝ)) > 0
  · simp only [hp, if_true]
    have hp1 := round64_le_one _ hq0 hq1
    have hpmin := round64_pos_ge _ hp
    obtain ⟨hl0, _⟩ := hL _ hpmin hp1
    have hy0 := mul_nonpos_of_nonneg_of_nonpos hp.le hl0
    have ht0 := round64_nonpos _ hy0
    exact round64_nonneg _ (by linarith)
  · simp only [hp, if_false]
    exact hE0

theorem Binary64_entropy_fold_nonneg (L : Libm)
    (hL : ∀ x : ℝ, 1 / 2 ^ 1074 ≤ x → x ≤ 1 →
      L.log2 x ≤ 0 ∧ Real.logb 2 x - 1 / 16 ≤ L.log2 x)
    (N : Nat) (hN1 : 0 < N) (hN : N < 2 ^ 53) :
    ∀ (H : List (Nat × Nat)) (E : ℝ), (∀ bc ∈ H, bc.2 ≤ N) → 0 ≤ E →
      0 ≤ H.foldl
          (fun entropy bc =>
            let p : ℝ := round64 ((bc.2 : ℝ) / round64 (N : ℝ))
            if p > 0 then round64 (entropy - round64 (p * L.log2 p)) else entropy) E := by
  intro H
  induction H with
  | nil => intro E _ h0; simpa using h0
  | cons bc rest ih =>
    intro E hH h0
    rw [List.foldl_cons]
    exact ih _ (fun b hb => hH b (by simp [hb]))
      (Binary64_entropy_step_nonneg L hL N bc.2 hN1 hN (hH bc (by simp)) E h0)

theorem histogram_counts_le (timings : List Nat) :
    ∀ bc ∈ ((timings.map (fun t => t / 1000)).dedup.insertionSort (fun x y => x ≤ y)).map
        (fun b => (b, (timings.map (fun t => t / 1000)).count b)),
      bc.2 ≤ timings.length := by
  intro bc hbc
  obtain ⟨b, _, rfl⟩ := List.mem_map.mp hbc
  have := List.count_le_length b (timings.map (fun t => t / 1000))
  simpa using this

/-- For a C library whose `log2` is accurate, the binary64 entropy is non-negative. -/
theorem Binary64_entropy_nonneg (L : Libm)
    (hL : ∀ x : ℝ, 1 / 2 ^ 1074 ≤ x → x ≤ 1 →
      L.log2 x ≤ 0 ∧ Real.logb 2 x - 1 / 16 ≤ L.log2 x)
    (timings : List Nat) (hN : timings.length < 2 ^ 53) :
    0 ≤ Binary64.CalculateTimingEntropy L timings := by
  unfold Binary64.CalculateTimingEntropy
  by_cases h : timings.length < 2
  · simp only [h, if_true]; norm_num
  · simp only [h, if_false]
    exact Binary64_entropy_fold_nonneg L hL timings.length (by omega) hN _ _
      (histogram_counts_le timings) (by norm_num)

/-- For a C library whose `log2` is accurate, fewer than four distinct buckets give a
binary64 entropy below 2. -/
theorem Binary64_entropy_few_buckets (L : Libm)
    (hL : ∀ x : ℝ, 1 / 2 ^ 1074 ≤ x → x ≤ 1 →
      L.log2 x ≤ 0 ∧ Real.logb 2 x - 1 / 16 ≤ L.log2 x)
    (timings : List Nat) (hN : timings.length < 2 ^ 53)
    (hk : (timings.map (fun t => t / 1000)).dedup.length < 4) :
    Binary64.CalculateTimingEntropy L timings < 2 := by
  unfold Binary64.CalculateTimingEntropy
  by_cases h : timings.length < 2
  · simp only [h, if_true]; norm_num
  · simp only [h, if_false]
    have hlen : (((timings.map (fun t => t / 1000)).dedup.insertionSort
        (fun x y => x ≤ y)).map
        (fun b => (b, (timings.map (fun t => t / 1000)).count b))).length
        = (timings.map (fun t => t / 1000)).dedup.length := by
      rw [List.length_map, List.length_insertionSort]
    have hk3 : ((((timings.map (fun t => t / 1000)).dedup.insertionSort
        (fun x y => x ≤ y)).map
        (fun b => (b, (timings.map (fun t => t / 1000)).count b))).length : ℝ) ≤ 3 := by
      rw [hlen]
      have : (timings.map (fun t => t / 1000)).dedup.length ≤ 3 := by omega
      exact_mod_cast this
    have hk3d : (((timings.map (fun t => t / 1000)).dedup.length : Nat) : ℝ) ≤ 3 := by
      have : (timings.map (fun t => t / 1000)).dedup.length ≤ 3 := by omega
      exact_mod_cast this
    have hb := (Binary64_entropy_fold_bound L hL timings.length (by omega) hN _ 0.0
      (histogram_counts_le timings) (by norm_num) (by norm_num; linarith)).2
    have e0 : (0.0 : ℝ) = 0 := by norm_num
    rw [e0] at hb ⊢
    linarith

theorem histogram_eleven :
    ((timingsEleven.map (fun t => t / 1000)).dedup.insertionSort (fun x y => x ≤ y)).map
        (fun b => (b, (timingsEleven.map (fun t => t / 1000)).count b))
      = [(1, 1), (2, 1), (3, 1), (4, 1), (5, 1), (6, 1), (7, 1), (8, 1), (9, 1), (10, 1),
          (11, 1)] := by
  decide

/-- The binary64 entropy of eleven samples in eleven buckets, for the correctly rounded
`log2`: `1947486868576081 / 2^49` (3.4594316186372982). -/
theorem Binary64_entropy_eleven :
    Binary64.CalculateTimingEntropy Libm.correctlyRounded timingsEleven = (1947486868576081 / 562949953421312) := by
  have hlen : timingsEleven.length = 11 := rfl
  have h2 : ¬ timingsEleven.length < 2 := by decide
  unfold Binary64.CalculateTimingEntropy
  simp only [h2, if_false, histogram_eleven, hlen, List.foldl_cons, List.foldl_nil]
  have hlog : Libm.correctlyRounded.log2 (3275345183542179 / 36028797018963968)
      = (-(3894973737152161 / 1125899906842624)) := round64_logb_one_eleventh
  norm_num [round64_eleven, round64_one_eleventh, hlog, round64_entropy11_term,
    round64_entropy11_sum1, round64_entropy11_sum2, round64_entropy11_sum3, round64_entropy11_sum4, round64_entropy11_sum5, round64_entropy11_sum6, round64_entropy11_sum7, round64_entropy11_sum8, round64_entropy11_sum9, round64_entropy11_sum10, round64_entropy11_sum11]

theorem Binary64_accumulate_above_2p53 :
    Binary64.accumulateHashrate registryPow53 ["P1", "P2"] 0 = 9007199254740992 ∧
      registryPow53.GetDeviceHashrate "P1" + registryPow53.GetDeviceHashrate "P2"
        = 9007199254740993 := by
  have h1 : registryPow53.GetDeviceHashrate "P1" = 9007199254740992 := by
    simp [DeviceVerifier.GetDeviceHashrate, registryPow53, Map.find]
  have h2 : registryPow53.GetDeviceHashrate "P2" = 1 := by
    simp [DeviceVerifier.GetDeviceHashrate, registryPow53, Map.find]
  have e : doubleToUInt64 9007199254740992 = 9007199254740992 := by
    have := doubleToUInt64_natCast 9007199254740992 (by norm_num)
    push_cast at this
    exact this
  refine ⟨?_, by rw [h1, h2]; norm_num⟩
  simp only [Binary64.accumulateHashrate, List.foldl_cons, List.foldl_nil, h1, h2]
  norm_num [round64_zero, round64_two_pow_53, round64_two_pow_53_add_one, e]

/-! ## Claims -/

/-- C1: for every registry state and every list of device ids, the confidence returned by
`VerifyDeviceDistribution` lies between 0 and 1, whatever deductions fired. -/
theorem VerifyDeviceDistribution_confidence_range (self : DeviceVerifier)
    (device_ids : List String) :
    0 ≤ (self.VerifyDeviceDistribution device_ids).confidence ∧
      (self.VerifyDeviceDistribution device_ids).confidence ≤ 1 := by
  by_cases h : device_ids.length < 2
  · rw [VerifyDeviceDistribution_short self device_ids h]
    norm_num
  · by_cases hr : (collectFingerprints self device_ids).length < 2
    · rw [VerifyDeviceDistribution_unresolved self device_ids (by omega) hr]
      norm_num
    · simp only [DeviceVerifier.VerifyDeviceDistribution, h, hr, if_false]
      refine ⟨le_max_of_le_left (by norm_num), max_le (by norm_num) (min_le_of_left_le ?_)⟩
      norm_num

/-- C2 (evaluation at the failing input): `CalculateSimilarity` is not symmetric on
`deviceA` (average nonce time 2) and `deviceB` (average nonce time 1): the unsigned
difference `1 - 2` wraps to `2^64 - 1`. -/
theorem CalculateSimilarity_not_symmetric :
    deviceA.CalculateSimilarity deviceB ≠ deviceB.CalculateSimilarity deviceA := by
  have h1 := similarity_A_B
  have h2 := similarity_B_A
  intro h
  rw [h] at h1
  linarith

/-- C3 (evaluation at the failing input): with every operation rounded to binary64,
`a.CalculateSimilarity(a)` is `1 + 2^-52` (1.0000000000000002) for every fingerprint `a`
and every C library, not 1.0: the weighted terms 0.4, 0.2, 0.15, 0.05, 0.05, 0.05, 0.1
accumulate to `1 + 2^-52` while `weight_sum` is exactly 1. -/
theorem self_similarity_not_one (L : Libm) (a : DeviceFingerprint) :
    Binary64.CalculateSimilarity L a a = 1 + 1 / 2 ^ 52 ∧
      Binary64.CalculateSimilarity L a a ≠ 1 := by
  rw [Binary64_CalculateSimilarity_self]
  norm_num

/-- C4 (evaluation at the failing input): for `deviceB` against `deviceA` the value
computed by `CalculateSimilarity` (below 0.9) is not the value of the specification's
formula on the mathematical differences (above 0.9). -/
theorem CalculateSimilarity_ne_formula :
    deviceB.CalculateSimilarity deviceA < 0.9 ∧ 0.9 < similarityFormula deviceB deviceA ∧
      deviceB.CalculateSimilarity deviceA ≠ similarityFormula deviceB deviceA := by
  have h1 := similarity_B_A
  have h2 := similarityFormula_B_A
  exact ⟨h1, h2, by linarith⟩

/-- C5 (evaluation at the failing input): with every operation rounded to binary64, the
similarity of `deviceA` with itself lies above 1, outside the interval from 0 to 1. -/
theorem similarity_above_unit_interval (L : Libm) :
    1 < Binary64.CalculateSimilarity L deviceA deviceA := by
  rw [Binary64_CalculateSimilarity_self]
  norm_num

/-- C6 (evaluation at the failing input): with `ghost` unregistered and `A`, `B`
registered and too similar, the list `["ghost", "A", "B"]` yields the suspicious pair
`("ghost", "A")`, whose first component is not a registered id. -/
theorem VerifyDeviceDistribution_pair_unregistered :
    registryAB.m_devices.find "ghost" = none ∧
      (registryAB.VerifyDeviceDistribution ["ghost", "A", "B"]).suspicious_pairs
        = [("ghost", "A")] := by
  refine ⟨by simp [registryAB, Map.find], ?_⟩
  have h := (Verify_pair_eval registryAB ["ghost", "A", "B"] deviceA deviceB (by decide)
    collect_ghost_A_B (pooled_sample _ _ _ _ _ _)).2.1
  rw [h, if_pos similarity_A_B]
  simp

/-- C7: for every registry state and every list of zero or one device ids, registered or
not, `VerifyDeviceDistribution` returns `is_valid = true`, `confidence = 1.0` and no
suspicious pairs. -/
theorem VerifyDeviceDistribution_single (self : DeviceVerifier) (device_ids : List String)
    (h : device_ids.length ≤ 1) :
    (self.VerifyDeviceDistribution device_ids).is_valid = true ∧
      (self.VerifyDeviceDistribution device_ids).confidence = 1.0 ∧
      (self.VerifyDeviceDistribution device_ids).suspicious_pairs = [] := by
  rw [VerifyDeviceDistribution_short self device_ids (by omega)]
  exact ⟨rfl, rfl, rfl⟩

/-- Witness of C7 on the registry holding `A` and `B` and the one-element list `["ghost"]`. -/
theorem VerifyDeviceDistribution_single_witness :
    ["ghost"].length ≤ 1 ∧
      (registryAB.VerifyDeviceDistribution ["ghost"]).is_valid = true ∧
      (registryAB.VerifyDeviceDistribution ["ghost"]).confidence = 1.0 ∧
      (registryAB.VerifyDeviceDistribution ["ghost"]).suspicious_pairs = [] :=
  ⟨by decide, VerifyDeviceDistribution_single registryAB ["ghost"] (by decide)⟩

/-- C8: for every registry state and every list of at least two device ids of which fewer
than two entries resolve to a registered fingerprint, `VerifyDeviceDistribution` returns
`is_valid = false`, `confidence = 0.0` and no suspicious pairs. -/
theorem VerifyDeviceDistribution_not_enough (self : DeviceVerifier) (device_ids : List String)
    (h : 2 ≤ device_ids.length)
    (hr : (device_ids.filterMap (fun id => self.m_devices.find id)).length < 2) :
    (self.VerifyDeviceDistribution device_ids).is_valid = false ∧
      (self.VerifyDeviceDistribution device_ids).confidence = 0.0 ∧
      (self.VerifyDeviceDistribution device_ids).suspicious_pairs = [] := by
  rw [VerifyDeviceDistribution_unresolved self device_ids h hr]
  exact ⟨rfl, rfl, rfl⟩

/-- Witness of C8: the list `["A", "ghost", "nobody"]` has three ids and only `A` resolves. -/
theorem VerifyDeviceDistribution_not_enough_witness :
    2 ≤ ["A", "ghost", "nobody"].length ∧
      (["A", "ghost", "nobody"].filterMap (fun id => registryAB.m_devices.find id)).length < 2 ∧
      (registryAB.VerifyDeviceDistribution ["A", "ghost", "nobody"]).is_valid = false ∧
      (registryAB.VerifyDeviceDistribution ["A", "ghost", "nobody"]).confidence = 0.0 ∧
      (registryAB.VerifyDeviceDistribution ["A", "ghost", "nobody"]).suspicious_pairs = [] :=
  ⟨by decide, by simp [registryAB, Map.find],
    VerifyDeviceDistribution_not_enough registryAB ["A", "ghost", "nobody"] (by decide)
      (by simp [registryAB, Map.find])⟩

/-- C9 (evaluation at the failing input): the lists `["A", "B"]` and `["B", "A"]` are
permutations of each other, both ids are registered, and `VerifyDeviceDistribution`
returns an invalid result with confidence 0.5 for the first and a valid result with
confidence 0.8 for the second. -/
theorem VerifyDeviceDistribution_order_dependent :
    List.Perm ["A", "B"] ["B", "A"] ∧
      (registryAB.VerifyDeviceDistribution ["A", "B"]).is_valid = false ∧
      (registryAB.VerifyDeviceDistribution ["A", "B"]).confidence = 0.5 ∧
      (registryAB.VerifyDeviceDistribution ["B", "A"]).is_valid = true ∧
      (registryAB.VerifyDeviceDistribution ["B", "A"]).confidence = 0.8 := by
  have hab := Verify_pair_eval registryAB ["A", "B"] deviceA deviceB (by decide)
    collect_A_B (pooled_sample _ _ _ _ _ _)
  have hba := Verify_pair_eval registryAB ["B", "A"] deviceB deviceA (by decide)
    collect_B_A (pooled_sample _ _ _ _ _ _)
  have h1 : deviceA.CalculateSimilarity deviceB > 0.9 := similarity_A_B
  have h2 : ¬ deviceB.CalculateSimilarity deviceA > 0.9 := not_lt.mpr similarity_B_A.le
  refine ⟨List.Perm.swap _ _ _, ?_, ?_, ?_, ?_⟩
  · rw [hab.1]; simp [h1]
  · rw [hab.2.2, if_pos h1]
  · rw [hba.1]; simp [h2]
  · rw [hba.2.2, if_neg h2]

/-- C10: when `id` is not registered, `RegisterDevice(id, f1)` returns true, a following
`RegisterDevice(id, f2)` returns false and leaves the whole registry as it was after the
first call; the fingerprint stored under `id` is `f1` and its registration time is the
clock reading of the first call. -/
theorem RegisterDevice_twice (self : DeviceVerifier) (t1 t2 : Int) (id : String)
    (f1 f2 : DeviceFingerprint) (h : self.m_devices.find id = none) :
    (self.RegisterDevice t1 id f1).1 = true ∧
      ((self.RegisterDevice t1 id f1).2.RegisterDevice t2 id f2).1 = false ∧
      ((self.RegisterDevice t1 id f1).2.RegisterDevice t2 id f2).2
        = (self.RegisterDevice t1 id f1).2 ∧
      ((self.RegisterDevice t1 id f1).2.RegisterDevice t2 id f2).2.m_devices.find id
        = some f1 ∧
      ((self.RegisterDevice t1 id f1).2.RegisterDevice t2 id f2).2.m_registration_times.find id
        = some t1 ∧
      ((self.RegisterDevice t1 id f1).2.RegisterDevice t2 id f2).2.m_squads = self.m_squads := by
  have e1 : self.RegisterDevice t1 id f1 =
      (true, { self with
        m_devices := self.m_devices.assign id f1
        m_registration_times := self.m_registration_times.assign id t1 }) := by
    simp [DeviceVerifier.RegisterDevice, h]
  have e2 : ((self.RegisterDevice t1 id f1).2.RegisterDevice t2 id f2)
      = (false, (self.RegisterDevice t1 id f1).2) := by
    rw [e1]
    simp [DeviceVerifier.RegisterDevice, Map.find_assign_self]
  rw [e2]
  rw [e1]
  simp [Map.find_assign_self]

/-- Witness of C10: registering the unregistered id `C` twice in the registry holding
`A` and `B`. -/
theorem RegisterDevice_twice_witness :
    registryAB.m_devices.find "C" = none ∧
      (registryAB.RegisterDevice 5 "C" deviceA).1 = true ∧
      ((registryAB.RegisterDevice 5 "C" deviceA).2.RegisterDevice 9 "C" deviceB).1 = false ∧
      ((registryAB.RegisterDevice 5 "C" deviceA).2.RegisterDevice 9 "C" deviceB).2
        = (registryAB.RegisterDevice 5 "C" deviceA).2 ∧
      ((registryAB.RegisterDevice 5 "C" deviceA).2.RegisterDevice 9 "C" deviceB).2.m_devices.find
        "C" = some deviceA ∧
      ((registryAB.RegisterDevice 5 "C" deviceA).2.RegisterDevice 9 "C"
        deviceB).2.m_registration_times.find "C" = some 5 ∧
      ((registryAB.RegisterDevice 5 "C" deviceA).2.RegisterDevice 9 "C" deviceB).2.m_squads
        = registryAB.m_squads :=
  ⟨by simp [registryAB, Map.find],
    RegisterDevice_twice registryAB 5 9 "C" deviceA deviceB (by simp [registryAB, Map.find])⟩

/-- C11: for a device registered through `RegisterDevice` at clock reading `t0` and every
reading `t` with `t - t0` below 24 hours, `GetDeviceRewardMultiplier` evaluated at `t` is
exactly 1.0, whatever fingerprint was registered and whatever updates the device
received since. -/
theorem GetDeviceRewardMultiplier_cooldown (self : DeviceVerifier) (t0 t t' : Int)
    (id : String) (fp : DeviceFingerprint) (calls : List (Int × ShareData))
    (hreg : (self.RegisterDevice t0 id fp).1 = true)
    (ht : t - t0 < 24 * (3600 * ticksPerSecond)) :
    (applyUpdates (self.RegisterDevice t0 id fp).2 id calls).GetDeviceRewardMultiplier t t' id
      = 1.0 := by
  have hnew : (self.m_devices.find id).isSome = false := by
    cases hs : (self.m_devices.find id).isSome
    · rfl
    · simp [DeviceVerifier.RegisterDevice, hs] at hreg
  have e : (self.RegisterDevice t0 id fp).2.m_registration_times
      = self.m_registration_times.assign id t0 := by
    simp [DeviceVerifier.RegisterDevice, hnew]
  apply GetDeviceRewardMultiplier_young _ t t' t0 id _ ht
  rw [applyUpdates_registration_times, e, Map.find_assign_self]

/-- Witness of C11: `deviceE` (efficient, recently seen) registered under the fresh id `F`
at tick 0, updated by one share, and asked 23 hours after the registration. -/
theorem GetDeviceRewardMultiplier_cooldown_witness :
    (registryE.RegisterDevice 0 "F" deviceE).1 = true ∧
      (82800000000000 : Int) - 0 < 24 * (3600 * ticksPerSecond) ∧
      (applyUpdates (registryE.RegisterDevice 0 "F" deviceE).2 "F"
        [(82000000000000, sampleShare 11 1)]).GetDeviceRewardMultiplier
          82800000000000 82800000000000 "F" = 1.0 :=
  ⟨by simp [DeviceVerifier.RegisterDevice, registryE, Map.find], by decide,
    GetDeviceRewardMultiplier_cooldown registryE 0 82800000000000 82800000000000 "F" deviceE
      [(82000000000000, sampleShare 11 1)]
      (by simp [DeviceVerifier.RegisterDevice, registryE, Map.find]) (by decide)⟩

/-- C12 (counterexample): for `deviceE` registered at tick 0, asked at tick 30 h, last seen
2 minutes before, with hashrate 5000 at 15 watts, the binary64 additions
`1.1 + 0.05 + 0.05` give `1351079888211149 / 2^50` (1.2000000000000002), which exceeds
1.2. -/
theorem multiplier_exceeds_documented_maximum :
    Binary64.GetDeviceRewardMultiplier registryE 108000000000000 108000000000000 "E"
        = 1351079888211149 / 1125899906842624 ∧
      (1.2 : ℝ) < Binary64.GetDeviceRewardMultiplier registryE 108000000000000
        108000000000000 "E" := by
  have hfp : registryE.m_devices.find "E" = some deviceE := by simp [registryE, Map.find]
  have hrt : registryE.m_registration_times.find "E" = some 0 := by
    simp [registryE, Map.find]
  have hh : ¬ durationHours ((108000000000000 : Int) - 0) < 24 := by
    rw [durationHours_lt_iff]; decide
  have hm : durationMinutes ((108000000000000 : Int) - deviceE.last_seen) < 10 := by
    rw [durationMinutes_lt_iff]
    simp [deviceE, sampleFingerprint, ticksPerSecond]
  have hp : deviceE.power_consumption_watts = 15 := by simp [deviceE, sampleFingerprint]
  have hr : deviceE.average_hashrate = 5000 := by simp [deviceE, sampleFingerprint]
  have hval : Binary64.GetDeviceRewardMultiplier registryE 108000000000000
      108000000000000 "E" = 1351079888211149 / 1125899906842624 := by
    simp only [Binary64.GetDeviceRewardMultiplier, hfp, hrt, hh, decide_False, hm, hp, hr]
    norm_num [round64_lit_1_1, round64_lit_0_05, round64_multiplier_one_bonus,
      round64_multiplier_two_bonuses, round64_efficiency_E]
  refine ⟨hval, ?_⟩
  rw [hval]
  norm_num

/-- C12 (amended): for a registered device whose registration age is at least 24 hours and
whose power consumption is positive, `GetDeviceRewardMultiplier` returns the binary64
value of 1.1 (`2476979795053773 / 2^51`) when no bonus applies, of `1.1 + 0.05`
(`5179139571476071 / 2^52`, 1.1500000000000001) when exactly one of the two bonuses
applies, and of `1.1 + 0.05 + 0.05` (`1351079888211149 / 2^50`, 1.2000000000000002) when
both apply; the bonuses are "seen less than 10 minutes ago" and "hashrate positive and
the binary64 quotient hashrate / power above 100". The result never exceeds
`1351079888211149 / 2^50`. -/
theorem GetDeviceRewardMultiplier_binary64 (self : DeviceVerifier)
    (now_age now_seen t0 : Int) (id : String) (fp : DeviceFingerprint)
    (hfp : self.m_devices.find id = some fp)
    (hrt : self.m_registration_times.find id = some t0)
    (hage : 24 * (3600 * ticksPerSecond) ≤ now_age - t0)
    (hpow : 0 < fp.power_consumption_watts) :
    Binary64.GetDeviceRewardMultiplier self now_age now_seen id
        = (if now_seen - fp.last_seen < 10 * (60 * ticksPerSecond) then
            (if 0 < fp.average_hashrate ∧
                round64 (fp.average_hashrate / fp.power_consumption_watts) > 100 then
              1351079888211149 / 1125899906842624
            else 5179139571476071 / 4503599627370496)
          else
            (if 0 < fp.average_hashrate ∧
                round64 (fp.average_hashrate / fp.power_consumption_watts) > 100 then
              5179139571476071 / 4503599627370496
            else 2476979795053773 / 2251799813685248)) ∧
      Binary64.GetDeviceRewardMultiplier self now_age now_seen id
        ≤ 1351079888211149 / 1125899906842624 := by
  have hh : ¬ durationHours (now_age - t0) < 24 := by
    rw [durationHours_lt_iff]; omega
  have hval : Binary64.GetDeviceRewardMultiplier self now_age now_seen id
      = (if now_seen - fp.last_seen < 10 * (60 * ticksPerSecond) then
          (if 0 < fp.average_hashrate ∧
              round64 (fp.average_hashrate / fp.power_consumption_watts) > 100 then
            1351079888211149 / 1125899906842624
          else 5179139571476071 / 4503599627370496)
        else
          (if 0 < fp.average_hashrate ∧
              round64 (fp.average_hashrate / fp.power_consumption_watts) > 100 then
            5179139571476071 / 4503599627370496
          else 2476979795053773 / 2251799813685248)) := by
    simp only [Binary64.GetDeviceRewardMultiplier, hfp, hrt, hh, decide_False,
      durationMinutes_lt_iff]
    by_cases hm : now_seen - fp.last_seen < 10 * (60 * ticksPerSecond) <;>
      by_cases hpos : 0 < fp.average_hashrate <;>
      by_cases he : round64 (fp.average_hashrate / fp.power_consumption_watts) > 100 <;>
      simp only [hm, hpos, he, hpow, gt_iff_lt, and_self, and_true, and_false, true_and,
        false_and, if_true, if_false, Bool.false_eq_true] <;>
      norm_num [round64_lit_1_1, round64_lit_0_05, round64_multiplier_one_bonus,
        round64_multiplier_two_bonuses]
  refine ⟨hval, ?_⟩
  rw [hval]
  split_ifs <;> norm_num

/-- Witness of C12 (amended): `deviceE` registered at tick 0, asked at tick 30 h. -/
theorem GetDeviceRewardMultiplier_binary64_witness :
    registryE.m_devices.find "E" = some deviceE ∧
      registryE.m_registration_times.find "E" = some 0 ∧
      24 * (3600 * ticksPerSecond) ≤ (108000000000000 : Int) - 0 ∧
      0 < deviceE.power_consumption_watts ∧
      Binary64.GetDeviceRewardMultiplier registryE 108000000000000 108000000000000 "E"
        ≤ 1351079888211149 / 1125899906842624 :=
  ⟨by simp [registryE, Map.find], by simp [registryE, Map.find], by decide,
    by simp [deviceE, sampleFingerprint],
    (GetDeviceRewardMultiplier_binary64 registryE 108000000000000 108000000000000 0 "E"
      deviceE (by simp [registryE, Map.find]) (by simp [registryE, Map.find]) (by decide)
      (by simp [deviceE, sampleFingerprint])).2⟩

/-- C13: `FormMiningSquad` returns the empty string if and only if the list has fewer than
2 or more than 10 ids, or some id is not registered, or `DetectSpoofing` is true (the
verification is invalid with confidence below 0.3); in every other case it returns the
non-empty id `SQUAD_<clock reading>`. Lists of 1 and of 11 ids are rejected. -/
theorem FormMiningSquad_failure_iff (self : DeviceVerifier) (now_id now_created : Int)
    (device_ids : List String) :
    ((self.FormMiningSquad now_id now_created device_ids).1 = "" ↔
        (device_ids.length < 2 ∨ device_ids.length > 10
          ∨ (∃ id ∈ device_ids, self.m_devices.find id = none)
          ∨ self.DetectSpoofing device_ids = true)) ∧
      (self.DetectSpoofing device_ids = true ↔
        (self.VerifyDeviceDistribution device_ids).is_valid = false ∧
          (self.VerifyDeviceDistribution device_ids).confidence < 0.3) ∧
      ((self.FormMiningSquad now_id now_created device_ids).1 ≠ "" →
        (self.FormMiningSquad now_id now_created device_ids).1 = "SQUAD_" ++ toString now_id) ∧
      (device_ids.length = 1 → (self.FormMiningSquad now_id now_created device_ids).1 = "") ∧
      (device_ids.length = 11 → (self.FormMiningSquad now_id now_created device_ids).1 = "") := by
  refine ⟨⟨?_, ?_⟩, DetectSpoofing_iff self device_ids, ?_, ?_, ?_⟩
  · intro h
    by_contra hc
    rw [FormMiningSquad_success self now_id now_created device_ids hc] at h
    exact squad_id_ne_empty now_id h
  · intro h
    rw [FormMiningSquad_failure self now_id now_created device_ids h]
  · intro h
    rw [FormMiningSquad_success self now_id now_created device_ids
      (FormMiningSquad_success_of_ne self now_id now_created device_ids h)]
  · intro h
    rw [FormMiningSquad_failure self now_id now_created device_ids (Or.inl (by omega))]
  · intro h
    rw [FormMiningSquad_failure self now_id now_created device_ids (Or.inr (Or.inl (by omega)))]

/-- C14 (counterexample): in the registry holding `A` and `B`, `FormMiningSquad(["A", "B"])`
succeeds although `VerifyDeviceDistribution(["A", "B"])` has `is_valid = false` (its
confidence 0.5 is not below 0.3). -/
theorem FormMiningSquad_invalid_set_accepted :
    (registryAB.FormMiningSquad 5 5 ["A", "B"]).1 ≠ "" ∧
      (registryAB.VerifyDeviceDistribution ["A", "B"]).is_valid = false := by
  constructor
  · rw [FormMiningSquad_success registryAB 5 5 ["A", "B"]
      (FormMiningSquad_pair_ok registryAB ["A", "B"] deviceA deviceB rfl (by simp [registryAB, Map.find])
        collect_A_B (pooled_sample _ _ _ _ _ _))]
    exact squad_id_ne_empty 5
  · have h1 : deviceA.CalculateSimilarity deviceB > 0.9 := similarity_A_B
    rw [(Verify_pair_eval registryAB ["A", "B"] deviceA deviceB (by decide)
      collect_A_B (pooled_sample _ _ _ _ _ _)).1]
    simp [h1]

/-- C14 (amended): whenever `FormMiningSquad(ids)` succeeds, `DetectSpoofing(ids)` is false
in that state: `VerifyDeviceDistribution(ids)` is valid or has confidence at least 0.3. -/
theorem FormMiningSquad_not_spoofing (self : DeviceVerifier) (now_id now_created : Int)
    (device_ids : List String)
    (h : (self.FormMiningSquad now_id now_created device_ids).1 ≠ "") :
    self.DetectSpoofing device_ids = false ∧
      ((self.VerifyDeviceDistribution device_ids).is_valid = true ∨
        0.3 ≤ (self.VerifyDeviceDistribution device_ids).confidence) := by
  have hc := FormMiningSquad_success_of_ne self now_id now_created device_ids h
  have hd : self.DetectSpoofing device_ids = false := by
    cases hds : self.DetectSpoofing device_ids
    · rfl
    · exact absurd (Or.inr (Or.inr (Or.inr hds))) hc
  refine ⟨hd, ?_⟩
  cases hv : (self.VerifyDeviceDistribution device_ids).is_valid
  · right
    by_contra hlt
    have : self.DetectSpoofing device_ids = true :=
      (DetectSpoofing_iff self device_ids).mpr ⟨hv, not_le.mp hlt⟩
    rw [hd] at this
    exact Bool.false_ne_true this
  · left; rfl

/-- Witness of C14 (amended): the squad of `B` and `A` formed at clock readings 7 and 8. -/
theorem FormMiningSquad_not_spoofing_witness :
    (registryAB.FormMiningSquad 7 8 ["B", "A"]).1 ≠ "" ∧
      registryAB.DetectSpoofing ["B", "A"] = false ∧
      ((registryAB.VerifyDeviceDistribution ["B", "A"]).is_valid = true ∨
        0.3 ≤ (registryAB.VerifyDeviceDistribution ["B", "A"]).confidence) :=
  have h : (registryAB.FormMiningSquad 7 8 ["B", "A"]).1 ≠ "" := by
    rw [FormMiningSquad_success registryAB 7 8 ["B", "A"]
      (FormMiningSquad_pair_ok registryAB ["B", "A"] deviceB deviceA rfl (by simp [registryAB, Map.find])
        collect_B_A (pooled_sample _ _ _ _ _ _))]
    exact squad_id_ne_empty 7
  ⟨h, FormMiningSquad_not_spoofing registryAB 7 8 ["B", "A"] h⟩

/-- C15 (evaluation at the failing input): `FormMiningSquad(["A", "A"])` succeeds in the
registry holding `A` and `B` and stores a squad whose member list `["A", "A"]` names the
device `A` twice. -/
theorem FormMiningSquad_duplicate_member :
    (registryAB.FormMiningSquad 5 5 ["A", "A"]).1 = "SQUAD_5" ∧
      ((registryAB.FormMiningSquad 5 5 ["A", "A"]).2.m_squads.find "SQUAD_5").map
        (fun squad => squad.member_devices) = some ["A", "A"] ∧
      ¬ ["A", "A"].Nodup := by
  rw [FormMiningSquad_success registryAB 5 5 ["A", "A"]
    (FormMiningSquad_pair_ok registryAB ["A", "A"] deviceA deviceA rfl (by simp [registryAB, Map.find])
      collect_A_A (pooled_sample _ _ _ _ _ _))]
  refine ⟨by decide, ?_, by decide⟩
  have e : "SQUAD_" ++ toString (5 : Int) = "SQUAD_5" := by decide
  simp only [e, Map.find_assign_self, Option.map_some']

/-- C16: for two registered ids `A`, `B` whose fingerprints have
`A.CalculateSimilarity(B) <= 0.9`, `FormMiningSquad([A, B])` succeeds and returns a non-empty
squad id, whatever the timing samples and IP addresses are: the confidence stays at 0.3 or
above. -/
theorem FormMiningSquad_dissimilar_pair (self : DeviceVerifier) (now_id now_created : Int)
    (A B : String) (fa fb : DeviceFingerprint)
    (hA : self.m_devices.find A = some fa) (hB : self.m_devices.find B = some fb)
    (hs : fa.CalculateSimilarity fb ≤ 0.9) :
    (self.FormMiningSquad now_id now_created [A, B]).1 ≠ "" ∧
      (self.FormMiningSquad now_id now_created [A, B]).1 = "SQUAD_" ++ toString now_id ∧
      0.3 ≤ (self.VerifyDeviceDistribution [A, B]).confidence := by
  have hconf := Verify_pair_dissimilar self [A, B] fa fb (by simp)
    (collect_pair self A B fa fb hA hB) (not_lt.mpr hs)
  have hconf' : 0.3 ≤ (self.VerifyDeviceDistribution [A, B]).confidence := by linarith
  have hd := DetectSpoofing_false_of_confidence self [A, B] hconf'
  have hc : ¬ ([A, B].length < 2 ∨ [A, B].length > 10
      ∨ (∃ id ∈ [A, B], self.m_devices.find id = none)
      ∨ self.DetectSpoofing [A, B] = true) := by
    intro h
    rcases h with h | h | h | h
    · simp at h
    · simp at h
    · simp [hA, hB] at h
    · rw [hd] at h
      exact Bool.false_ne_true h
  rw [FormMiningSquad_success self now_id now_created [A, B] hc]
  exact ⟨squad_id_ne_empty now_id, rfl, hconf'⟩

/-- Witness of C16: the pair `B`, `A` of the registry holding `A` and `B`. -/
theorem FormMiningSquad_dissimilar_pair_witness :
    registryAB.m_devices.find "B" = some deviceB ∧
      registryAB.m_devices.find "A" = some deviceA ∧
      deviceB.CalculateSimilarity deviceA ≤ 0.9 ∧
      (registryAB.FormMiningSquad 11 12 ["B", "A"]).1 ≠ "" ∧
      (registryAB.FormMiningSquad 11 12 ["B", "A"]).1 = "SQUAD_" ++ toString (11 : Int) ∧
      0.3 ≤ (registryAB.VerifyDeviceDistribution ["B", "A"]).confidence :=
  ⟨by simp [registryAB, Map.find], by simp [registryAB, Map.find], similarity_B_A.le,
    FormMiningSquad_dissimilar_pair registryAB 11 12 "B" "A" deviceB deviceA
      (by simp [registryAB, Map.find]) (by simp [registryAB, Map.find]) similarity_B_A.le⟩

/-- C17 (counterexample): for two members of average hashrate 0.5 each the stored
`total_hashrate` is 0, while the sum of the members' hashrates is 1. -/
theorem total_hashrate_truncated :
    (Binary64.FormMiningSquad Libm.correctlyRounded registryHalf 5 5 ["H1", "H2"]).1
        = "SQUAD_5" ∧
      ((Binary64.FormMiningSquad Libm.correctlyRounded registryHalf 5 5
          ["H1", "H2"]).2.m_squads.find "SQUAD_5").map
        (fun squad => squad.total_hashrate) = some 0 ∧
      registryHalf.GetDeviceHashrate "H1" + registryHalf.GetDeviceHashrate "H2" = 1 := by
  rw [Binary64_FormMiningSquad_success Libm.correctlyRounded registryHalf 5 5 ["H1", "H2"]
    (Binary64_FormMiningSquad_pair_ok Libm.correctlyRounded registryHalf ["H1", "H2"]
      (deviceH "H1" 1) (deviceH "H2" 2) rfl
      (by simp [registryHalf, Map.find])
      (by simp [collectFingerprints, registryHalf, Map.find])
      (by simp [pooledTimings, deviceH, sampleFingerprint]))]
  have e : "SQUAD_" ++ toString (5 : Int) = "SQUAD_5" := by decide
  refine ⟨e, ?_, ?_⟩
  · simp only [e, Map.find_assign_self, Option.map_some', Binary64_accumulate_half]
  · simp [DeviceVerifier.GetDeviceHashrate, registryHalf, Map.find, deviceH]
    norm_num

/-- C17 (amended): after a successful `FormMiningSquad(ids)` the squad stored under the
returned id has `member_devices = ids`, `blocks_found = 0`, and `total_hashrate` is the
result of the loop `total_hashrate += GetDeviceHashrate(id)`: at each step the unsigned
64-bit total is converted to `double`, the hashrate is added in binary64 and the
fractional part of the sum is discarded. It equals the sum of the members' hashrates
when these are whole numbers with a sum below `2^53`. This holds for every C library. -/
theorem stored_squad_binary64 (L : Libm) (self : DeviceVerifier) (now_id now_created : Int)
    (device_ids : List String)
    (h : (Binary64.FormMiningSquad L self now_id now_created device_ids).1 ≠ "") :
    ∃ squad : MiningSquad,
      (Binary64.FormMiningSquad L self now_id now_created device_ids).2.m_squads.find
          (Binary64.FormMiningSquad L self now_id now_created device_ids).1 = some squad ∧
        squad.member_devices = device_ids ∧
        squad.blocks_found = 0 ∧
        squad.total_hashrate = Binary64.accumulateHashrate self device_ids 0 ∧
        (∀ hashrates : List Nat,
          device_ids.map (fun id => self.GetDeviceHashrate id)
              = hashrates.map (fun n : Nat => (n : ℝ)) →
          hashrates.sum < 2 ^ 53 →
          (squad.total_hashrate : ℝ)
            = (device_ids.map (fun id => self.GetDeviceHashrate id)).sum) := by
  rw [Binary64_FormMiningSquad_success L self now_id now_created device_ids
    (Binary64_FormMiningSquad_success_of_ne L self now_id now_created device_ids h)]
  refine ⟨_, Map.find_assign_self _ _ _, rfl, rfl, rfl, ?_⟩
  intro hashrates hmap hb
  have hacc := Binary64_accumulateHashrate_natural self device_ids hashrates 0 hmap (by omega)
  simp only [hacc, hmap, zero_add]
  rw [Nat.cast_list_sum]

/-- Witness of C17 (amended): the squad of `B` and `A` (hashrate 500 each) formed at clock
readings 21 and 22 has `total_hashrate` 1000. -/
theorem stored_squad_binary64_witness :
    (Binary64.FormMiningSquad Libm.correctlyRounded registryAB 21 22 ["B", "A"]).1 ≠ "" ∧
      ∃ squad : MiningSquad,
        (Binary64.FormMiningSquad Libm.correctlyRounded registryAB 21 22
            ["B", "A"]).2.m_squads.find
            (Binary64.FormMiningSquad Libm.correctlyRounded registryAB 21 22 ["B", "A"]).1
          = some squad ∧
          squad.member_devices = ["B", "A"] ∧
          squad.blocks_found = 0 ∧
          (squad.total_hashrate : ℝ) = 1000 := by
  have h : (Binary64.FormMiningSquad Libm.correctlyRounded registryAB 21 22
      ["B", "A"]).1 ≠ "" := by
    rw [Binary64_FormMiningSquad_success Libm.correctlyRounded registryAB 21 22 ["B", "A"]
      (Binary64_FormMiningSquad_pair_ok Libm.correctlyRounded registryAB ["B", "A"]
        deviceB deviceA rfl
        (by simp [registryAB, Map.find]) collect_B_A (pooled_sample _ _ _ _ _ _))]
    exact squad_id_ne_empty 21
  obtain ⟨squad, hfind, hm, hb, _, hsum⟩ :=
    stored_squad_binary64 Libm.correctlyRounded registryAB 21 22 ["B", "A"] h
  have hB : registryAB.GetDeviceHashrate "B" = 500 := by
    simp [DeviceVerifier.GetDeviceHashrate, registryAB, Map.find, deviceB, sampleFingerprint]
  have hA : registryAB.GetDeviceHashrate "A" = 500 := by
    simp [DeviceVerifier.GetDeviceHashrate, registryAB, Map.find, deviceA, sampleFingerprint]
  refine ⟨h, squad, hfind, hm, hb, ?_⟩
  rw [hsum [500, 500] (by simp [hA, hB]) (by norm_num)]
  simp only [List.map_cons, List.map_nil, hA, hB, List.sum_cons, List.sum_nil]
  norm_num

/-- C18 (counterexample): after a squad was formed at clock reading 5, a second successful
`FormMiningSquad` at the same reading returns the id `SQUAD_5`, which is already a key: the
squad stored under it is replaced and the number of stored squads does not grow. -/
theorem FormMiningSquad_id_collision :
    (registryAB1.FormMiningSquad 5 6 ["B", "A"]).1 = "SQUAD_5" ∧
      (registryAB1.m_squads.find "SQUAD_5").map (fun squad => squad.member_devices)
        = some ["A", "B"] ∧
      ((registryAB1.FormMiningSquad 5 6 ["B", "A"]).2.m_squads.find "SQUAD_5").map
        (fun squad => squad.member_devices) = some ["B", "A"] ∧
      Map.size (registryAB1.FormMiningSquad 5 6 ["B", "A"]).2.m_squads
        = Map.size registryAB1.m_squads := by
  rw [FormMiningSquad_success registryAB1 5 6 ["B", "A"] registryAB1_second_ok]
  simp only [squad_id_5, Map.find_assign_self, Option.map_some', Map.size_assign]
  refine ⟨trivial, ?_, trivial, ?_⟩
  · rw [registryAB1_eq]
    simp only [Map.find_assign_self, Option.map_some']
  · rw [registryAB1_eq]
    simp only [Map.find_assign_self, Option.isSome_some, if_true]

/-- C18 (amended): a successful `FormMiningSquad` at clock reading `t` returns the id
`SQUAD_<t>` and leaves every squad stored under another id unchanged; when no squad was
stored under `SQUAD_<t>` before the call, every squad stored before is still stored
unchanged and the number of stored squads grows by exactly one; otherwise the number of
stored squads is unchanged. -/
theorem FormMiningSquad_squad_registry (self : DeviceVerifier) (now_id now_created : Int)
    (device_ids : List String)
    (h : (self.FormMiningSquad now_id now_created device_ids).1 ≠ "") :
    (self.FormMiningSquad now_id now_created device_ids).1 = "SQUAD_" ++ toString now_id ∧
      (∀ k : String, k ≠ "SQUAD_" ++ toString now_id →
        (self.FormMiningSquad now_id now_created device_ids).2.m_squads.find k
          = self.m_squads.find k) ∧
      (self.m_squads.find ("SQUAD_" ++ toString now_id) = none →
        (∀ (k : String) (squad : MiningSquad), self.m_squads.find k = some squad →
          (self.FormMiningSquad now_id now_created device_ids).2.m_squads.find k = some squad) ∧
        Map.size (self.FormMiningSquad now_id now_created device_ids).2.m_squads
          = Map.size self.m_squads + 1) ∧
      (self.m_squads.find ("SQUAD_" ++ toString now_id) ≠ none →
        Map.size (self.FormMiningSquad now_id now_created device_ids).2.m_squads
          = Map.size self.m_squads) := by
  rw [FormMiningSquad_success self now_id now_created device_ids
    (FormMiningSquad_success_of_ne self now_id now_created device_ids h)]
  refine ⟨rfl, ?_, ?_, ?_⟩
  · intro k hk
    exact Map.find_assign_ne _ _ _ _ hk
  · intro hfresh
    constructor
    · intro k squad hks
      have hk : k ≠ "SQUAD_" ++ toString now_id := by
        intro e
        rw [e, hfresh] at hks
        exact Option.noConfusion hks
      simp only []
      rw [Map.find_assign_ne _ _ _ _ hk]
      exact hks
    · simp only [Map.size_assign, hfresh, Option.isSome_none, Bool.false_eq_true, if_false]
  · intro hold
    cases hf : self.m_squads.find ("SQUAD_" ++ toString now_id) with
    | none => exact absurd hf hold
    | some w => simp only [Map.size_assign, hf, Option.isSome_some, if_true]

/-- Witness of C18 (amended): in the registry that already stores `SQUAD_5`, a formation at
clock reading 9 returns the fresh id `SQUAD_9`, keeps `SQUAD_5` and its members, and the
number of stored squads grows by one. -/
theorem FormMiningSquad_squad_registry_witness :
    (registryAB1.FormMiningSquad 9 9 ["B", "A"]).1 ≠ "" ∧
      (registryAB1.FormMiningSquad 9 9 ["B", "A"]).1 = "SQUAD_9" ∧
      registryAB1.m_squads.find "SQUAD_9" = none ∧
      ((registryAB1.FormMiningSquad 9 9 ["B", "A"]).2.m_squads.find "SQUAD_5").map
        (fun squad => squad.member_devices) = some ["A", "B"] ∧
      Map.size (registryAB1.FormMiningSquad 9 9 ["B", "A"]).2.m_squads
        = Map.size registryAB1.m_squads + 1 := by
  have h : (registryAB1.FormMiningSquad 9 9 ["B", "A"]).1 ≠ "" := by
    rw [FormMiningSquad_success registryAB1 9 9 ["B", "A"] registryAB1_second_ok]
    exact squad_id_ne_empty 9
  have e9 : "SQUAD_" ++ toString (9 : Int) = "SQUAD_9" := by decide
  have hfresh : registryAB1.m_squads.find "SQUAD_9" = none := by
    rw [registryAB1_eq]
    simp [Map.assign, Map.find, registryAB]
  have h5 : (registryAB1.m_squads.find "SQUAD_5").map (fun squad => squad.member_devices)
      = some ["A", "B"] := by
    rw [registryAB1_eq]
    simp only [Map.find_assign_self, Option.map_some']
  obtain ⟨hid, hother, hnew, _⟩ := FormMiningSquad_squad_registry registryAB1 9 9 ["B", "A"] h
  rw [e9] at hid hother hnew
  refine ⟨h, hid, hfresh, ?_, (hnew hfresh).2⟩
  rw [hother "SQUAD_5" (by decide)]
  exact h5

/-- C19: when `FormMiningSquad` returns failure the whole registry (fingerprints,
registration times, squads) is as before the call, and in every case the fingerprint map
and the registration times are unchanged. -/
theorem FormMiningSquad_frame (self : DeviceVerifier) (now_id now_created : Int)
    (device_ids : List String) :
    ((self.FormMiningSquad now_id now_created device_ids).1 = "" →
        (self.FormMiningSquad now_id now_created device_ids).2 = self) ∧
      (self.FormMiningSquad now_id now_created device_ids).2.m_devices = self.m_devices ∧
      (self.FormMiningSquad now_id now_created device_ids).2.m_registration_times
        = self.m_registration_times := by
  by_cases hc : device_ids.length < 2 ∨ device_ids.length > 10
      ∨ (∃ id ∈ device_ids, self.m_devices.find id = none)
      ∨ self.DetectSpoofing device_ids = true
  · rw [FormMiningSquad_failure self now_id now_created device_ids hc]
    exact ⟨fun _ => rfl, rfl, rfl⟩
  · rw [FormMiningSquad_success self now_id now_created device_ids hc]
    exact ⟨fun h => absurd h (squad_id_ne_empty now_id), rfl, rfl⟩

/-- C20: for a registered device with a 10-slot ring, after `n >= 1` consecutive
`UpdateDeviceFingerprint` calls ring slot `i` holds the timestamp of call `n - i` for every
`i < min n 10`, slots `n..9` hold the first `10 - n` entries of the old ring, and after 10
or more calls the ring is the 10 most recent timestamps, newest first. -/
theorem UpdateDeviceFingerprint_ring (self : DeviceVerifier) (id : String)
    (fp : DeviceFingerprint) (calls : List (Int × ShareData))
    (hfp : self.m_devices.find id = some fp) (hlen : fp.timing_samples.length = 10)
    (hn : 1 ≤ calls.length) :
    ∃ fp' : DeviceFingerprint,
      (applyUpdates self id calls).m_devices.find id = some fp' ∧
        fp'.timing_samples.length = 10 ∧
        (∀ i : Nat, i < min calls.length 10 →
          fp'.timing_samples[i]?
            = (calls[calls.length - 1 - i]?).map (fun c => c.2.timestamp_us)) ∧
        (∀ i : Nat, calls.length ≤ i → i < 10 →
          fp'.timing_samples[i]? = fp.timing_samples[i - calls.length]?) ∧
        (10 ≤ calls.length →
          fp'.timing_samples = ((calls.map (fun c => c.2.timestamp_us)).reverse).take 10) := by
  obtain ⟨fp', hfind, hring⟩ := applyUpdates_ring id calls self fp hfp hlen
  have hT : ((calls.map (fun c => c.2.timestamp_us)).reverse).length = calls.length := by simp
  refine ⟨fp', hfind, ?_, ?_, ?_, ?_⟩
  · rw [hring, List.length_take, List.length_append, hlen]
    omega
  · intro i hi
    have hi1 : i < 10 := by omega
    have hi2 : i < calls.length := by omega
    rw [hring, List.getElem?_take_of_lt hi1, List.getElem?_append_left (by rw [hT]; exact hi2),
      List.getElem?_reverse (by simpa using hi2)]
    simp
  · intro i hi hi10
    rw [hring, List.getElem?_take_of_lt hi10, List.getElem?_append_right (by rw [hT]; exact hi), hT]
  · intro h10
    rw [hring, List.take_append_of_le_length (by rw [hT]; exact h10)]

/-- Witness of C20: three updates of device `A` with timestamps 11, 12, 13 leave the ring
`[13, 12, 11, 0, 0, 0, 0, 0, 0, 0]`. -/
theorem UpdateDeviceFingerprint_ring_witness :
    registryAB.m_devices.find "A" = some deviceA ∧
      deviceA.timing_samples.length = 10 ∧
      1 ≤ [((100 : Int), sampleShare 11 1), (200, sampleShare 12 2), (300, sampleShare 13 3)].length ∧
      ∃ fp' : DeviceFingerprint,
        (applyUpdates registryAB "A"
            [(100, sampleShare 11 1), (200, sampleShare 12 2), (300, sampleShare 13 3)]).m_devices.find
            "A" = some fp' ∧
          fp'.timing_samples = [13, 12, 11, 0, 0, 0, 0, 0, 0, 0] := by
  have hfp : registryAB.m_devices.find "A" = some deviceA := by simp [registryAB, Map.find]
  have hlen : deviceA.timing_samples.length = 10 := by simp [deviceA, sampleFingerprint]
  refine ⟨hfp, hlen, by decide, ?_⟩
  obtain ⟨fp', hfind, hl, hnew, hold, _⟩ := UpdateDeviceFingerprint_ring registryAB "A" deviceA
    [(100, sampleShare 11 1), (200, sampleShare 12 2), (300, sampleShare 13 3)] hfp hlen
    (by decide)
  refine ⟨fp', hfind, ?_⟩
  apply List.ext_getElem?
  intro i
  by_cases h3 : i < 3
  · have := hnew i (by simpa using h3)
    rw [this]
    interval_cases i <;> simp [sampleShare]
  · by_cases h10 : i < 10
    · have := hold i (by simpa using h3) h10
      rw [this]
      simp only [deviceA, sampleFingerprint, List.length_cons, List.length_nil]
      interval_cases i <;> simp
    · have h1 : fp'.timing_samples[i]? = none := by
        rw [List.getElem?_eq_none]
        omega
      rw [h1]
      symm
      rw [List.getElem?_eq_none]
      simp
      omega

/-- C21: for a registered device whose `recent_nonces` list has length `L <= 100`, one
`UpdateDeviceFingerprint` call with nonce `x` leaves the list equal to the last
`min (L + 1) 100` elements of the old list followed by `x`: `x` is appended and, exactly
when `L = 100`, the first element is dropped. -/
theorem UpdateDeviceFingerprint_recent_nonces (self : DeviceVerifier) (now : Int)
    (id : String) (share : ShareData) (fp : DeviceFingerprint)
    (hfp : self.m_devices.find id = some fp) (hL : fp.recent_nonces.length ≤ 100) :
    ∃ fp' : DeviceFingerprint,
      (self.UpdateDeviceFingerprint now id share).m_devices.find id = some fp' ∧
        fp'.recent_nonces
          = (fp.recent_nonces ++ [share.nonce]).drop
              ((fp.recent_nonces ++ [share.nonce]).length
                - min (fp.recent_nonces.length + 1) 100) ∧
        (fp.recent_nonces.length < 100 →
          fp'.recent_nonces = fp.recent_nonces ++ [share.nonce]) ∧
        (fp.recent_nonces.length = 100 →
          fp'.recent_nonces = fp.recent_nonces.tail ++ [share.nonce]) := by
  refine ⟨_, UpdateDeviceFingerprint_find self now id share fp hfp, ?_, ?_, ?_⟩
  · rw [updateFingerprint_recent_nonces]
    by_cases h : fp.recent_nonces.length < 100
    · have h1 : ¬ (fp.recent_nonces ++ [share.nonce]).length > 100 := by simp; omega
      have h2 : (fp.recent_nonces ++ [share.nonce]).length
          - min (fp.recent_nonces.length + 1) 100 = 0 := by simp; omega
      rw [if_neg h1, h2, List.drop_zero]
    · have h1 : (fp.recent_nonces ++ [share.nonce]).length > 100 := by simp; omega
      have h2 : (fp.recent_nonces ++ [share.nonce]).length
          - min (fp.recent_nonces.length + 1) 100 = 1 := by simp; omega
      rw [if_pos h1, h2, List.drop_one]
  · intro h
    have h1 : ¬ (fp.recent_nonces ++ [share.nonce]).length > 100 := by simp; omega
    rw [updateFingerprint_recent_nonces, if_neg h1]
  · intro h
    have h1 : (fp.recent_nonces ++ [share.nonce]).length > 100 := by simp; omega
    rw [updateFingerprint_recent_nonces, if_pos h1]
    cases hr : fp.recent_nonces with
    | nil => rw [hr] at h; simp at h
    | cons a rest => rfl

/-- Witness of C21: device `A` (no recent nonces) updated with nonce 1 has the list `[1]`. -/
theorem UpdateDeviceFingerprint_recent_nonces_witness :
    registryAB.m_devices.find "A" = some deviceA ∧
      deviceA.recent_nonces.length ≤ 100 ∧
      ∃ fp' : DeviceFingerprint,
        (registryAB.UpdateDeviceFingerprint 100 "A" (sampleShare 11 1)).m_devices.find "A"
            = some fp' ∧
          fp'.recent_nonces = [1] := by
  have hfp : registryAB.m_devices.find "A" = some deviceA := by simp [registryAB, Map.find]
  have hL : deviceA.recent_nonces.length ≤ 100 := by decide
  obtain ⟨fp', hfind, _, hlt, _⟩ :=
    UpdateDeviceFingerprint_recent_nonces registryAB 100 "A" (sampleShare 11 1) deviceA hfp hL
  refine ⟨hfp, hL, fp', hfind, ?_⟩
  rw [hlt (by decide)]
  rfl

/-- C22 (counterexample): registering a fingerprint that carries 101 nonces and updating it
once leaves a stored fingerprint with 101 recent nonces. -/
theorem recent_nonces_over_capacity :
    ∃ fp : DeviceFingerprint,
      (runCalls [Call.registerDevice 0 "L" deviceLong,
          Call.updateDeviceFingerprint 1 "L" (sampleShare 11 1)]).m_devices.find "L" = some fp ∧
        fp.recent_nonces.length = 101 := by
  have h1 : (DeviceVerifier.empty.RegisterDevice 0 "L" deviceLong).2.m_devices.find "L"
      = some deviceLong := by
    simp [DeviceVerifier.RegisterDevice, DeviceVerifier.empty, Map.find, Map.assign]
  refine ⟨updateFingerprint deviceLong 1 (sampleShare 11 1), ?_, ?_⟩
  · simp only [runCalls, List.foldl_cons, List.foldl_nil, DeviceVerifier.call]
    exact UpdateDeviceFingerprint_find _ 1 "L" (sampleShare 11 1) deviceLong h1
  · rw [updateFingerprint_recent_nonces]
    simp [deviceLong]

/-- C22 (amended): in every registry state reached from the empty registry by a sequence
of `RegisterDevice`, `UpdateDeviceFingerprint` and `FormMiningSquad` calls in which every
registered fingerprint carries at most 100 recent nonces, every stored fingerprint has at
most 100 recent nonces. -/
theorem recent_nonces_capped (calls : List Call) (hcalls : ∀ c ∈ calls, c.nonceCapped) :
    ∀ (id : String) (fp : DeviceFingerprint),
      (runCalls calls).m_devices.find id = some fp → fp.recent_nonces.length ≤ 100 := by
  unfold runCalls
  refine foldl_call_invariant Call.nonceCapped
    (fun s => ∀ (id : String) (fp : DeviceFingerprint), s.m_devices.find id = some fp →
      fp.recent_nonces.length ≤ 100)
    call_nonce_invariant calls DeviceVerifier.empty ?_ hcalls
  intro id fp h
  simp [DeviceVerifier.empty, Map.find] at h

/-- Witness of C22 (amended): a sequence of four calls on devices `A` and `B`. -/
theorem recent_nonces_capped_witness :
    (∀ c ∈ [Call.registerDevice 0 "A" deviceA,
        Call.updateDeviceFingerprint 1 "A" (sampleShare 11 1),
        Call.registerDevice 2 "B" deviceB,
        Call.formMiningSquad 3 3 ["A", "B"]], c.nonceCapped) ∧
      ∀ (id : String) (fp : DeviceFingerprint),
        (runCalls [Call.registerDevice 0 "A" deviceA,
          Call.updateDeviceFingerprint 1 "A" (sampleShare 11 1),
          Call.registerDevice 2 "B" deviceB,
          Call.formMiningSquad 3 3 ["A", "B"]]).m_devices.find id = some fp →
        fp.recent_nonces.length ≤ 100 :=
  have h : ∀ c ∈ [Call.registerDevice 0 "A" deviceA,
      Call.updateDeviceFingerprint 1 "A" (sampleShare 11 1),
      Call.registerDevice 2 "B" deviceB,
      Call.formMiningSquad 3 3 ["A", "B"]], c.nonceCapped := by
    intro c hc
    simp only [List.mem_cons, List.mem_singleton, List.not_mem_nil, or_false] at hc
    rcases hc with rfl | rfl | rfl | rfl
    · simp [Call.nonceCapped, deviceA, sampleFingerprint]
    · trivial
    · simp [Call.nonceCapped, deviceB, sampleFingerprint]
    · trivial
  ⟨h, recent_nonces_capped _ h⟩

/-- C23 (counterexample): with stored `avg_latency_ms = 20` and a share latency of 25 the
stored value after the update is 20, not `0.9 * 20 + 0.1 * 25 = 20.5`. -/
theorem UpdateDeviceFingerprint_latency_truncated :
    registryAB.m_devices.find "A" = some deviceA ∧
      deviceA.avg_latency_ms = 20 ∧ shareLatency25.latency_ms = 25 ∧
      ((registryAB.UpdateDeviceFingerprint 100 "A" shareLatency25).m_devices.find "A").map
        (fun fp => fp.avg_latency_ms) = some 20 ∧
      ((20 : Nat) : ℝ) ≠ 0.9 * ((20 : Nat) : ℝ) + 0.1 * ((25 : Nat) : ℝ) := by
  have hfp : registryAB.m_devices.find "A" = some deviceA := by simp [registryAB, Map.find]
  refine ⟨hfp, rfl, rfl, ?_, by norm_num⟩
  rw [UpdateDeviceFingerprint_find registryAB 100 "A" shareLatency25 deviceA hfp]
  simp only [Option.map_some', updateFingerprint_avg_latency]
  have h20 : deviceA.avg_latency_ms = 20 := rfl
  have h25 : shareLatency25.latency_ms = 25 := rfl
  rw [h20, h25, if_pos (by decide), doubleToUInt32_latency 20 25 (by norm_num) (by norm_num)]

/-- C23 (amended): after `UpdateDeviceFingerprint` on a registered device with stored
`avg_latency_ms = old` and share latency `s` (both 32-bit values), the stored
`avg_latency_ms` is the integer part of `0.9 * old + 0.1 * s`, that is
`(9 * old + s) / 10`, when `s > 0`, and is unchanged when `s = 0`. -/
theorem UpdateDeviceFingerprint_latency (self : DeviceVerifier) (now : Int) (id : String)
    (share : ShareData) (fp : DeviceFingerprint)
    (hfp : self.m_devices.find id = some fp)
    (ho : fp.avg_latency_ms < 2 ^ 32) (hs : share.latency_ms < 2 ^ 32) :
    ∃ fp' : DeviceFingerprint,
      (self.UpdateDeviceFingerprint now id share).m_devices.find id = some fp' ∧
        (share.latency_ms > 0 →
          fp'.avg_latency_ms = ⌊0.9 * (fp.avg_latency_ms : ℝ) + 0.1 * (share.latency_ms : ℝ)⌋₊ ∧
          fp'.avg_latency_ms = (9 * fp.avg_latency_ms + share.latency_ms) / 10) ∧
        (share.latency_ms = 0 → fp'.avg_latency_ms = fp.avg_latency_ms) := by
  refine ⟨_, UpdateDeviceFingerprint_find self now id share fp hfp, ?_, ?_⟩
  · intro hpos
    rw [updateFingerprint_avg_latency, if_pos hpos, doubleToUInt32_latency _ _ ho hs]
    refine ⟨?_, rfl⟩
    rw [← latency_average_floor]
    congr 1
    ring
  · intro h0
    rw [updateFingerprint_avg_latency, if_neg (by omega)]

/-- Witness of C23 (amended): device `B` (latency 20) updated with a share latency of 25
keeps the latency 20. -/
theorem UpdateDeviceFingerprint_latency_witness :
    registryAB.m_devices.find "B" = some deviceB ∧
      deviceB.avg_latency_ms < 2 ^ 32 ∧ shareLatency25.latency_ms < 2 ^ 32 ∧
      ∃ fp' : DeviceFingerprint,
        (registryAB.UpdateDeviceFingerprint 200 "B" shareLatency25).m_devices.find "B"
            = some fp' ∧
          fp'.avg_latency_ms = 20 := by
  have hfp : registryAB.m_devices.find "B" = some deviceB := by simp [registryAB, Map.find]
  have ho : deviceB.avg_latency_ms < 2 ^ 32 := by
    have : deviceB.avg_latency_ms = 20 := rfl
    rw [this]; norm_num
  have hs : shareLatency25.latency_ms < 2 ^ 32 := by
    have : shareLatency25.latency_ms = 25 := rfl
    rw [this]; norm_num
  obtain ⟨fp', hfind, hpos, _⟩ :=
    UpdateDeviceFingerprint_latency registryAB 200 "B" shareLatency25 deviceB hfp ho hs
  refine ⟨hfp, ho, hs, fp', hfind, ?_⟩
  have h := (hpos (by decide)).2
  rw [h]
  rfl

/-- C24: after `UpdateDeviceFingerprint` on a registered device, if the new ring has a
non-zero entry and the sum of its entries is below `2^64`, `avg_nonce_time_us` is the
integer quotient of the sum of the non-zero entries by their number; if every entry is
zero, `avg_nonce_time_us` is unchanged. -/
theorem UpdateDeviceFingerprint_average (self : DeviceVerifier) (now : Int) (id : String)
    (share : ShareData) (fp : DeviceFingerprint) (hfp : self.m_devices.find id = some fp) :
    ∃ fp' : DeviceFingerprint,
      (self.UpdateDeviceFingerprint now id share).m_devices.find id = some fp' ∧
        ((∃ t ∈ fp'.timing_samples, t > 0) → fp'.timing_samples.sum < 2 ^ 64 →
          fp'.avg_nonce_time_us
            = (fp'.timing_samples.filter (fun t => decide (t > 0))).sum
              / (fp'.timing_samples.filter (fun t => decide (t > 0))).length) ∧
        ((∀ t ∈ fp'.timing_samples, t = 0) → fp'.avg_nonce_time_us = fp.avg_nonce_time_us) := by
  refine ⟨_, UpdateDeviceFingerprint_find self now id share fp hfp, ?_, ?_⟩
  · intro hex hsum
    obtain ⟨t, ht, htpos⟩ := hex
    have hmem : t ∈ (updateFingerprint fp now share).timing_samples.filter
        (fun t => decide (t > 0)) := List.mem_filter.mpr ⟨ht, by simpa using htpos⟩
    have hlen : 0 < ((updateFingerprint fp now share).timing_samples.filter
        (fun t => decide (t > 0))).length := List.length_pos_of_mem hmem
    rw [updateFingerprint_avg, sumAndCount_eq _ hsum]
    simp only [gt_iff_lt, hlen, if_true]
  · intro hall
    have hnil : (updateFingerprint fp now share).timing_samples.filter
        (fun t => decide (t > 0)) = [] := by
      rw [List.filter_eq_nil_iff]
      intro t ht
      have := hall t ht
      simp [this]
    rw [updateFingerprint_avg, sumAndCount_count, hnil]
    simp

/-- Witness of C24: device `A` (empty ring) updated with timestamp 11 has the ring
`[11, 0, ..., 0]` and the average 11. -/
theorem UpdateDeviceFingerprint_average_witness :
    registryAB.m_devices.find "A" = some deviceA ∧
      ∃ fp' : DeviceFingerprint,
        (registryAB.UpdateDeviceFingerprint 100 "A" (sampleShare 11 1)).m_devices.find "A"
            = some fp' ∧
          fp'.timing_samples = [11, 0, 0, 0, 0, 0, 0, 0, 0, 0] ∧
          fp'.avg_nonce_time_us = 11 := by
  have hfp : registryAB.m_devices.find "A" = some deviceA := by simp [registryAB, Map.find]
  obtain ⟨fp', hfind, hpos, _⟩ :=
    UpdateDeviceFingerprint_average registryAB 100 "A" (sampleShare 11 1) deviceA hfp
  have hfp' : fp' = updateFingerprint deviceA 100 (sampleShare 11 1) := by
    rw [UpdateDeviceFingerprint_find registryAB 100 "A" (sampleShare 11 1) deviceA hfp] at hfind
    exact (Option.some.inj hfind).symm
  have hring : fp'.timing_samples = [11, 0, 0, 0, 0, 0, 0, 0, 0, 0] := by
    rw [hfp', updateFingerprint_timing_samples deviceA 100 (sampleShare 11 1) rfl]
    rfl
  refine ⟨hfp, fp', hfind, hring, ?_⟩
  rw [hpos (by rw [hring]; exact ⟨11, by simp, by decide⟩) (by rw [hring]; decide), hring]
  decide

/-- C25: `UpdateDeviceFingerprint(id, share)` keeps the set of registered ids, every other
device's fingerprint, all registration times and all squads; for an unregistered id the
whole state is unchanged; in the updated fingerprint `device_id`, `firmware_version`,
`chip_count`, `memory_size_mb` and `timing_variance_us` are unchanged, and `ip_address` is
unchanged when the share's `ip_address` is empty. -/
theorem UpdateDeviceFingerprint_frame (self : DeviceVerifier) (now : Int) (id : String)
    (share : ShareData) :
    (∀ k : String, ((self.UpdateDeviceFingerprint now id share).m_devices.find k).isSome
        = (self.m_devices.find k).isSome) ∧
      (∀ k : String, k ≠ id →
        (self.UpdateDeviceFingerprint now id share).m_devices.find k = self.m_devices.find k) ∧
      (self.UpdateDeviceFingerprint now id share).m_registration_times
        = self.m_registration_times ∧
      (self.UpdateDeviceFingerprint now id share).m_squads = self.m_squads ∧
      (self.m_devices.find id = none → self.UpdateDeviceFingerprint now id share = self) ∧
      (∀ fp : DeviceFingerprint, self.m_devices.find id = some fp →
        ∃ fp' : DeviceFingerprint,
          (self.UpdateDeviceFingerprint now id share).m_devices.find id = some fp' ∧
            fp'.device_id = fp.device_id ∧
            fp'.firmware_version = fp.firmware_version ∧
            fp'.chip_count = fp.chip_count ∧
            fp'.memory_size_mb = fp.memory_size_mb ∧
            fp'.timing_variance_us = fp.timing_variance_us ∧
            (share.ip_address = "" → fp'.ip_address = fp.ip_address)) := by
  refine ⟨?_, ?_, UpdateDeviceFingerprint_registration_times self now id share,
    UpdateDeviceFingerprint_squads self now id share,
    UpdateDeviceFingerprint_unregistered self now id share, ?_⟩
  · intro k
    by_cases hk : k = id
    · subst hk
      cases h : self.m_devices.find k with
      | none => rw [UpdateDeviceFingerprint_unregistered self now k share h, h]
      | some fp => rw [UpdateDeviceFingerprint_find self now k share fp h]; rfl
    · rw [UpdateDeviceFingerprint_find_ne self now id k share hk]
  · intro k hk
    exact UpdateDeviceFingerprint_find_ne self now id k share hk
  · intro fp hfp
    exact ⟨updateFingerprint fp now share,
      UpdateDeviceFingerprint_find self now id share fp hfp,
      updateFingerprint_stable fp now share⟩

/-- C26: for every list of timing samples that all fall into the same 1 ms bucket (which
covers every all-identical, empty or one-element list) `CalculateTimingEntropy` returns 0. -/
theorem CalculateTimingEntropy_single_bucket (timings : List Nat)
    (h : ∀ t ∈ timings, ∀ u ∈ timings, t / 1000 = u / 1000) :
    Impl.CalculateTimingEntropy timings = 0 := by
  unfold Impl.CalculateTimingEntropy
  by_cases hlen : timings.length < 2
  · rw [if_pos hlen]; norm_num
  · rw [if_neg hlen]
    cases ht : timings with
    | nil => rw [ht] at hlen; simp at hlen
    | cons t0 rest =>
      have hb := buckets_eq_replicate timings h t0 rest ht
      rw [ht] at hb
      have hhist : ((List.map (fun t => t / 1000) (t0 :: rest)).dedup.insertionSort
          (fun x y => x ≤ y)).map
            (fun b => (b, (List.map (fun t => t / 1000) (t0 :: rest)).count b))
          = [(t0 / 1000, rest.length + 1)] := by
        rw [hb, dedup_replicate_succ]
        simp [List.count_replicate_self]
      have hn : ((rest.length + 1 : Nat) : ℝ) / (((t0 :: rest).length : Nat) : ℝ) = 1 := by
        rw [List.length_cons]
        apply div_self
        positivity
      simp only [hhist, List.foldl_cons, List.foldl_nil, hn]
      norm_num

/-- Witness of C26: three samples of the bucket 5. -/
theorem CalculateTimingEntropy_single_bucket_witness :
    (∀ t ∈ [5000, 5999, 5400], ∀ u ∈ [5000, 5999, 5400], t / 1000 = u / 1000) ∧
      Impl.CalculateTimingEntropy [5000, 5999, 5400] = 0 :=
  ⟨by decide, CalculateTimingEntropy_single_bucket [5000, 5999, 5400] (by decide)⟩

/-- C27: for every list of at least two fingerprints whose pooled non-zero timing samples
are non-empty and all equal, `DetectSynchronizedTiming` returns true. -/
theorem DetectSynchronizedTiming_identical (devices : List DeviceFingerprint)
    (h2 : 2 ≤ devices.length) (hne : pooledTimings devices ≠ [])
    (heq : ∀ t ∈ pooledTimings devices, ∀ u ∈ pooledTimings devices, t = u) :
    Impl.DetectSynchronizedTiming devices = true := by
  unfold Impl.DetectSynchronizedTiming
  have h2' : ¬ devices.length < 2 := by omega
  rw [if_neg h2']
  cases hp : pooledTimings devices with
  | nil => exact absurd hp hne
  | cons v rest =>
    rw [hp] at heq
    have hall : ∀ t ∈ v :: rest, t = v := fun t ht => heq t ht v (by simp)
    have hmean : List.foldl (fun (acc : ℝ) (timing : Nat) => acc + (timing : ℝ)) 0.0 (v :: rest)
        / (((v :: rest).length : Nat) : ℝ) = (v : ℝ) := by
      rw [foldl_sum_const (v :: rest) v hall]
      have hl : (((v :: rest).length : Nat) : ℝ) ≠ 0 := by
        rw [List.length_cons]
        positivity
      field_simp
      norm_num
      ring
    simp only [List.isEmpty_cons, Bool.false_eq_true, if_false, hmean]
    rw [foldl_sq_const (v :: rest) v (v : ℝ) rfl hall]
    norm_num

/-- Witness of C27: two devices whose non-zero timing samples are all 7. -/
theorem DetectSynchronizedTiming_identical_witness :
    2 ≤ [{ deviceA with timing_samples := [0, 7, 0, 0, 0, 0, 0, 0, 0, 0] },
          { deviceB with timing_samples := [7, 7, 0, 0, 0, 0, 0, 0, 0, 0] }].length ∧
      Impl.DetectSynchronizedTiming
        [{ deviceA with timing_samples := [0, 7, 0, 0, 0, 0, 0, 0, 0, 0] },
          { deviceB with timing_samples := [7, 7, 0, 0, 0, 0, 0, 0, 0, 0] }] = true :=
  ⟨by decide, DetectSynchronizedTiming_identical _ (by decide)
    (by simp [pooledTimings]) (by simp [pooledTimings])⟩

/-- C28 (evaluation at the failing input): two fingerprints with different `device_id`
(and different average nonce time, variance and firmware version) give the same string
`X|1|2|3|F|1|512` to SHA-256. -/
theorem hashInput_collision :
    collidingA.device_id ≠ collidingB.device_id ∧
      collidingA.hashInput = "X|1|2|3|F|1|512" ∧
      collidingB.hashInput = "X|1|2|3|F|1|512" := by
  refine ⟨by decide, by decide, by decide⟩

/-- C29 (counterexample): in a squad of six pairwise distinct members every share is the
binary64 quotient `1.0 / 6 = 6004799503160661 / 2^55`; the six shares add up to
`1 - 2^-54` in exact arithmetic and to `1 - 2^-53` (0.9999999999999999) when they are
added in binary64, not to 1. -/
theorem six_shares_do_not_sum_to_one :
    squadSix.member_devices.Nodup ∧
      squadSix.member_devices.map (Binary64.GetRewardShare squadSix)
        = List.replicate 6 (6004799503160661 / 36028797018963968) ∧
      (squadSix.member_devices.map (Binary64.GetRewardShare squadSix)).sum
        = 1 - 1 / 2 ^ 54 ∧
      sum64 (squadSix.member_devices.map (Binary64.GetRewardShare squadSix))
        = 1 - 1 / 2 ^ 53 := by
  have hshare : ∀ id ∈ squadSix.member_devices,
      Binary64.GetRewardShare squadSix id = 6004799503160661 / 36028797018963968 := by
    intro id hid
    have hne : squadSix.member_devices.isEmpty = false := rfl
    have hlen : squadSix.member_devices.length = 6 := rfl
    simp only [Binary64.GetRewardShare, hne, hid, hlen, Bool.false_eq_true, if_false,
      not_true_eq_false]
    have h6 : round64 ((6 : Nat) : ℝ) = ((6 : Nat) : ℝ) := round64_natCast 6 (by norm_num)
    rw [h6]
    norm_num [round64_sixth]
  have hmap : squadSix.member_devices.map (Binary64.GetRewardShare squadSix)
      = List.replicate 6 (6004799503160661 / 36028797018963968) := by
    rw [List.eq_replicate_iff]
    refine ⟨rfl, ?_⟩
    intro b hb
    obtain ⟨id, hid, rfl⟩ := List.mem_map.mp hb
    exact hshare id hid
  refine ⟨by decide, hmap, ?_, ?_⟩
  · rw [hmap]
    simp only [List.replicate, List.sum_cons, List.sum_nil]
    norm_num
  · rw [hmap]
    simp only [sum64, List.replicate, List.foldl_cons, List.foldl_nil]
    norm_num [round64_share6_sum1, round64_share6_sum2, round64_share6_sum3,
      round64_share6_sum4, round64_share6_sum5, round64_share6_sum6]

/-- C29 (amended): `GetRewardShare(id)` is 0 for every non-member and for every id of an
empty squad, and for a member of a squad of `N` members it is the binary64 quotient
`1.0 / N`; when `N` is a power of two (at most `2^52`) each share is exactly `1 / N` and
the shares of `N` pairwise distinct members sum to exactly 1. -/
theorem GetRewardShare_binary64 (squad : MiningSquad) :
    (∀ id ∈ squad.member_devices,
        Binary64.GetRewardShare squad id
          = round64 (1 / round64 (squad.member_devices.length : ℝ))) ∧
      (∀ id : String, id ∉ squad.member_devices → Binary64.GetRewardShare squad id = 0) ∧
      (squad.member_devices = [] → ∀ id : String, Binary64.GetRewardShare squad id = 0) ∧
      (∀ j : Nat, j ≤ 52 → squad.member_devices.length = 2 ^ j →
        (∀ id ∈ squad.member_devices,
          Binary64.GetRewardShare squad id = 1 / (squad.member_devices.length : ℝ)) ∧
        (squad.member_devices.Nodup →
          (∑ id in squad.member_devices.toFinset, Binary64.GetRewardShare squad id) = 1)) := by
  have hmem : ∀ id ∈ squad.member_devices,
      Binary64.GetRewardShare squad id
        = round64 (1 / round64 (squad.member_devices.length : ℝ)) := by
    intro id h
    unfold Binary64.GetRewardShare
    have hne : squad.member_devices.isEmpty = false := by
      cases hm : squad.member_devices with
      | nil => rw [hm] at h; simp at h
      | cons a rest => rfl
    simp only [hne, h, Bool.false_eq_true, if_false, not_true_eq_false]
    norm_num
  have hnon : ∀ id : String, id ∉ squad.member_devices →
      Binary64.GetRewardShare squad id = 0 := by
    intro id h
    unfold Binary64.GetRewardShare
    by_cases he : squad.member_devices.isEmpty = true
    · simp only [he, if_true]
      norm_num
    · simp only [he, h, if_false, not_false_eq_true, if_true]
      norm_num
  refine ⟨hmem, hnon, ?_, ?_⟩
  · intro he id
    apply hnon
    rw [he]
    simp
  · intro j hj hlen
    have hN : round64 (squad.member_devices.length : ℝ) = (2 : ℝ) ^ j := by
      rw [round64_natCast _ (by rw [hlen]; exact Nat.pow_lt_pow_right (by norm_num) (by omega)),
        hlen]
      push_cast
      rfl
    have hshare : ∀ id ∈ squad.member_devices,
        Binary64.GetRewardShare squad id = 1 / (squad.member_devices.length : ℝ) := by
      intro id h
      rw [hmem id h, hN, round64_inv_two_pow j (by omega), hlen]
      push_cast
      rfl
    refine ⟨hshare, ?_⟩
    intro hd
    have hpos : (squad.member_devices.length : ℝ) ≠ 0 := by
      rw [hlen]; positivity
    rw [Finset.sum_congr rfl (fun id hid => hshare id (List.mem_toFinset.mp hid))]
    rw [Finset.sum_const, List.toFinset_card_of_nodup hd, nsmul_eq_mul]
    field_simp

/-- Witness of C29 (amended): in the squad of `A` and `B` both shares are 1/2, the share
of `C` is 0 and the shares sum to 1. -/
theorem GetRewardShare_binary64_witness :
    squadAB.member_devices.length = 2 ^ 1 ∧ squadAB.member_devices.Nodup ∧
      Binary64.GetRewardShare squadAB "A" = 1 / 2 ∧
      Binary64.GetRewardShare squadAB "B" = 1 / 2 ∧
      Binary64.GetRewardShare squadAB "C" = 0 ∧
      (∑ id in squadAB.member_devices.toFinset, Binary64.GetRewardShare squadAB id) = 1 := by
  have h := GetRewardShare_binary64 squadAB
  have h2 := h.2.2.2 1 (by norm_num) (by decide)
  have hl : (squadAB.member_devices.length : ℝ) = 2 := by
    simp [squadAB]
  refine ⟨by decide, by decide, ?_, ?_, ?_, h2.2 (by decide)⟩
  · rw [h2.1 "A" (by decide), hl]
  · rw [h2.1 "B" (by decide), hl]
  · exact h.2.1 "C" (by decide)

/-- C30 (counterexample): `RemoveDevice("A")` on the squad of `A` and `B` returns true and
leaves a squad of one member. -/
theorem RemoveDevice_below_minimum :
    2 ≤ squadAB.member_devices.length ∧ squadAB.member_devices.length ≤ 10 ∧
      (squadAB.RemoveDevice "A").1 = true ∧
      (squadAB.RemoveDevice "A").2.member_devices = ["B"] ∧
      (squadAB.RemoveDevice "A").2.member_devices.length = 1 := by
  decide

/-- C30 (amended): for a squad with between 2 and 10 members, after `AddDevice` the squad
still has between 2 and 10 members; after `RemoveDevice` it has between 1 and 10 members:
one fewer when the call returns true, the same squad when it returns false. -/
theorem squad_size_after_adjustment (squad : MiningSquad) (id : String)
    (h2 : 2 ≤ squad.member_devices.length) (h10 : squad.member_devices.length ≤ 10) :
    (2 ≤ (squad.AddDevice id).2.member_devices.length ∧
        (squad.AddDevice id).2.member_devices.length ≤ 10) ∧
      (1 ≤ (squad.RemoveDevice id).2.member_devices.length ∧
        (squad.RemoveDevice id).2.member_devices.length ≤ 10) ∧
      ((squad.RemoveDevice id).1 = true →
        (squad.RemoveDevice id).2.member_devices.length + 1 = squad.member_devices.length) ∧
      ((squad.RemoveDevice id).1 = false → (squad.RemoveDevice id).2 = squad) := by
  refine ⟨?_, ?_, ?_, ?_⟩
  · unfold MiningSquad.AddDevice
    split_ifs with ha hb
    · exact ⟨h2, h10⟩
    · exact ⟨h2, h10⟩
    · simp only [List.length_append, List.length_singleton]
      omega
  · unfold MiningSquad.RemoveDevice
    split_ifs with hm
    · simp only [List.length_erase_of_mem hm]
      omega
    · exact ⟨le_trans (by decide) h2, h10⟩
  · unfold MiningSquad.RemoveDevice
    split_ifs with hm
    · intro _
      show (squad.member_devices.erase id).length + 1 = squad.member_devices.length
      rw [List.length_erase_of_mem hm]
      omega
    · intro h; simp at h
  · unfold MiningSquad.RemoveDevice
    split_ifs with hm
    · intro h; simp at h
    · intro _; rfl

/-- Witness of C30 (amended): adding `C` to the squad of `A` and `B`. -/
theorem squad_size_after_adjustment_witness :
    2 ≤ squadAB.member_devices.length ∧ squadAB.member_devices.length ≤ 10 ∧
      (squadAB.AddDevice "C").2.member_devices = ["A", "B", "C"] ∧
      (2 ≤ (squadAB.AddDevice "C").2.member_devices.length ∧
        (squadAB.AddDevice "C").2.member_devices.length ≤ 10) :=
  ⟨by decide, by decide, by decide,
    (squad_size_after_adjustment squadAB "C" (by decide) (by decide)).1⟩

/-- C31 (counterexample): for the list `[A, A]` both ids resolve, the synchronization and
network-diversity checks do not fire, one pair is flagged and the entropy deduction
applies; the formula gives `max(0, 1 - 0.3 - 0.2) = 0.5`, while the binary64 subtractions
`1.0 - 0.3 - 0.2` return `9007199254740991 / 2^54` (0.49999999999999994). -/
theorem confidence_differs_from_exact_formula :
    2 ≤ (collectFingerprints registryAB ["A", "A"]).length ∧
      Binary64.DetectSynchronizedTiming Libm.correctlyRounded
        (collectFingerprints registryAB ["A", "A"]) = false ∧
      Binary64.similarPairCount Libm.correctlyRounded
        (collectFingerprints registryAB ["A", "A"]) = 1 ∧
      Binary64.diversityLow (collectFingerprints registryAB ["A", "A"]) = false ∧
      Binary64.entropyLow Libm.correctlyRounded
        (collectFingerprints registryAB ["A", "A"]) = true ∧
      (Binary64.VerifyDeviceDistribution Libm.correctlyRounded registryAB
          ["A", "A"]).confidence = 9007199254740991 / 18014398509481984 ∧
      (Binary64.VerifyDeviceDistribution Libm.correctlyRounded registryAB
          ["A", "A"]).confidence ≠ max 0 (1 - 0.4 * 0 - 0.3 * 1 - 0.2 * 0 - 0.2 * 1) := by
  have hp : pooledTimings [deviceA, deviceA] = [] := by
    rw [deviceA]; exact pooled_sample _ _ _ _ _ _
  refine ⟨by rw [collect_A_A]; exact Nat.le_refl 2, ?_, ?_, ?_, ?_,
    Binary64_Verify_A_A _, ?_⟩
  · rw [collect_A_A]; exact Binary64_sync_of_pool_nil _ _ hp
  · rw [collect_A_A, ← Binary64_flaggedCount_eq]; exact Binary64_flaggedCount_A_A _
  · rw [collect_A_A]; exact Binary64_diversity_pair _ _
  · rw [collect_A_A]; exact Binary64_entropyLow_of_pool_nil _ _ hp
  · rw [Binary64_Verify_A_A]
    norm_num

/-- C31 (amended): when at least two ids resolve, the returned confidence is
`max(0, min(1, c))`, where `c` is obtained from 1.0 by subtracting, in this order and each
time rounded to binary64, 0.4 if the synchronization check fired, 0.3 once for each of
the `k` index pairs `i < j` of resolved fingerprints with similarity above 0.9, 0.2 if
the binary64 quotient `unique_ips / resolved_count` is below 0.5, and 0.2 if the
pooled-sample entropy is below 2.0; and `k` is the length of `suspicious_pairs`. This
holds for every C library. -/
theorem confidence_binary64 (L : Libm) (self : DeviceVerifier) (ids : List String)
    (h2 : 2 ≤ (collectFingerprints self ids).length) :
    (Binary64.VerifyDeviceDistribution L self ids).confidence
        = max 0 (min 1 (Binary64.deductions
            (Binary64.DetectSynchronizedTiming L (collectFingerprints self ids))
            (Binary64.similarPairCount L (collectFingerprints self ids))
            (Binary64.diversityLow (collectFingerprints self ids))
            (Binary64.entropyLow L (collectFingerprints self ids)))) ∧
      (Binary64.VerifyDeviceDistribution L self ids).suspicious_pairs.length
        = Binary64.similarPairCount L (collectFingerprints self ids) := by
  have h := Binary64_Verify_resolved L self ids h2
  rw [Binary64_flaggedCount_eq] at h
  exact ⟨h.1, h.2.1⟩

/-- Witness of C31 (amended): the registry with the devices `A` and `B` and the list
`[A, A]`. -/
theorem confidence_binary64_witness :
    2 ≤ (collectFingerprints registryAB ["A", "A"]).length ∧
      (Binary64.VerifyDeviceDistribution Libm.correctlyRounded registryAB
          ["A", "A"]).confidence
        = max 0 (min 1 (Binary64.deductions
            (Binary64.DetectSynchronizedTiming Libm.correctlyRounded
              (collectFingerprints registryAB ["A", "A"]))
            (Binary64.similarPairCount Libm.correctlyRounded
              (collectFingerprints registryAB ["A", "A"]))
            (Binary64.diversityLow (collectFingerprints registryAB ["A", "A"]))
            (Binary64.entropyLow Libm.correctlyRounded
              (collectFingerprints registryAB ["A", "A"])))) ∧
      (Binary64.VerifyDeviceDistribution Libm.correctlyRounded registryAB
          ["A", "A"]).suspicious_pairs.length
        = Binary64.similarPairCount Libm.correctlyRounded
            (collectFingerprints registryAB ["A", "A"]) :=
  ⟨by rw [collect_A_A]; exact Nat.le_refl 2,
    confidence_binary64 Libm.correctlyRounded registryAB ["A", "A"]
      (by rw [collect_A_A]; exact Nat.le_refl 2)⟩

/-- C32: when at least two ids resolve, `is_valid` is true exactly when the
synchronization check did not fire and no pair had similarity above 0.9; in that case
the confidence is at least 0.6, whatever the network-diversity and timing-entropy
deductions. -/
theorem valid_iff_no_sync_no_similar (self : DeviceVerifier) (ids : List String)
    (h2 : 2 ≤ (collectFingerprints self ids).length) :
    ((self.VerifyDeviceDistribution ids).is_valid = true ↔
        (Impl.DetectSynchronizedTiming (collectFingerprints self ids) = false ∧
          similarPairCount (collectFingerprints self ids) = 0)) ∧
      ((Impl.DetectSynchronizedTiming (collectFingerprints self ids) = false ∧
          similarPairCount (collectFingerprints self ids) = 0) →
        0.6 ≤ (self.VerifyDeviceDistribution ids).confidence) := by
  have h := Verify_resolved self ids h2
  rw [flaggedCount_eq] at h
  refine ⟨h.2.2.1, ?_⟩
  rintro ⟨hs, hk⟩
  have hs0 : indicator false = 0 := by simp [indicator]
  rw [h.1, hs, hk, hs0]
  have b := indicator_bounds (diversityLow (collectFingerprints self ids))
  have c := indicator_bounds (entropyLow (collectFingerprints self ids))
  refine le_trans ?_ (le_max_right _ _)
  push_cast
  linarith [b.2, c.2]

/-- C32 (witness): the registry with the devices `A` and `B` and the list `[A, B]`. -/
theorem valid_iff_no_sync_no_similar_witness :
    2 ≤ (collectFingerprints registryAB ["A", "B"]).length ∧
      ((registryAB.VerifyDeviceDistribution ["A", "B"]).is_valid = true ↔
        (Impl.DetectSynchronizedTiming (collectFingerprints registryAB ["A", "B"]) = false ∧
          similarPairCount (collectFingerprints registryAB ["A", "B"]) = 0)) :=
  ⟨by rw [collect_A_B]; exact Nat.le_refl 2,
    (valid_iff_no_sync_no_similar registryAB ["A", "B"]
      (by rw [collect_A_B]; exact Nat.le_refl 2)).1⟩

/-- C33: when at least two ids resolve, the reason is the similarity message if a pair
was flagged, otherwise the synchronization message if that check fired, otherwise empty;
followed by the low-network-diversity suffix if that deduction fired and then by the
low-timing-entropy suffix if that deduction fired. -/
theorem reason_composition (self : DeviceVerifier) (ids : List String)
    (h2 : 2 ≤ (collectFingerprints self ids).length) :
    (self.VerifyDeviceDistribution ids).reason
        = (if similarPairCount (collectFingerprints self ids) = 0 then
              (if Impl.DetectSynchronizedTiming (collectFingerprints self ids) = true
                then "Timing patterns too synchronized" else "")
            else "Devices too similar (likely same hardware)")
          ++ (if diversityLow (collectFingerprints self ids) = true
                then "; Low network diversity" else "")
          ++ (if entropyLow (collectFingerprints self ids) = true
                then "; Low timing entropy" else "") := by
  have h := Verify_resolved self ids h2
  rw [flaggedCount_eq] at h
  exact h.2.2.2

/-- C33 (witness): the registry with the devices `A` and `B` and the list `[A, B]`. -/
theorem reason_composition_witness :
    2 ≤ (collectFingerprints registryAB ["A", "B"]).length ∧
      (registryAB.VerifyDeviceDistribution ["A", "B"]).reason
        = (if similarPairCount (collectFingerprints registryAB ["A", "B"]) = 0 then
              (if Impl.DetectSynchronizedTiming (collectFingerprints registryAB ["A", "B"]) = true
                then "Timing patterns too synchronized" else "")
            else "Devices too similar (likely same hardware)")
          ++ (if diversityLow (collectFingerprints registryAB ["A", "B"]) = true
                then "; Low network diversity" else "")
          ++ (if entropyLow (collectFingerprints registryAB ["A", "B"]) = true
                then "; Low timing entropy" else "") :=
  ⟨by rw [collect_A_B]; exact Nat.le_refl 2,
    reason_composition registryAB ["A", "B"] (by rw [collect_A_B]; exact Nat.le_refl 2)⟩

/-- C34: when at least two ids resolve, the network-diversity deduction fires only if at
least three fingerprints resolve; with exactly two resolved fingerprints the confidence
and the reason carry no network-diversity term, whatever the two IP addresses. -/
theorem diversity_needs_three (self : DeviceVerifier) (ids : List String)
    (h2 : 2 ≤ (collectFingerprints self ids).length) :
    (diversityLow (collectFingerprints self ids) = true →
        3 ≤ (collectFingerprints self ids).length) ∧
      ((collectFingerprints self ids).length = 2 →
        (self.VerifyDeviceDistribution ids).confidence
          = max 0 (1 - 0.4 * indicator
                (Impl.DetectSynchronizedTiming (collectFingerprints self ids))
              - 0.3 * ((similarPairCount (collectFingerprints self ids) : Nat) : ℝ)
              - 0.2 * indicator (entropyLow (collectFingerprints self ids))) ∧
        (self.VerifyDeviceDistribution ids).reason
          = (if similarPairCount (collectFingerprints self ids) = 0 then
                (if Impl.DetectSynchronizedTiming (collectFingerprints self ids) = true
                  then "Timing patterns too synchronized" else "")
              else "Devices too similar (likely same hardware)")
            ++ (if entropyLow (collectFingerprints self ids) = true
                  then "; Low timing entropy" else "")) := by
  refine ⟨diversityLow_three _ h2, ?_⟩
  intro hlen
  have hd : diversityLow (collectFingerprints self ids) = false := by
    cases hb : diversityLow (collectFingerprints self ids) with
    | false => rfl
    | true =>
      have := diversityLow_three _ h2 hb
      omega
  have h := Verify_resolved self ids h2
  rw [flaggedCount_eq, hd] at h
  refine ⟨?_, ?_⟩
  · rw [h.1]
    simp only [indicator, Bool.false_eq_true, if_false, mul_zero, sub_zero]
  · rw [h.2.2.2]
    simp only [Bool.false_eq_true, if_false, String.append_empty]

/-- C34 (witness): two devices registered with the same IP address. -/
theorem diversity_needs_three_witness :
    2 ≤ (collectFingerprints registryAB ["A", "B"]).length ∧
      (collectFingerprints registryAB ["A", "B"]).length = 2 ∧
      deviceA.ip_address = deviceB.ip_address ∧
      diversityLow (collectFingerprints registryAB ["A", "B"]) = false := by
  have h2 : 2 ≤ (collectFingerprints registryAB ["A", "B"]).length := by
    rw [collect_A_B]; exact Nat.le_refl 2
  have h := (diversity_needs_three registryAB ["A", "B"] h2).1
  refine ⟨h2, by rw [collect_A_B]; rfl, ?_, ?_⟩
  · simp [deviceA, deviceB, sampleFingerprint]
  · cases hb : diversityLow (collectFingerprints registryAB ["A", "B"]) with
    | false => rfl
    | true =>
      have h3 := h hb
      rw [collect_A_B] at h3
      exact absurd h3 (by decide)

/-- C35 (counterexample): eleven samples in eleven distinct buckets; with the correctly
rounded `log2` the binary64 loop returns `1947486868576081 / 2^49`
(3.4594316186372982), which is above `log2 11` (3.45943161863729725...). -/
theorem entropy_above_log2_of_bucket_count :
    (timingsEleven.map (fun t => t / 1000)).dedup.length = 11 ∧
      Binary64.CalculateTimingEntropy Libm.correctlyRounded timingsEleven
        = 1947486868576081 / 562949953421312 ∧
      Real.logb 2 11
        < Binary64.CalculateTimingEntropy Libm.correctlyRounded timingsEleven := by
  refine ⟨by decide, Binary64_entropy_eleven, ?_⟩
  rw [Binary64_entropy_eleven]
  exact logb_two_eleven_lt

/-- C35 (amended): for a C library whose `log2` is non-positive on the positive `double`
values up to 1 and within 1/16 of the exact logarithm there, the binary64
`CalculateTimingEntropy` of fewer than `2^53` samples is non-negative; and whenever at
least two ids resolve and the pooled non-zero timing samples occupy fewer than 4 distinct
1 ms buckets, the computed entropy is below 2.0, so `VerifyDeviceDistribution` applies
the 0.2 low-timing-entropy deduction. -/
theorem entropy_deduction_binary64 (L : Libm) (timings : List Nat) (self : DeviceVerifier)
    (ids : List String)
    (hL : ∀ x : ℝ, 1 / 2 ^ 1074 ≤ x → x ≤ 1 →
      L.log2 x ≤ 0 ∧ Real.logb 2 x - 1 / 16 ≤ L.log2 x)
    (hT : timings.length < 2 ^ 53)
    (h2 : 2 ≤ (collectFingerprints self ids).length)
    (hN : (pooledTimings (collectFingerprints self ids)).length < 2 ^ 53)
    (h4 : ((pooledTimings (collectFingerprints self ids)).map
      (fun t => t / 1000)).dedup.length < 4) :
    0 ≤ Binary64.CalculateTimingEntropy L timings ∧
      Binary64.CalculateTimingEntropy L (pooledTimings (collectFingerprints self ids)) < 2 ∧
      Binary64.entropyLow L (collectFingerprints self ids) = true ∧
      (Binary64.VerifyDeviceDistribution L self ids).confidence
        = max 0 (min 1 (Binary64.deductions
            (Binary64.DetectSynchronizedTiming L (collectFingerprints self ids))
            (Binary64.similarPairCount L (collectFingerprints self ids))
            (Binary64.diversityLow (collectFingerprints self ids))
            true)) := by
  have hlt := Binary64_entropy_few_buckets L hL _ hN h4
  have he : Binary64.entropyLow L (collectFingerprints self ids) = true := by
    unfold Binary64.entropyLow
    simp only [decide_eq_true_eq]
    have e : (2.0 : ℝ) = 2 := by norm_num
    rw [e]
    exact hlt
  have h := (Binary64_Verify_resolved L self ids h2).1
  rw [Binary64_flaggedCount_eq, he] at h
  exact ⟨Binary64_entropy_nonneg L hL timings hT, hlt, he, h⟩

/-- Witness of C35 (amended): the correctly rounded C library, the samples 500, 1500, 2500
microseconds, and the devices `A` and `B`, registered and never updated, whose pool of
non-zero samples is empty. -/
theorem entropy_deduction_binary64_witness :
    (∀ x : ℝ, 1 / 2 ^ 1074 ≤ x → x ≤ 1 →
        Libm.correctlyRounded.log2 x ≤ 0 ∧
          Real.logb 2 x - 1 / 16 ≤ Libm.correctlyRounded.log2 x) ∧
      2 ≤ (collectFingerprints registryAB ["A", "B"]).length ∧
      0 ≤ Binary64.CalculateTimingEntropy Libm.correctlyRounded [500, 1500, 2500] ∧
      Binary64.entropyLow Libm.correctlyRounded (collectFingerprints registryAB ["A", "B"])
        = true :=
  have hp : pooledTimings (collectFingerprints registryAB ["A", "B"]) = [] := by
    rw [collect_A_B, deviceA, deviceB, pooled_sample]
  have h := entropy_deduction_binary64 Libm.correctlyRounded [500, 1500, 2500] registryAB
    ["A", "B"] correctlyRounded_log2_accurate (by norm_num)
    (by rw [collect_A_B]; exact Nat.le_refl 2)
    (by rw [hp]; norm_num) (by rw [hp]; decide)
  ⟨correctlyRounded_log2_accurate, by rw [collect_A_B]; exact Nat.le_refl 2, h.1, h.2.2.1⟩

/-- C36: in every registry state reached from the empty registry by `RegisterDevice`,
`UpdateDeviceFingerprint` and `FormMiningSquad` calls, an id is a key of the fingerprint
map exactly when it is a key of the registration-time map; so for a registered device
`GetDeviceRewardMultiplier` finds the registration time and returns 1.0 whenever fewer
than 24 whole hours have passed since it. -/
theorem registry_key_sets_agree (calls : List Call) (id : String) :
    (((runCalls calls).m_devices.find id).isSome
        = ((runCalls calls).m_registration_times.find id).isSome) ∧
      (∀ fp : DeviceFingerprint, (runCalls calls).m_devices.find id = some fp →
        ∃ t0 : Int, (runCalls calls).m_registration_times.find id = some t0 ∧
          ∀ now_age now_seen : Int, durationHours (now_age - t0) < 24 →
            (runCalls calls).GetDeviceRewardMultiplier now_age now_seen id = 1.0) := by
  have hk := runCalls_keys calls id
  refine ⟨hk, ?_⟩
  intro fp hfp
  rw [hfp, Option.isSome_some] at hk
  cases ht : (runCalls calls).m_registration_times.find id with
  | none => rw [ht] at hk; exact absurd hk (by simp)
  | some t0 =>
    refine ⟨t0, rfl, ?_⟩
    intro now_age now_seen hage
    exact GetDeviceRewardMultiplier_young _ now_age now_seen t0 id ht
      ((durationHours_lt_iff _).mp hage)

/-- C36 (evaluation): after `RegisterDevice("A", deviceA)` at tick 0 the id `A` is a key
of both maps, and the multiplier is 1.0 one hour later. -/
theorem registry_key_sets_agree_witness :
    (runCalls [Call.registerDevice 0 "A" deviceA]).m_devices.find "A" = some deviceA ∧
      ∃ t0 : Int,
        (runCalls [Call.registerDevice 0 "A" deviceA]).m_registration_times.find "A" = some t0 ∧
          ∀ now_age now_seen : Int, durationHours (now_age - t0) < 24 →
            (runCalls [Call.registerDevice 0 "A" deviceA]).GetDeviceRewardMultiplier
              now_age now_seen "A" = 1.0 := by
  have hA : (runCalls [Call.registerDevice 0 "A" deviceA]).m_devices.find "A"
      = some deviceA := by
    simp [runCalls, DeviceVerifier.call, DeviceVerifier.RegisterDevice, DeviceVerifier.empty,
      Map.find, Map.assign]
  exact ⟨hA, (registry_key_sets_agree [Call.registerDevice 0 "A" deviceA] "A").2 deviceA hA⟩

/-- C37 (counterexample): `RegisterDevice("F", fp)` with `fp.device_id = "E"` stores a
fingerprint under the key `F` whose `device_id` is `E`. -/
theorem stored_device_id_differs_from_key :
    (runCalls [Call.registerDevice 0 "F" deviceE]).m_devices.find "F" = some deviceE ∧
      deviceE.device_id = "E" ∧ deviceE.device_id ≠ "F" := by
  refine ⟨?_, ?_, ?_⟩
  · simp [runCalls, DeviceVerifier.call, DeviceVerifier.RegisterDevice, DeviceVerifier.empty,
      Map.find, Map.assign]
  · simp [deviceE, sampleFingerprint]
  · simp [deviceE, sampleFingerprint]

/-- C37 (amended): in every registry state reached from the empty registry by calls in
which every `RegisterDevice(id, fp)` has `fp.device_id = id`, the fingerprint stored
under a key has that key as its `device_id`, and the string hashed by
`GetFingerprintHash` starts with that key. -/
theorem stored_device_id_is_key (calls : List Call) (hcalls : ∀ c ∈ calls, c.idMatches) :
    ∀ (id : String) (fp : DeviceFingerprint),
      (runCalls calls).m_devices.find id = some fp →
        fp.device_id = id ∧
          fp.hashInput = id ++ "|"
            ++ toString fp.avg_nonce_time_us ++ "|"
            ++ toString fp.timing_variance_us ++ "|"
            ++ fp.firmware_version ++ "|"
            ++ toString fp.chip_count ++ "|"
            ++ toString fp.memory_size_mb := by
  have hinv : ∀ (id : String) (fp : DeviceFingerprint),
      (runCalls calls).m_devices.find id = some fp → fp.device_id = id := by
    unfold runCalls
    refine foldl_call_invariant Call.idMatches
      (fun s => ∀ (id : String) (fp : DeviceFingerprint), s.m_devices.find id = some fp →
        fp.device_id = id)
      call_id_invariant calls DeviceVerifier.empty ?_ hcalls
    intro id fp h
    simp [DeviceVerifier.empty, Map.find] at h
  intro id fp h
  have e := hinv id fp h
  refine ⟨e, ?_⟩
  unfold DeviceFingerprint.hashInput
  rw [e]

/-- C37 (amended, witness): a sequence of four calls on devices `A` and `B`. -/
theorem stored_device_id_is_key_witness :
    (∀ c ∈ [Call.registerDevice 0 "A" deviceA,
        Call.updateDeviceFingerprint 1 "A" (sampleShare 11 1),
        Call.registerDevice 2 "B" deviceB,
        Call.formMiningSquad 3 3 ["A", "B"]], c.idMatches) ∧
      ∀ (id : String) (fp : DeviceFingerprint),
        (runCalls [Call.registerDevice 0 "A" deviceA,
          Call.updateDeviceFingerprint 1 "A" (sampleShare 11 1),
          Call.registerDevice 2 "B" deviceB,
          Call.formMiningSquad 3 3 ["A", "B"]]).m_devices.find id = some fp →
        fp.device_id = id :=
  have h : ∀ c ∈ [Call.registerDevice 0 "A" deviceA,
      Call.updateDeviceFingerprint 1 "A" (sampleShare 11 1),
      Call.registerDevice 2 "B" deviceB,
      Call.formMiningSquad 3 3 ["A", "B"]], c.idMatches := by
    intro c hc
    simp only [List.mem_cons, List.mem_singleton, List.not_mem_nil, or_false] at hc
    rcases hc with rfl | rfl | rfl | rfl
    · simp [Call.idMatches, deviceA, sampleFingerprint]
    · trivial
    · simp [Call.idMatches, deviceB, sampleFingerprint]
    · trivial
  ⟨h, fun id fp hf => (stored_device_id_is_key _ h id fp hf).1⟩

/-- C38: `MiningSquad::AddDevice` returns true exactly when the squad has fewer than 10
members and the id is not a member, and then appends the id at the end of the member
list; otherwise it returns false and leaves the squad unchanged. It preserves "at most
10 members" and "members pairwise distinct". -/
theorem AddDevice_specification (squad : MiningSquad) (device_id : String) :
    ((squad.AddDevice device_id).1 = true ↔
        (squad.member_devices.length < 10 ∧ device_id ∉ squad.member_devices)) ∧
      ((squad.AddDevice device_id).1 = true →
        (squad.AddDevice device_id).2
          = { squad with member_devices := squad.member_devices ++ [device_id] }) ∧
      ((squad.AddDevice device_id).1 = false → (squad.AddDevice device_id).2 = squad) ∧
      (squad.member_devices.length ≤ 10 →
        (squad.AddDevice device_id).2.member_devices.length ≤ 10) ∧
      (squad.member_devices.Nodup → (squad.AddDevice device_id).2.member_devices.Nodup) := by
  unfold MiningSquad.AddDevice
  by_cases h10 : squad.member_devices.length ≥ 10
  · have hlt : ¬ squad.member_devices.length < 10 := by omega
    simp only [h10, if_true, hlt, false_and, Bool.false_eq_true, false_implies, true_and,
      implies_true, imp_self, and_self]
  · by_cases hm : device_id ∈ squad.member_devices
    · simp only [h10, if_false, hm, if_true, not_true_eq_false, and_false,
        Bool.false_eq_true, false_implies, true_and, implies_true, imp_self, and_self]
    · have hlt : squad.member_devices.length < 10 := by omega
      simp only [h10, if_false, hm, not_false_eq_true, hlt, and_self, true_and, implies_true,
        Bool.true_eq_false, false_implies, List.length_append, List.length_singleton]
      refine ⟨fun _ => by omega, fun hn => ?_⟩
      rw [List.nodup_append]
      refine ⟨hn, List.nodup_singleton _, ?_⟩
      intro a ha hb
      rw [List.mem_singleton] at hb
      exact hm (hb ▸ ha)

/-- C38 (evaluation): adding `C` to the squad `[A, B]` succeeds and yields `[A, B, C]`;
adding `A` fails and leaves the members unchanged. -/
theorem AddDevice_specification_witness :
    (squadAB.AddDevice "C").1 = true ∧
      (squadAB.AddDevice "C").2.member_devices = ["A", "B", "C"] ∧
      (squadAB.AddDevice "A").1 = false ∧
      (squadAB.AddDevice "A").2 = squadAB := by
  have hC := AddDevice_specification squadAB "C"
  have hA := AddDevice_specification squadAB "A"
  have h1 : (squadAB.AddDevice "C").1 = true :=
    hC.1.mpr ⟨by simp [squadAB], by simp [squadAB]⟩
  have h2 : (squadAB.AddDevice "A").1 = false := by
    cases hb : (squadAB.AddDevice "A").1 with
    | false => rfl
    | true => exact absurd (hA.1.mp hb).2 (by simp [squadAB])
  refine ⟨h1, ?_, h2, hA.2.2.1 h2⟩
  rw [hC.2.1 h1]
  simp [squadAB]

/-- C39 (evaluation at the failing input): for the totals 1 and 3 the Gini formula gives
`1/4`, and `GetStatistics` returns `(2^64 + 2) / 8`, which is not below 1. -/
theorem gini_unsigned_wraparound :
    statsOneThree.m_miner_totals.find "a" = some 1 ∧
      statsOneThree.m_miner_totals.find "b" = some 3 ∧
      giniFormula [1, 3] = 1 / 4 ∧
      statsOneThree.GetStatistics.gini_coefficient = (2 ^ 64 + 2) / 8 ∧
      ¬ statsOneThree.GetStatistics.gini_coefficient < 1 := by
  refine ⟨by decide, by decide, ?_, statsOneThree_gini, ?_⟩
  · have he : ([1, 3] : List Int).enum = [(0, 1), (1, 3)] := by decide
    unfold giniFormula
    simp only [sorted_one_three, he, List.map_cons, List.map_nil, List.sum_cons, List.sum_nil,
      List.length_cons, List.length_nil]
    norm_num
  · rw [statsOneThree_gini]
    norm_num

/-- C40 (evaluation at the failing input): the devices of Scenario 1 number five, their
timing variances are 0.15, 0.22, 0.18, 0.25, 0.20 with spread exactly 0.10, their five IP
addresses are distinct and they show three nonce patterns, and `VerifyDevices` returns
false for them. -/
theorem scenario1_rejected :
    2 ≤ real_devices.length ∧
      (real_devices.map (fun dev => dev.timing_variance)) = [0.15, 0.22, 0.18, 0.25, 0.20] ∧
      (0.25 : ℝ) - 0.15 = 0.10 ∧
      (real_devices.map (fun dev => dev.ip_address)).dedup.length = 5 ∧
      (real_devices.map (fun dev => dev.nonce_pattern)).dedup.length = 3 ∧
      SimplePoDDVerifier.VerifyDevices real_devices = false := by
  have hip : (real_devices.map (fun dev => dev.ip_address)).dedup.length = 5 := by
    simp [real_devices]
  have hpat : (real_devices.map (fun dev => dev.nonce_pattern)).dedup.length = 3 := by
    simp [real_devices]
  refine ⟨by simp [real_devices], by simp [real_devices], by norm_num, hip, hpat, ?_⟩
  have hmin : real_devices.foldl (fun (m : ℝ) (dev : DeviceInfo) => min m dev.timing_variance)
      0.15 = 0.15 := by
    simp only [real_devices, List.foldl_cons, List.foldl_nil]
    norm_num
  have hmax : real_devices.foldl (fun (m : ℝ) (dev : DeviceInfo) => max m dev.timing_variance)
      0.15 = 0.25 := by
    simp only [real_devices, List.foldl_cons, List.foldl_nil]
    norm_num
  have hspread : ¬ ((0.25 : ℝ) - 0.15 > 0.1) := by norm_num
  have h0 : SimplePoDDVerifier.VerifyDevices real_devices
      = (decide (real_devices.foldl
            (fun (m : ℝ) (dev : DeviceInfo) => max m dev.timing_variance) 0.15
          - real_devices.foldl
            (fun (m : ℝ) (dev : DeviceInfo) => min m dev.timing_variance) 0.15 > 0.1)
        && decide ((real_devices.map (fun dev => dev.ip_address)).dedup.length
            > real_devices.length / 2)
        && decide ((real_devices.map (fun dev => dev.nonce_pattern)).dedup.length > 1)) := by
    rfl
  rw [h0, hmin, hmax]
  simp only [hspread, decide_False, Bool.false_and]

end PoDD
